import Mathlib

/-! Particle system (engine/video/particle_system.cpp)

A shallow embedding of `vt_mode_manager::ParticleSystem`.

Conventions of the embedding:

* `float` values are modelled by rationals; `/` is the total division of `ℚ`.
  Where a float result decides an integer (it goes through `floorf`, `ceilf` or
  a conversion to an integer type), the products, quotients and differences
  that produce it are rounded to single precision by `roundFloat`. The running
  sums of time (`_age += frame_time`) are kept exact; a statement about the
  emission count assumes that the sum is a float.
* `int32_t` counters are modelled by `Int`, `size_t` indices by `Nat` (with an
  explicit `% 2 ^ 64` where the source subtracts from an index); the `int32_t`
  arithmetic of the emission count wraps around modulo `2 ^ 32` (`wrapInt32`).
* Pointers into `_system_def->keyframes` are modelled by indices into the
  keyframe list, a null pointer by `none`.
* `std::vector` accesses are `List.getD`/`List.set`: a read outside the vector
  yields a default element and a write outside it is dropped.
* The process-wide random generator is made explicit: the system carries the
  number of draws taken so far, and the `n`-th draw is a function of `n`.
* A function returns `none` when the source call does not return: a null
  `_system_def` is dereferenced, or a loop exceeds the iteration allowance.
-/

namespace vt_mode_manager

/-! ## Data model -/

/-- A pair of floats (`vt_common::Position2D`). -/
structure Position2D where
  x : ℚ
  y : ℚ
deriving DecidableEq

instance : Inhabited Position2D := ⟨⟨0, 0⟩⟩

/-- Squared length of a vector (`Position2D::GetLength2`). -/
def Position2D.GetLength2 (v : Position2D) : ℚ := v.x * v.x + v.y * v.y

/-- An RGBA color (`vt_video::Color`), channels `color[0]` .. `color[3]`. -/
structure Color where
  c0 : ℚ
  c1 : ℚ
  c2 : ℚ
  c3 : ℚ
deriving DecidableEq

instance : Inhabited Color := ⟨⟨0, 0, 0, 0⟩⟩

/-- A texture coordinate pair of the render buffer. -/
structure TexCoord where
  t0 : ℚ
  t1 : ℚ
deriving DecidableEq

instance : Inhabited TexCoord := ⟨⟨0, 0⟩⟩

/-- Emitter shapes (`EMITTER_SHAPE`). -/
inductive EMITTER_SHAPE where
  | POINT
  | LINE
  | CIRCLE
  | ELLIPSE
  | FILLED_CIRCLE
  | FILLED_RECTANGLE
deriving DecidableEq

/-- Emission modes (`EMITTER_MODE`). -/
inductive EMITTER_MODE where
  | LOOPING
  | ONE_SHOT
  | BURST
  | ALWAYS
deriving DecidableEq

/-- Spin directions (`EMITTER_SPIN`). -/
inductive EMITTER_SPIN where
  | CLOCKWISE
  | COUNTERCLOCKWISE
  | RANDOM
deriving DecidableEq

/-- The emitter of a particle system definition (`ParticleEmitter`). -/
structure ParticleEmitter where
  _pos : Position2D
  _pos2 : Position2D
  _center : Position2D
  _variation : Position2D
  _radius : ℚ
  _shape : EMITTER_SHAPE
  _omnidirectional : Bool
  _orientation : ℚ
  _angle_variation : ℚ
  _initial_speed : ℚ
  _initial_speed_variation : ℚ
  _emission_rate : ℚ
  _start_time : ℚ
  _emitter_mode : EMITTER_MODE
  _spin : EMITTER_SPIN
deriving DecidableEq

/-- One keyframe of the particle properties (`ParticleKeyframe`). -/
structure ParticleKeyframe where
  time : ℚ
  color : Color
  color_variation : Color
  size : Position2D
  size_variation : Position2D
  rotation_speed : ℚ
  rotation_speed_variation : ℚ
deriving DecidableEq

instance : Inhabited ParticleKeyframe := ⟨⟨0, default, default, default, default, 0, 0⟩⟩

/-- The definition a system is created from (`ParticleSystemDef`).
`max_particles` is the capacity, a count: it sizes the pool through
`std::vector::resize`. -/
structure ParticleSystemDef where
  enabled : Bool
  max_particles : Nat
  emitter : ParticleEmitter
  keyframes : List ParticleKeyframe
  animation_frame_filenames : List String
  animation_frame_times : List Int
  system_lifetime : ℚ
  particle_lifetime : ℚ
  particle_lifetime_variation : ℚ
  random_initial_angle : Bool
  tangential_acceleration : ℚ
  tangential_acceleration_variation : ℚ
  radial_acceleration : ℚ
  radial_acceleration_variation : ℚ
  acceleration : Position2D
  acceleration_variation : Position2D
  wind_velocity : Position2D
  wind_velocity_variation : Position2D
  damping : ℚ
  damping_variation : ℚ
  wave_motion_used : Bool
  wave_length : ℚ
  wave_length_variation : ℚ
  wave_amplitude : ℚ
  wave_amplitude_variation : ℚ
  user_defined_attractor : Bool
  attractor_falloff : ℚ
  rotation_used : Bool
  rotate_to_velocity : Bool
  speed_scale_used : Bool
  speed_scale : ℚ
  min_speed_scale : ℚ
  max_speed_scale : ℚ
  smooth_animation : Bool
deriving DecidableEq

/-- Caller-supplied parameters of an update (`EffectParameters`). -/
structure EffectParameters where
  orientation : ℚ
  attractor : Position2D
deriving DecidableEq

/-- One element of the particle pool (`Particle`). -/
structure Particle where
  pos : Position2D
  velocity : Position2D
  combined_velocity : Position2D
  acceleration : Position2D
  wind_velocity : Position2D
  color : Color
  size : Position2D
  rotation_angle : ℚ
  rotation_speed : ℚ
  rotation_direction : ℚ
  time : ℚ
  lifetime : ℚ
  current_keyframe : Option Nat
  next_keyframe : Option Nat
  current_color_variation : Color
  next_color_variation : Color
  current_size_variation : Position2D
  next_size_variation : Position2D
  current_rotation_speed_variation : ℚ
  next_rotation_speed_variation : ℚ
  tangential_acceleration : ℚ
  radial_acceleration : ℚ
  damping : ℚ
  wave_length_coefficient : ℚ
  wave_half_amplitude : ℚ
deriving DecidableEq

instance : Inhabited Particle :=
  ⟨⟨default, default, default, default, default, default, default, 0, 0, 0, 0, 0,
    none, none, default, default, default, default, 0, 0, 0, 0, 0, 0, 0⟩⟩

/-- The frame animation of a system (`vt_video::AnimatedImage`): the frames
added so far, each a file name with its display time, and the cursor. -/
structure AnimatedImage where
  frames : List (String × Int)
  frame_index : Nat
  frame_counter : Int
deriving DecidableEq

/-- Modelled from the spec: `AnimatedImage::AddFrame` is not part of the
sources at hand; it pairs a frame with its display duration and appends it to
the animation sequence. -/
def AnimatedImage.AddFrame (a : AnimatedImage) (frame : String) (frame_time : Int) :
    AnimatedImage :=
  { a with frames := a.frames ++ [(frame, frame_time)] }

/-- The collaborators of the particle system that are not part of the sources
at hand, taken as parameters: the random provider (`RandomFloat`, `rand`, as
functions of the index of the draw), the float library, `RotatePoint`,
`IsFloatEqual`, the two angle constants and `AnimatedImage::Update`. -/
structure Env where
  RandomFloat : ℚ → ℚ → Nat → ℚ
  rand : Nat → Int
  sinf : ℚ → ℚ
  cosf : ℚ → ℚ
  sqrtf : ℚ → ℚ
  pow : ℚ → ℚ → ℚ
  RotatePoint : ℚ → ℚ → ℚ → ℚ × ℚ
  IsFloatEqual : ℚ → ℚ → Bool
  UTILS_2PI : ℚ
  UTILS_HALF_PI : ℚ
  AnimationUpdate : AnimatedImage → AnimatedImage

/-- The state of a particle system (`ParticleSystem`), together with
`random_draws`, the number of draws taken so far from the random provider. -/
structure ParticleSystem where
  system_def : Option ParticleSystemDef
  animation : AnimatedImage
  num_particles : Int
  particles : List Particle
  particle_vertices : List Position2D
  particle_texcoords : List TexCoord
  particle_colors : List Color
  age : ℚ
  last_update_time : ℚ
  alive : Bool
  stopped : Bool
  random_draws : Nat
deriving DecidableEq

/-- `std::vector::resize`: keeps the first `n` elements and pads with
default-constructed ones. -/
def resize {α : Type} [Inhabited α] (v : List α) (n : Nat) : List α :=
  v.take n ++ List.replicate (n - v.length) default

/-! ## Creation and destruction -/

/-- `ParticleSystem::_Destroy`. -/
def _Destroy (s : ParticleSystem) : ParticleSystem :=
  { s with
    num_particles := 0
    age := 0
    last_update_time := 0
    alive := false
    stopped := false
    particles := []
    particle_vertices := []
    system_def := none }

/-- The frame time given to frame `j` by the loop of `_Create`. -/
def frameTime (times : List Int) (j : Nat) : Int :=
  if j < times.length then times.getD j 0
  else if times.isEmpty then 0
  else times.getLastD 0

/-- The frame loop of `ParticleSystem::_Create`: frames `0 .. num_frames - 1`
are added in order. -/
def addFrames (d : ParticleSystemDef) (a : AnimatedImage) : AnimatedImage :=
  (List.range d.animation_frame_filenames.length).foldl
    (fun a j => a.AddFrame (d.animation_frame_filenames.getD j "")
      (frameTime d.animation_frame_times j)) a

/-- `ParticleSystem::_Create`: the returned flag and the system afterwards. -/
def _Create (s : ParticleSystem) (sys_def : Option ParticleSystemDef) :
    Bool × ParticleSystem :=
  match sys_def with
  | none => (false, _Destroy s)
  | some d =>
    (true,
      { s with
        system_def := some d
        num_particles := 0
        particles := resize s.particles d.max_particles
        particle_vertices := resize s.particle_vertices (d.max_particles * 4)
        particle_texcoords := resize s.particle_texcoords (d.max_particles * 4)
        particle_colors := resize s.particle_colors (d.max_particles * 4)
        alive := true
        stopped := false
        age := 0
        animation := addFrames d s.animation })

/-- Modelled from the spec: `ParticleSystem::Stop` is declared in the header,
which is not part of the sources at hand; it marks the system stopped. -/
def Stop (s : ParticleSystem) : ParticleSystem :=
  { s with stopped := true }

/-- Modelled from the spec: `ParticleSystem::IsAlive` is declared in the
header, which is not part of the sources at hand; it reports `alive`. -/
def IsAlive (s : ParticleSystem) : Bool := s.alive

/-- Modelled from the spec: `ParticleSystem::IsStopped` is declared in the
header, which is not part of the sources at hand; it reports `stopped`. -/
def IsStopped (s : ParticleSystem) : Bool := s.stopped

/-! ## Respawning a particle -/

/-- The rejection loop of the filled-circle shape in `_RespawnParticle`
(`do { ... } while (x * x + y * y > radius_squared)`), run for at most `fuel`
iterations; yields the accepted point and the draw counter afterwards. -/
def sampleFilledCircle (env : Env) (radius : ℚ) : Nat → Nat → Option (ℚ × ℚ × Nat)
  | 0, _ => none
  | fuel + 1, n =>
    let radius_squared := radius * radius
    let half_radius := radius * (1 / 2)
    let x := env.RandomFloat (-half_radius) half_radius n
    let y := env.RandomFloat (-half_radius) half_radius (n + 1)
    if x * x + y * y > radius_squared then sampleFilledCircle env radius fuel (n + 2)
    else some (x, y, n + 2)

/-- The `switch (emitter._shape)` of `_RespawnParticle`: the sampled position
and the draw counter afterwards. -/
def respawnPosition (env : Env) (emitter : ParticleEmitter) (fuel : Nat) (n : Nat) :
    Option (Position2D × Nat) :=
  match emitter._shape with
  | EMITTER_SHAPE.POINT => some (⟨emitter._pos.x, emitter._pos.y⟩, n)
  | EMITTER_SHAPE.LINE =>
    some (⟨env.RandomFloat emitter._pos.x emitter._pos2.x n,
           env.RandomFloat emitter._pos.y emitter._pos2.y (n + 1)⟩, n + 2)
  | EMITTER_SHAPE.CIRCLE =>
    let angle := env.RandomFloat 0 env.UTILS_2PI n
    some (⟨emitter._radius * env.cosf angle + emitter._pos.x,
           emitter._radius * env.sinf angle + emitter._pos.y⟩, n + 1)
  | EMITTER_SHAPE.ELLIPSE =>
    let angle := env.RandomFloat 0 env.UTILS_2PI n
    some (⟨emitter._pos.x * env.cosf angle + emitter._pos2.x,
           emitter._pos.y * env.sinf angle + emitter._pos2.y⟩, n + 1)
  | EMITTER_SHAPE.FILLED_CIRCLE =>
    match sampleFilledCircle env emitter._radius fuel n with
    | none => none
    | some (x, y, n1) => some (⟨x + emitter._pos.x, y + emitter._pos.y⟩, n1)
  | EMITTER_SHAPE.FILLED_RECTANGLE =>
    some (⟨env.RandomFloat emitter._pos.x emitter._pos2.x n,
           env.RandomFloat emitter._pos.y emitter._pos2.y (n + 1)⟩, n + 2)

/-- The statement pattern `x = base; if (v != 0.0f) x += RandomFloat(-v, v);`
of `_RespawnParticle`. -/
def withVariation (env : Env) (base v : ℚ) (n : Nat) : ℚ × Nat :=
  if v ≠ 0 then (base + env.RandomFloat (-v) v n, n + 1) else (base, n)

/-- The keyframe a (possibly null) keyframe pointer refers to. -/
def keyframeAt (d : ParticleSystemDef) (i : Option Nat) : ParticleKeyframe :=
  match i with
  | some i => d.keyframes.getD i default
  | none => default

/-- The part of `_RespawnParticle` after the shape switch, on the particle
record of the slot: positional jitter and rotation, initial keyframe state,
spin, velocity, variations, physical coefficients, wave motion, lifetime. -/
def respawnFrom (env : Env) (d : ParticleSystemDef) (params : EffectParameters)
    (p : Particle) (pos0 : Position2D) (n0 : Nat) : Particle × Nat :=
  let emitter := d.emitter
  let kf0 := d.keyframes.getD 0 default
  let kf1 := d.keyframes.getD 1 default
  let pos : Position2D :=
    ⟨pos0.x + env.RandomFloat (-emitter._variation.x) emitter._variation.x n0,
     pos0.y + env.RandomFloat (-emitter._variation.y) emitter._variation.y (n0 + 1)⟩
  let n := n0 + 2
  let pos : Position2D :=
    if params.orientation ≠ 0 then
      ⟨(env.RotatePoint pos.x pos.y params.orientation).1,
       (env.RotatePoint pos.x pos.y params.orientation).2⟩
    else pos
  let p := { p with pos := pos, color := kf0.color, rotation_speed := kf0.rotation_speed,
                    time := 0, size := kf0.size }
  let (rotation_angle, n) :=
    if d.random_initial_angle then (env.RandomFloat 0 env.UTILS_2PI n, n + 1) else ((0 : ℚ), n)
  let p := { p with rotation_angle := rotation_angle, current_keyframe := some 0,
                    next_keyframe := if d.keyframes.length > 1 then some 1 else none }
  let speed := emitter._initial_speed
    + env.RandomFloat (-emitter._initial_speed_variation) emitter._initial_speed_variation n
  let n := n + 1
  let (rotation_direction, n) :=
    match emitter._spin with
    | EMITTER_SPIN.CLOCKWISE => ((1 : ℚ), n)
    | EMITTER_SPIN.COUNTERCLOCKWISE => ((-1 : ℚ), n)
    | EMITTER_SPIN.RANDOM => ((((2 * (env.rand n % 2) : Int) : ℚ) - 1), n + 1)
  let p := { p with rotation_direction := rotation_direction }
  let (angle, n) :=
    if emitter._omnidirectional then (env.RandomFloat 0 env.UTILS_2PI n, n + 1)
    else if !env.IsFloatEqual emitter._angle_variation 0 then
      (emitter._orientation + params.orientation
        + env.RandomFloat (-emitter._angle_variation) emitter._angle_variation n, n + 1)
    else (emitter._orientation + params.orientation, n)
  let p := { p with velocity := ⟨speed * env.cosf angle, speed * env.sinf angle⟩ }
  let p := { p with
    current_size_variation :=
      ⟨env.RandomFloat (-kf0.size_variation.x) kf0.size_variation.x n,
       env.RandomFloat (-kf0.size_variation.y) kf0.size_variation.y (n + 1)⟩
    current_color_variation :=
      ⟨env.RandomFloat (-kf0.color_variation.c0) kf0.color_variation.c0 (n + 2),
       env.RandomFloat (-kf0.color_variation.c1) kf0.color_variation.c1 (n + 3),
       env.RandomFloat (-kf0.color_variation.c2) kf0.color_variation.c2 (n + 4),
       env.RandomFloat (-kf0.color_variation.c3) kf0.color_variation.c3 (n + 5)⟩
    current_rotation_speed_variation :=
      env.RandomFloat (-kf0.rotation_speed_variation) kf0.rotation_speed_variation (n + 6) }
  let n := n + 7
  let p :=
    if d.keyframes.length > 1 then
      { p with
        next_size_variation :=
          ⟨env.RandomFloat (-kf1.size_variation.x) kf1.size_variation.x n,
           env.RandomFloat (-kf1.size_variation.y) kf1.size_variation.y (n + 1)⟩
        next_color_variation :=
          ⟨env.RandomFloat (-kf1.color_variation.c0) kf1.color_variation.c0 (n + 2),
           env.RandomFloat (-kf1.color_variation.c1) kf1.color_variation.c1 (n + 3),
           env.RandomFloat (-kf1.color_variation.c2) kf1.color_variation.c2 (n + 4),
           env.RandomFloat (-kf1.color_variation.c3) kf1.color_variation.c3 (n + 5)⟩
        next_rotation_speed_variation :=
          env.RandomFloat (-kf1.rotation_speed_variation) kf1.rotation_speed_variation (n + 6) }
    else
      { p with
        color :=
          ⟨p.color.c0 + env.RandomFloat (-p.current_color_variation.c0)
              p.current_color_variation.c0 n,
           p.color.c1 + env.RandomFloat (-p.current_color_variation.c1)
              p.current_color_variation.c1 (n + 1),
           p.color.c2 + env.RandomFloat (-p.current_color_variation.c2)
              p.current_color_variation.c2 (n + 2),
           p.color.c3 + env.RandomFloat (-p.current_color_variation.c3)
              p.current_color_variation.c3 (n + 3)⟩
        size :=
          ⟨p.size.x + env.RandomFloat (-p.current_size_variation.x)
              p.current_size_variation.x (n + 4),
           p.size.y + env.RandomFloat (-p.current_size_variation.y)
              p.current_size_variation.y (n + 5)⟩
        rotation_speed :=
          p.rotation_speed + env.RandomFloat (-p.current_rotation_speed_variation)
              p.current_rotation_speed_variation (n + 6) }
  let n := n + 7
  let (tangential_acceleration, n) :=
    withVariation env d.tangential_acceleration d.tangential_acceleration_variation n
  let (radial_acceleration, n) :=
    withVariation env d.radial_acceleration d.radial_acceleration_variation n
  let (acceleration_x, n) := withVariation env d.acceleration.x d.acceleration_variation.x n
  let (acceleration_y, n) := withVariation env d.acceleration.y d.acceleration_variation.y n
  let (wind_velocity_x, n) := withVariation env d.wind_velocity.x d.wind_velocity_variation.x n
  let (wind_velocity_y, n) := withVariation env d.wind_velocity.y d.wind_velocity_variation.y n
  let (damping, n) := withVariation env d.damping d.damping_variation n
  let p := { p with
    tangential_acceleration := tangential_acceleration
    radial_acceleration := radial_acceleration
    acceleration := ⟨acceleration_x, acceleration_y⟩
    wind_velocity := ⟨wind_velocity_x, wind_velocity_y⟩
    damping := damping }
  let (p, n) :=
    if d.wave_motion_used then
      let (wave_length, n) := withVariation env d.wave_length d.wave_length_variation n
      let (wave_amplitude, n) :=
        if d.wave_amplitude ≠ 0 then
          (d.wave_amplitude
            + env.RandomFloat (-d.wave_amplitude_variation) d.wave_amplitude_variation n, n + 1)
        else (d.wave_amplitude, n)
      ({ p with wave_length_coefficient := env.UTILS_2PI / wave_length,
                wave_half_amplitude := wave_amplitude * (1 / 2) }, n)
    else (p, n)
  ({ p with lifetime := d.particle_lifetime
      + env.RandomFloat (-d.particle_lifetime_variation) d.particle_lifetime_variation n }, n + 1)

/-- `ParticleSystem::_RespawnParticle` on the record of one slot: `none` when
the rejection loop does not end within `fuel` iterations. -/
def respawnParticle (env : Env) (d : ParticleSystemDef) (fuel : Nat)
    (params : EffectParameters) (p : Particle) (n : Nat) : Option (Particle × Nat) :=
  match respawnPosition env d.emitter fuel n with
  | none => none
  | some (pos0, n0) => some (respawnFrom env d params p pos0 n0)

/-- `ParticleSystem::_RespawnParticle(i, params)`: slot `i` of the pool is
overwritten with a freshly sampled particle. -/
def _RespawnParticle (env : Env) (d : ParticleSystemDef) (fuel : Nat)
    (params : EffectParameters) (s : ParticleSystem) (i : Int) : Option ParticleSystem :=
  match respawnParticle env d fuel params (s.particles.getD i.toNat default) s.random_draws with
  | none => none
  | some (p, n) => some { s with particles := s.particles.set i.toNat p, random_draws := n }

/-- `ParticleSystem::_MoveParticle(src, dest)`. -/
def _MoveParticle (s : ParticleSystem) (src dest : Int) : ParticleSystem :=
  { s with particles := s.particles.set dest.toNat (s.particles.getD src.toNat default) }

/-! ## Per-particle update -/

/-- Modelled from the spec: `Lerp` is not part of the sources at hand; it
interpolates linearly from `a` towards `b` at parameter `alpha`. -/
def Lerp (a b alpha : ℚ) : ℚ := (1 - alpha) * a + alpha * b

/-- The index `k` left by the scan `for (k = 0; k < num_keyframes; ++k)` of
`_UpdateParticles`: the first `k` with `keyframes[k].time > scaled_time`, or
`num_keyframes` when there is none. -/
def keyframeScan (d : ParticleSystemDef) (scaled_time : ℚ) : Nat :=
  d.keyframes.findIdx (fun kf => decide (kf.time > scaled_time))

/-- The index `k - 1` of type `size_t`. -/
def prevIndex (k : Nat) : Nat := (k + 2 ^ 64 - 1) % 2 ^ 64

/-- The keyframe part of the loop body of `_UpdateParticles`
("figure out which keyframe we're on"). -/
def advanceKeyframe (env : Env) (d : ParticleSystemDef) (scaled_time : ℚ)
    (p : Particle) (n : Nat) : Particle × Nat :=
  match p.next_keyframe with
  | none => (p, n)
  | some old_next =>
    if scaled_time ≥ (keyframeAt d p.next_keyframe).time then
      let num_keyframes := d.keyframes.length
      let k := keyframeScan d scaled_time
      let p :=
        if k < num_keyframes then
          { p with current_keyframe := some (prevIndex k), next_keyframe := some k }
        else p
      let p :=
        if k = num_keyframes then
          { p with
            current_keyframe := some (prevIndex k)
            next_keyframe := none
            color := (keyframeAt d (some (prevIndex k))).color
            rotation_speed := (keyframeAt d (some (prevIndex k))).rotation_speed
            size := (keyframeAt d (some (prevIndex k))).size }
        else p
      let (p, n) :=
        if p.current_keyframe = some old_next then
          ({ p with
             current_color_variation := p.next_color_variation
             current_rotation_speed_variation := p.next_rotation_speed_variation
             current_size_variation := p.next_size_variation }, n)
        else
          let kf := keyframeAt d p.current_keyframe
          ({ p with
             current_rotation_speed_variation :=
               env.RandomFloat (-kf.rotation_speed_variation) kf.rotation_speed_variation n
             current_color_variation :=
               ⟨env.RandomFloat (-kf.color_variation.c0) kf.color_variation.c0 (n + 1),
                env.RandomFloat (-kf.color_variation.c1) kf.color_variation.c1 (n + 2),
                env.RandomFloat (-kf.color_variation.c2) kf.color_variation.c2 (n + 3),
                env.RandomFloat (-kf.color_variation.c3) kf.color_variation.c3 (n + 4)⟩
             current_size_variation :=
               ⟨env.RandomFloat (-kf.size_variation.x) kf.size_variation.x (n + 5),
                env.RandomFloat (-kf.size_variation.y) kf.size_variation.y (n + 6)⟩ }, n + 7)
      match p.next_keyframe with
      | none => (p, n)
      | some _ =>
        let kf := keyframeAt d p.next_keyframe
        ({ p with
           next_rotation_speed_variation :=
             env.RandomFloat (-kf.rotation_speed_variation) kf.rotation_speed_variation n
           next_color_variation :=
             ⟨env.RandomFloat (-kf.color_variation.c0) kf.color_variation.c0 (n + 1),
              env.RandomFloat (-kf.color_variation.c1) kf.color_variation.c1 (n + 2),
              env.RandomFloat (-kf.color_variation.c2) kf.color_variation.c2 (n + 3),
              env.RandomFloat (-kf.color_variation.c3) kf.color_variation.c3 (n + 4)⟩
           next_size_variation :=
             ⟨env.RandomFloat (-kf.size_variation.x) kf.size_variation.x (n + 5),
              env.RandomFloat (-kf.size_variation.y) kf.size_variation.y (n + 6)⟩ }, n + 7)
    else (p, n)

/-- The interpolation part of the loop body of `_UpdateParticles`. -/
def interpolate (d : ParticleSystemDef) (scaled_time : ℚ) (p : Particle) : Particle :=
  match p.next_keyframe with
  | none => p
  | some _ =>
    let cur := keyframeAt d p.current_keyframe
    let next := keyframeAt d p.next_keyframe
    let cur_a := (scaled_time - cur.time) / (next.time - cur.time)
    { p with
      rotation_speed :=
        Lerp (cur.rotation_speed + p.current_rotation_speed_variation)
             (next.rotation_speed + p.next_rotation_speed_variation) cur_a
      size :=
        ⟨Lerp (cur.size.x + p.current_size_variation.x)
              (next.size.x + p.next_size_variation.x) cur_a,
         Lerp (cur.size.y + p.current_size_variation.y)
              (next.size.y + p.next_size_variation.y) cur_a⟩
      color :=
        ⟨Lerp (cur.color.c0 + p.current_color_variation.c0)
              (next.color.c0 + p.next_color_variation.c0) cur_a,
         Lerp (cur.color.c1 + p.current_color_variation.c1)
              (next.color.c1 + p.next_color_variation.c1) cur_a,
         Lerp (cur.color.c2 + p.current_color_variation.c2)
              (next.color.c2 + p.next_color_variation.c2) cur_a,
         Lerp (cur.color.c3 + p.current_color_variation.c3)
              (next.color.c3 + p.next_color_variation.c3) cur_a⟩ }

/-- The rotation and combined-velocity part of the loop body of
`_UpdateParticles`, wave motion included. -/
def combineVelocity (env : Env) (d : ParticleSystemDef) (t : ℚ) (p : Particle) : Particle :=
  let p := { p with
    rotation_angle := p.rotation_angle + p.rotation_speed * p.rotation_direction * t }
  let wind_velocity := p.wind_velocity
  let p := { p with
    combined_velocity := ⟨p.velocity.x + wind_velocity.x, p.velocity.y + wind_velocity.y⟩ }
  if d.wave_motion_used ∧ p.wave_half_amplitude > 0 then
    let wave_speed := p.wave_half_amplitude * env.sinf (p.wave_length_coefficient * p.time)
    let tangent : Position2D := ⟨-p.combined_velocity.y, p.combined_velocity.x⟩
    let speed := env.sqrtf tangent.GetLength2
    let tangent : Position2D := ⟨tangent.x / speed, tangent.y / speed⟩
    let wave_velocity : Position2D := ⟨tangent.x * wave_speed, tangent.y * wave_speed⟩
    { p with
      combined_velocity :=
        ⟨p.combined_velocity.x + wave_velocity.x, p.combined_velocity.y + wave_velocity.y⟩ }
  else p

/-- The position and linear acceleration part of the loop body of
`_UpdateParticles`. -/
def integrate (t : ℚ) (p : Particle) : Particle :=
  let p := { p with
    pos := ⟨p.pos.x + p.combined_velocity.x * t, p.pos.y + p.combined_velocity.y * t⟩ }
  { p with
    velocity := ⟨p.velocity.x + p.acceleration.x * t, p.velocity.y + p.acceleration.y * t⟩ }

/-- The radial and tangential acceleration part of the loop body of
`_UpdateParticles`. -/
def attract (env : Env) (d : ParticleSystemDef) (params : EffectParameters) (t : ℚ)
    (p : Particle) : Particle :=
  let use_radial := decide (p.radial_acceleration ≠ 0)
  let use_tangential := decide (p.tangential_acceleration ≠ 0)
  if use_radial || use_tangential then
    let attractor_to_particle : Position2D :=
      if d.user_defined_attractor then
        ⟨p.pos.x - params.attractor.x, p.pos.y - params.attractor.y⟩
      else
        ⟨p.pos.x - d.emitter._center.x, p.pos.y - d.emitter._center.y⟩
    let distance := env.sqrtf attractor_to_particle.GetLength2
    let attractor_to_particle : Position2D :=
      if distance ≠ 0 then
        ⟨attractor_to_particle.x / distance, attractor_to_particle.y / distance⟩
      else attractor_to_particle
    let p :=
      if use_radial then
        if d.attractor_falloff ≠ 0 then
          let attraction := 1 - d.attractor_falloff * distance
          if attraction > 0 then
            { p with velocity :=
                ⟨p.velocity.x + attractor_to_particle.x * p.radial_acceleration * t * attraction,
                 p.velocity.y + attractor_to_particle.y * p.radial_acceleration * t * attraction⟩ }
          else p
        else
          { p with velocity :=
              ⟨p.velocity.x + attractor_to_particle.x * p.radial_acceleration * t,
               p.velocity.y + attractor_to_particle.y * p.radial_acceleration * t⟩ }
      else p
    if use_tangential then
      let tangent : Position2D := ⟨-attractor_to_particle.y, attractor_to_particle.x⟩
      { p with velocity :=
          ⟨p.velocity.x + tangent.x * p.tangential_acceleration * t,
           p.velocity.y + tangent.y * p.tangential_acceleration * t⟩ }
    else p
  else p

/-- The damping and aging part of the loop body of `_UpdateParticles`. -/
def dampAndAge (env : Env) (t : ℚ) (p : Particle) : Particle :=
  let p :=
    if p.damping ≠ 1 then
      { p with velocity := ⟨p.velocity.x * env.pow p.damping t, p.velocity.y * env.pow p.damping t⟩ }
    else p
  { p with time := p.time + t }

/-- The loop body of `ParticleSystem::_UpdateParticles` on the record of one
slot, with the draw counter. -/
def updateParticle (env : Env) (d : ParticleSystemDef) (params : EffectParameters) (t : ℚ)
    (p : Particle) (n : Nat) : Particle × Nat :=
  let scaled_time := p.time / p.lifetime
  let r := advanceKeyframe env d scaled_time p n
  let p := interpolate d scaled_time r.1
  let p := combineVelocity env d t p
  let p := integrate t p
  let p := attract env d params t p
  (dampAndAge env t p, r.2)

/-- The loop body of `ParticleSystem::_UpdateParticles` for slot `j` of the
pool of a system. -/
def updateSlot (env : Env) (d : ParticleSystemDef) (t : ℚ) (params : EffectParameters)
    (s : ParticleSystem) (j : Nat) : ParticleSystem :=
  { s with
    particles :=
      s.particles.set j
        (updateParticle env d params t (s.particles.getD j default) s.random_draws).1
    random_draws :=
      (updateParticle env d params t (s.particles.getD j default) s.random_draws).2 }

/-- `ParticleSystem::_UpdateParticles`: the loop body is applied to the slots
`0 .. _num_particles - 1` in order. -/
def _UpdateParticles (env : Env) (d : ParticleSystemDef) (t : ℚ) (params : EffectParameters)
    (s : ParticleSystem) : ParticleSystem :=
  (List.range s.num_particles.toNat).foldl (updateSlot env d t params) s

/-! ## Machine arithmetic -/

/-- The binary logarithm of a natural number, rounded down, by halving at most
`fuel` times (0 for 0 and 1). -/
def log2Fuel : Nat → Nat → Nat
  | 0, _ => 0
  | fuel + 1, n => if 2 ≤ n then log2Fuel fuel (n / 2) + 1 else 0

/-- The binary exponent of a non-zero rational `x`: the integer `e` with
`2 ^ e ≤ |x| < 2 ^ (e + 1)`, found from the bit lengths of the numerator and the
denominator. -/
def floatExponent (x : ℚ) : Int :=
  if (2 : ℚ) ^ ((log2Fuel x.num.natAbs x.num.natAbs : Int) - (log2Fuel x.den x.den : Int)) ≤ |x|
  then (log2Fuel x.num.natAbs x.num.natAbs : Int) - (log2Fuel x.den x.den : Int)
  else (log2Fuel x.num.natAbs x.num.natAbs : Int) - (log2Fuel x.den x.den : Int) - 1

/-- Rounding to the nearest integer, a tie going to the even one. -/
def roundHalfEven (m : ℚ) : Int :=
  if m - (⌊m⌋ : ℚ) < 1 / 2 then ⌊m⌋
  else if m - (⌊m⌋ : ℚ) > 1 / 2 then ⌊m⌋ + 1
  else if ⌊m⌋ % 2 = 0 then ⌊m⌋ else ⌊m⌋ + 1

/-- Rounding of a real result to `float` (IEEE 754 single precision, round to
nearest, ties to even): the nearest multiple of `2 ^ (e - 23)`, `e` being the
binary exponent, which leaves a significand of 24 bits; below `2 ^ (-126)` the
exponent stays at `-126` (subnormal numbers, multiples of `2 ^ (-149)`). The
overflow to infinity (from `2 ^ 128` on) is not modelled. -/
def roundFloat (x : ℚ) : ℚ :=
  if x = 0 then 0
  else
    (roundHalfEven (x / (2 : ℚ) ^ (max (floatExponent x) (-126) - 23)) : ℚ)
      * (2 : ℚ) ^ (max (floatExponent x) (-126) - 23)

/-- The result of an `int32_t` operation whose exact result is `n`: two's
complement wrap-around into `[-2 ^ 31, 2 ^ 31)`. -/
def wrapInt32 (n : Int) : Int := (n + 2 ^ 31) % 2 ^ 32 - 2 ^ 31

/-- The conversion `static_cast<int32_t>` of a float: the value is truncated
toward zero. For a value whose truncation is not an `int32_t` the conversion is
undefined in C++; the model takes the result of the x86 conversion instruction,
`-2 ^ 31`. -/
def castInt32 (x : ℚ) : Int :=
  if -(2 ^ 31 : ℚ) - 1 < x ∧ x < 2 ^ 31 then (if 0 ≤ x then ⌊x⌋ else ⌈x⌉) else -(2 ^ 31)

/-- The value of `num_particles_to_emit` in the rate-based branch of
`ParticleSystem::Update` before the clamp, as the exact integer
`static_cast<int32_t>(time_high - time_low) - 1`: the products
`_last_update_time * _emission_rate` and `_age * _emission_rate` and the
difference of their floor and ceiling are rounded to `float`. -/
def floatRateCount (last_update_time age emission_rate : ℚ) : Int :=
  castInt32
      (roundFloat ((⌈roundFloat (age * emission_rate)⌉ : ℚ)
        - (⌊roundFloat (last_update_time * emission_rate)⌋ : ℚ)))
    - 1

/-! ## Killing, emitting and the frame update -/

/-- The loop of `ParticleSystem::_KillParticles` from index `j` on, with the
emission budget `num` (passed by reference in the source, returned here). The
first argument bounds the number of iterations; `none` when the loop is still
running at the bound or a respawn does not return. -/
def killLoop (env : Env) (d : ParticleSystemDef) (fuel : Nat) (params : EffectParameters) :
    Nat → Nat → Int → ParticleSystem → Option (Int × ParticleSystem)
  | 0, j, num, s => if (j : Int) < s.num_particles then none else some (num, s)
  | steps + 1, j, num, s =>
    if (j : Int) < s.num_particles then
      if (s.particles.getD j default).time > (s.particles.getD j default).lifetime then
        if num > 0 then
          match _RespawnParticle env d fuel params s j with
          | none => none
          | some s1 => killLoop env d fuel params steps (j + 1) (num - 1) s1
        else
          let s1 := if (j : Int) ≠ s.num_particles - 1
            then _MoveParticle s (s.num_particles - 1) j else s
          killLoop env d fuel params steps (j + 1) num
            { s1 with num_particles := s1.num_particles - 1 }
      else killLoop env d fuel params steps (j + 1) num s
    else some (num, s)

/-- `ParticleSystem::_KillParticles(num, params)`: the remaining budget and the
system afterwards. The loop index runs from 0 and the live count never grows,
so `_num_particles` iterations are allowed. -/
def _KillParticles (env : Env) (d : ParticleSystemDef) (fuel : Nat) (num : Int)
    (params : EffectParameters) (s : ParticleSystem) : Option (Int × ParticleSystem) :=
  killLoop env d fuel params s.num_particles.toNat 0 num s

/-- The loop of `ParticleSystem::_EmitParticles` with `k` iterations left. -/
def emitLoop (env : Env) (d : ParticleSystemDef) (fuel : Nat) (params : EffectParameters) :
    Nat → ParticleSystem → Option ParticleSystem
  | 0, s => some s
  | k + 1, s =>
    match _RespawnParticle env d fuel params s s.num_particles with
    | none => none
    | some s1 => emitLoop env d fuel params k { s1 with num_particles := s1.num_particles + 1 }

/-- `ParticleSystem::_EmitParticles(num, params)`: the loop runs `num` times,
not at all when `num <= 0`. -/
def _EmitParticles (env : Env) (d : ParticleSystemDef) (fuel : Nat) (num : Int)
    (params : EffectParameters) (s : ParticleSystem) : Option ParticleSystem :=
  emitLoop env d fuel params num.toNat s

/-- The emission count of `ParticleSystem::Update`
("figure out how many particles need to be emitted this frame"). In the
rate-based branch the two products and the difference `time_high - time_low`
are float operations, rounded to single precision; `floorf` and `ceilf` of a
float are exact; the difference is converted to `int32_t`, and the subtraction
of 1 and the sum `num_particles_to_emit + _num_particles` of the clamp test are
`int32_t` operations, which wrap around. -/
def emissionCount (d : ParticleSystemDef) (s : ParticleSystem) : Int :=
  if !s.stopped then
    if d.emitter._emitter_mode = EMITTER_MODE.ALWAYS then
      (d.max_particles : Int) - s.num_particles
    else if d.emitter._emitter_mode ≠ EMITTER_MODE.BURST then
      let time_low : ℚ := roundFloat (s.last_update_time * d.emitter._emission_rate)
      let time_high : ℚ := roundFloat (s.age * d.emitter._emission_rate)
      let time_low : ℚ := (⌊time_low⌋ : ℚ)
      let time_high : ℚ := (⌈time_high⌉ : ℚ)
      let num_particles_to_emit := wrapInt32 (castInt32 (roundFloat (time_high - time_low)) - 1)
      if wrapInt32 (num_particles_to_emit + s.num_particles) > (d.max_particles : Int) then
        (d.max_particles : Int) - s.num_particles
      else num_particles_to_emit
    else (d.max_particles : Int)
  else 0

/-- The end of `ParticleSystem::Update`, after the emit pass: burst stop,
one-shot lifetime, death check, `_last_update_time`. -/
def finishUpdate (d : ParticleSystemDef) (s : ParticleSystem) : ParticleSystem :=
  let s := if d.emitter._emitter_mode = EMITTER_MODE.BURST then Stop s else s
  let s :=
    if d.emitter._emitter_mode = EMITTER_MODE.ONE_SHOT then
      if s.age > d.system_lifetime then { s with stopped := true } else s
    else s
  let s := if s.num_particles = 0 ∧ s.stopped = true then { s with alive := false } else s
  { s with last_update_time := s.age }

/-- The part of `ParticleSystem::Update` after the pre-roll check, on the
system with `_age` already advanced: animation, per-particle update, emission
count, kill pass, emit pass and the end-of-frame checks. -/
def fullFrame (env : Env) (fuel : Nat) (d : ParticleSystemDef) (frame_time : ℚ)
    (params : EffectParameters) (s : ParticleSystem) : Option ParticleSystem :=
  match _KillParticles env d fuel
      (emissionCount d (_UpdateParticles env d frame_time params
        { s with animation := env.AnimationUpdate s.animation })) params
      (_UpdateParticles env d frame_time params
        { s with animation := env.AnimationUpdate s.animation }) with
  | none => none
  | some (num_particles_to_emit, s1) =>
    match _EmitParticles env d fuel num_particles_to_emit params s1 with
    | none => none
    | some s2 => some (finishUpdate d s2)

/-- `ParticleSystem::Update(frame_time, params)`. `fuel` is the iteration
allowance of the rejection loop of each respawn. -/
def Update (env : Env) (fuel : Nat) (s : ParticleSystem) (frame_time : ℚ)
    (params : EffectParameters) : Option ParticleSystem :=
  if !s.alive then some s
  else
    match s.system_def with
    | none => none
    | some d =>
      if !d.enabled then some s
      else if s.age + frame_time < d.emitter._start_time then
        some { s with age := s.age + frame_time, last_update_time := s.age + frame_time }
      else fullFrame env fuel d frame_time params { s with age := s.age + frame_time }

/-! ## Concrete inputs used to evaluate the definitions -/

/-- A random provider contract: every draw `RandomFloat(a, b)` lies between its
two bounds. -/
def RandomFloatInRange (env : Env) : Prop :=
  ∀ a b n, min a b ≤ env.RandomFloat a b n ∧ env.RandomFloat a b n ≤ max a b

/-- A collaborator set whose draws always return the first bound. -/
def sampleEnv : Env where
  RandomFloat := fun a _ _ => a
  rand := fun _ => 0
  sinf := fun _ => 0
  cosf := fun _ => 1
  sqrtf := fun x => x
  pow := fun _ _ => 1
  RotatePoint := fun x y _ => (x, y)
  IsFloatEqual := fun a b => decide (a = b)
  UTILS_2PI := 6
  UTILS_HALF_PI := 3 / 2
  AnimationUpdate := fun a => a

/-- A point emitter with the given mode and start time. -/
def sampleEmitter (mode : EMITTER_MODE) (start_time : ℚ) : ParticleEmitter where
  _pos := ⟨0, 0⟩
  _pos2 := ⟨0, 0⟩
  _center := ⟨0, 0⟩
  _variation := ⟨0, 0⟩
  _radius := 1
  _shape := EMITTER_SHAPE.POINT
  _omnidirectional := false
  _orientation := 0
  _angle_variation := 0
  _initial_speed := 1
  _initial_speed_variation := 0
  _emission_rate := 1
  _start_time := start_time
  _emitter_mode := mode
  _spin := EMITTER_SPIN.CLOCKWISE

/-- A definition with one keyframe, particle lifetime 1, and the given
capacity, mode, start time and enabled flag. -/
def sampleDef (enabled : Bool) (capacity : Nat) (mode : EMITTER_MODE) (start_time : ℚ) :
    ParticleSystemDef where
  enabled := enabled
  max_particles := capacity
  emitter := sampleEmitter mode start_time
  keyframes := [default]
  animation_frame_filenames := []
  animation_frame_times := []
  system_lifetime := 0
  particle_lifetime := 1
  particle_lifetime_variation := 0
  random_initial_angle := false
  tangential_acceleration := 0
  tangential_acceleration_variation := 0
  radial_acceleration := 0
  radial_acceleration_variation := 0
  acceleration := ⟨0, 0⟩
  acceleration_variation := ⟨0, 0⟩
  wind_velocity := ⟨0, 0⟩
  wind_velocity_variation := ⟨0, 0⟩
  damping := 1
  damping_variation := 0
  wave_motion_used := false
  wave_length := 0
  wave_length_variation := 0
  wave_amplitude := 0
  wave_amplitude_variation := 0
  user_defined_attractor := false
  attractor_falloff := 0
  rotation_used := false
  rotate_to_velocity := false
  speed_scale_used := false
  speed_scale := 0
  min_speed_scale := 0
  max_speed_scale := 0
  smooth_animation := false

/-- A system before any `_Create`: empty pool and buffers, dead. -/
def blankSystem : ParticleSystem where
  system_def := none
  animation := ⟨[], 0, 0⟩
  num_particles := 0
  particles := []
  particle_vertices := []
  particle_texcoords := []
  particle_colors := []
  age := 0
  last_update_time := 0
  alive := false
  stopped := false
  random_draws := 0

/-- A particle record past its lifetime: `time` 2, `lifetime` 1. -/
def expiredParticle : Particle := { (default : Particle) with time := 2, lifetime := 1 }

/-- Update parameters with no orientation and the attractor at the origin. -/
def sampleParams : EffectParameters := ⟨0, ⟨0, 0⟩⟩

/-- `blankSystem` after `_Create` with the given definition. -/
def createdSystem (d : ParticleSystemDef) : ParticleSystem := (_Create blankSystem (some d)).2

/-- A created system of capacity 2 whose two slots are live and both past their
lifetime, as the kill pass finds it when both particles expire in one frame. -/
def twoExpired : ParticleSystem :=
  { createdSystem (sampleDef true 2 EMITTER_MODE.ALWAYS 0) with
    num_particles := 2
    particles := [expiredParticle, expiredParticle] }

/-- A created system of capacity 1 (rate-based emission, start time
`start_time`) on which `Stop` was called before any update: alive, stopped,
without a live particle. -/
def stoppedEmpty (enabled : Bool) (start_time : ℚ) : ParticleSystem :=
  Stop (createdSystem (sampleDef enabled 1 EMITTER_MODE.LOOPING start_time))

/-- One call made by the owner of a system: `Update(frame_time, params)` or
`Stop()`. -/
inductive Call where
  | update (frame_time : ℚ) (params : EffectParameters)
  | stop

/-- The system after one call. -/
def applyCall (env : Env) (fuel : Nat) (s : ParticleSystem) : Call → Option ParticleSystem
  | Call.update frame_time params => Update env fuel s frame_time params
  | Call.stop => some (Stop s)

/-- The system after a sequence of calls, made in order. -/
def runCalls (env : Env) (fuel : Nat) : ParticleSystem → List Call → Option ParticleSystem
  | s, [] => some s
  | s, c :: cs =>
    match applyCall env fuel s c with
    | none => none
    | some s1 => runCalls env fuel s1 cs

/-- The test `_particles[j].time > _particles[j].lifetime` of `_KillParticles`. -/
def expired (p : Particle) : Bool := decide (p.time > p.lifetime)

/-- The number of expired particles among the slots `j .. j + k - 1`. -/
def expiredIn (ps : List Particle) (j k : Nat) : Nat :=
  (List.range' j k).countP (fun i => expired (ps.getD i default))

/-- The number of expired live particles of a system. -/
def expiredCount (s : ParticleSystem) : Nat :=
  expiredIn s.particles 0 s.num_particles.toNat

/-- The fields of `s1` other than the pool, the live count and the draw counter
are those of `s`, and the pool has kept its size. -/
def SameControl (s s1 : ParticleSystem) : Prop :=
  s1.system_def = s.system_def ∧ s1.alive = s.alive ∧ s1.stopped = s.stopped ∧
  s1.age = s.age ∧ s1.last_update_time = s.last_update_time ∧
  s1.particles.length = s.particles.length

/-- The capacity invariant together with what makes it inductive: the system
refers to `d`, the live count is between 0 and the capacity, and a burst
system that has not stopped yet holds no particle. -/
def CapacityInv (d : ParticleSystemDef) (s : ParticleSystem) : Prop :=
  s.system_def = some d ∧ 0 ≤ s.num_particles ∧ s.num_particles ≤ (d.max_particles : Int) ∧
  (d.emitter._emitter_mode = EMITTER_MODE.BURST → s.stopped = false → s.num_particles = 0)

/-- Every `Update` of the list, made in order from age `age`, ends with the age
still below the emitter start time. -/
def preRollOnly (d : ParticleSystemDef) : ℚ → List (ℚ × EffectParameters) → Prop
  | _, [] => True
  | age, c :: cs => age + c.1 < d.emitter._start_time ∧ preRollOnly d (age + c.1) cs

/-- A system as `_Create` with `d` leaves it, up to `age` and
`last_update_time`: referring to `d`, alive, not stopped, without a live
particle. -/
def FreshSystem (d : ParticleSystemDef) (s : ParticleSystem) : Prop :=
  s.system_def = some d ∧ s.alive = true ∧ s.stopped = false ∧ s.num_particles = 0

/-- The value of `num_particles_to_emit` in the rate-based branch of
`ParticleSystem::Update` before it is clamped to the capacity, as a function of
`_last_update_time`, `_age` and the emission rate. -/
def rateEmissionCount (last_update_time age emission_rate : ℚ) : Int :=
  (⌈age * emission_rate⌉ - ⌊last_update_time * emission_rate⌋) - 1

/-- The emission ticks inside `[lo, hi)` in the words of the specification: the
integers `k` with `lo ≤ k < hi`, sought between `⌊lo⌋` and `⌈hi⌉`. -/
def ticksInside (lo hi : ℚ) : Finset Int :=
  (Finset.Icc ⌊lo⌋ ⌈hi⌉).filter (fun k => lo ≤ (k : ℚ) ∧ (k : ℚ) < hi)

/-- The integers `k` with `lo < k < hi`, sought between `⌊lo⌋` and `⌈hi⌉`. -/
def ticksStrictlyInside (lo hi : ℚ) : Finset Int :=
  (Finset.Icc ⌊lo⌋ ⌈hi⌉).filter (fun k => lo < (k : ℚ) ∧ (k : ℚ) < hi)

/-- A filled-circle emitter of radius 1 at the origin. -/
def filledCircleEmitter : ParticleEmitter :=
  { sampleEmitter EMITTER_MODE.LOOPING 0 with _shape := EMITTER_SHAPE.FILLED_CIRCLE }

/-- The loop body of `_UpdateParticles` applied to one particle record over a
sequence of frames, each with its parameters and frame time. -/
def updateParticleMany (env : Env) (d : ParticleSystemDef) :
    List (EffectParameters × ℚ) → Particle → Nat → Particle × Nat
  | [], p, n => (p, n)
  | u :: us, p, n =>
    updateParticleMany env d us (updateParticle env d u.1 u.2 p n).1
      (updateParticle env d u.1 u.2 p n).2

/-- The keyframe scan of `advanceKeyframe` on its own: the `for` loop over the
keyframes and the "we are on the last one" case. -/
def scanKeyframes (d : ParticleSystemDef) (scaled_time : ℚ) (p : Particle) : Particle :=
  let num_keyframes := d.keyframes.length
  let k := keyframeScan d scaled_time
  let p :=
    if k < num_keyframes then
      { p with current_keyframe := some (prevIndex k), next_keyframe := some k }
    else p
  if k = num_keyframes then
    { p with
      current_keyframe := some (prevIndex k)
      next_keyframe := none
      color := (keyframeAt d (some (prevIndex k))).color
      rotation_speed := (keyframeAt d (some (prevIndex k))).rotation_speed
      size := (keyframeAt d (some (prevIndex k))).size }
  else p

/-- The current-variation step of `advanceKeyframe` on its own: inherited from
the next variations when only one keyframe was skipped, drawn otherwise. -/
def currentVariations (env : Env) (d : ParticleSystemDef) (old_next : Nat) (p : Particle)
    (n : Nat) : Particle × Nat :=
  if p.current_keyframe = some old_next then
    ({ p with
       current_color_variation := p.next_color_variation
       current_rotation_speed_variation := p.next_rotation_speed_variation
       current_size_variation := p.next_size_variation }, n)
  else
    let kf := keyframeAt d p.current_keyframe
    ({ p with
       current_rotation_speed_variation :=
         env.RandomFloat (-kf.rotation_speed_variation) kf.rotation_speed_variation n
       current_color_variation :=
         ⟨env.RandomFloat (-kf.color_variation.c0) kf.color_variation.c0 (n + 1),
          env.RandomFloat (-kf.color_variation.c1) kf.color_variation.c1 (n + 2),
          env.RandomFloat (-kf.color_variation.c2) kf.color_variation.c2 (n + 3),
          env.RandomFloat (-kf.color_variation.c3) kf.color_variation.c3 (n + 4)⟩
       current_size_variation :=
         ⟨env.RandomFloat (-kf.size_variation.x) kf.size_variation.x (n + 5),
          env.RandomFloat (-kf.size_variation.y) kf.size_variation.y (n + 6)⟩ }, n + 7)

/-- The next-variation step of `advanceKeyframe` on its own: drawn when there is
a next keyframe. -/
def nextVariations (env : Env) (d : ParticleSystemDef) (p : Particle) (n : Nat) :
    Particle × Nat :=
  match p.next_keyframe with
  | none => (p, n)
  | some _ =>
    let kf := keyframeAt d p.next_keyframe
    ({ p with
       next_rotation_speed_variation :=
         env.RandomFloat (-kf.rotation_speed_variation) kf.rotation_speed_variation n
       next_color_variation :=
         ⟨env.RandomFloat (-kf.color_variation.c0) kf.color_variation.c0 (n + 1),
          env.RandomFloat (-kf.color_variation.c1) kf.color_variation.c1 (n + 2),
          env.RandomFloat (-kf.color_variation.c2) kf.color_variation.c2 (n + 3),
          env.RandomFloat (-kf.color_variation.c3) kf.color_variation.c3 (n + 4)⟩
       next_size_variation :=
         ⟨env.RandomFloat (-kf.size_variation.x) kf.size_variation.x (n + 5),
          env.RandomFloat (-kf.size_variation.y) kf.size_variation.y (n + 6)⟩ }, n + 7)

/-- The particle `q` has the keyframe pointers, the age and the lifetime of `p`. -/
def SameKeyframes (p q : Particle) : Prop :=
  q.time = p.time ∧ q.lifetime = p.lifetime ∧ q.current_keyframe = p.current_keyframe ∧
  q.next_keyframe = p.next_keyframe

/-- The particle `q` has the color, size and rotation speed of `p`. -/
def SameLook (p q : Particle) : Prop :=
  q.color = p.color ∧ q.size = p.size ∧ q.rotation_speed = p.rotation_speed

/-- What holds of a particle between its respawn and its updates when keyframe 0
is at time 0: a positive lifetime, a non-negative age, and a current keyframe
that is not ahead of the particle's scaled time while a next keyframe exists. -/
def KeyframeInv (d : ParticleSystemDef) (p : Particle) : Prop :=
  0 < p.lifetime ∧ 0 ≤ p.time ∧
  (p.next_keyframe ≠ none → (keyframeAt d p.current_keyframe).time ≤ p.time / p.lifetime)

/-- The sample definition with two keyframes, at times 0 and 1. -/
def twoKeyframeDef : ParticleSystemDef :=
  { sampleDef true 1 EMITTER_MODE.LOOPING 0 with
    keyframes := [default, { (default : ParticleKeyframe) with time := 1 }] }

/-- The divisor `speed` by which the wave branch of the loop body of
`_UpdateParticles` divides the tangent (`tangent.x /= speed`), and `none` when
the branch is not entered. -/
def waveDivisor (env : Env) (d : ParticleSystemDef) (p : Particle) : Option ℚ :=
  if d.wave_motion_used ∧ p.wave_half_amplitude > 0 then
    some (env.sqrtf
      (⟨-(p.velocity.y + p.wind_velocity.y), p.velocity.x + p.wind_velocity.x⟩ :
        Position2D).GetLength2)
  else none

/-- The sample definition with wave motion enabled. -/
def waveDef : ParticleSystemDef :=
  { sampleDef true 1 EMITTER_MODE.LOOPING 0 with wave_motion_used := true }

/-- A particle at rest (no velocity, no wind) with wave half-amplitude 1. -/
def restingWaveParticle : Particle :=
  { (default : Particle) with wave_half_amplitude := 1, lifetime := 1 }

/-- A particle record within its lifetime: `time` 0, `lifetime` 1. -/
def healthyParticle : Particle := { (default : Particle) with lifetime := 1 }

/-- A created system of capacity 3 whose three slots are live: an expired
particle, a healthy one, and at the tail an expired one of `time` 3. -/
def threeMixed : ParticleSystem :=
  { createdSystem (sampleDef true 3 EMITTER_MODE.ALWAYS 0) with
    num_particles := 3
    stopped := true
    particles := [expiredParticle, healthyParticle, { expiredParticle with time := 3 }] }

/-- The live particles of a system: the slots `0 .. _num_particles - 1` of the
pool. -/
def liveParticles (s : ParticleSystem) : List Particle :=
  s.particles.take s.num_particles.toNat

/-- A particle respawned from `twoKeyframeDef`, with its draw counter. -/
def sampleSpawn : Particle × Nat :=
  respawnFrom sampleEnv twoKeyframeDef sampleParams default ⟨0, 0⟩ 0

/-- The particle `sampleSpawn` after one loop body of frame time 1/2, with its
draw counter. -/
def sampleAged : Particle × Nat :=
  updateParticleMany sampleEnv twoKeyframeDef [(sampleParams, 1 / 2)] sampleSpawn.1 sampleSpawn.2

/-- A particle between keyframes 0 and 1 of `twoKeyframeDef` with the given
age, of lifetime 1. -/
def betweenKeyframes (time : ℚ) : Particle :=
  { (default : Particle) with
    current_keyframe := some 0, next_keyframe := some 1, time := time, lifetime := 1 }

/-- The particle `q` has the six sampled variations of `p`. -/
def SameVariations (p q : Particle) : Prop :=
  q.current_color_variation = p.current_color_variation ∧
  q.current_size_variation = p.current_size_variation ∧
  q.current_rotation_speed_variation = p.current_rotation_speed_variation ∧
  q.next_color_variation = p.next_color_variation ∧
  q.next_size_variation = p.next_size_variation ∧
  q.next_rotation_speed_variation = p.next_rotation_speed_variation

/-- The variations `rot`, `col`, `size` are the seven draws numbered `n` to
`n + 6`, each between minus and plus the variation configured in `kf`, in the
order of the source: rotation speed, the four color channels, the two sizes. -/
def DrawnAt (env : Env) (kf : ParticleKeyframe) (n : Nat) (rot : ℚ) (col : Color)
    (size : Position2D) : Prop :=
  rot = env.RandomFloat (-kf.rotation_speed_variation) kf.rotation_speed_variation n ∧
  col = ⟨env.RandomFloat (-kf.color_variation.c0) kf.color_variation.c0 (n + 1),
         env.RandomFloat (-kf.color_variation.c1) kf.color_variation.c1 (n + 2),
         env.RandomFloat (-kf.color_variation.c2) kf.color_variation.c2 (n + 3),
         env.RandomFloat (-kf.color_variation.c3) kf.color_variation.c3 (n + 4)⟩ ∧
  size = ⟨env.RandomFloat (-kf.size_variation.x) kf.size_variation.x (n + 5),
          env.RandomFloat (-kf.size_variation.y) kf.size_variation.y (n + 6)⟩

/-- The variations `rot`, `col`, `size` lie within plus or minus the variations
configured in `kf`. -/
def WithinVariation (kf : ParticleKeyframe) (rot : ℚ) (col : Color) (size : Position2D) :
    Prop :=
  |rot| ≤ |kf.rotation_speed_variation| ∧
  |col.c0| ≤ |kf.color_variation.c0| ∧ |col.c1| ≤ |kf.color_variation.c1| ∧
  |col.c2| ≤ |kf.color_variation.c2| ∧ |col.c3| ≤ |kf.color_variation.c3| ∧
  |size.x| ≤ |kf.size_variation.x| ∧ |size.y| ≤ |kf.size_variation.y|

/-- The interpolation parameter `cur_a` of the loop body of `_UpdateParticles`:
how far the scaled time is from the current keyframe towards the next one. -/
def cur_a (d : ParticleSystemDef) (scaled_time : ℚ) (p : Particle) : ℚ :=
  (scaled_time - (keyframeAt d p.current_keyframe).time) /
    ((keyframeAt d p.next_keyframe).time - (keyframeAt d p.current_keyframe).time)

/-- Two keyframes at times 0 and 1, the first opaque white with size 2 and
rotation speed 4, the second all zero. -/
def fadingDef : ParticleSystemDef :=
  { twoKeyframeDef with
    keyframes :=
      [{ (default : ParticleKeyframe) with
          color := ⟨1, 1, 1, 1⟩, size := ⟨2, 2⟩, rotation_speed := 4 },
       { (default : ParticleKeyframe) with time := 1 }] }

/-- The particle `q` has the position, the velocities, the accelerations, the
damping, the age and the lifetime of `p`. -/
def SameMotion (p q : Particle) : Prop :=
  q.pos = p.pos ∧ q.velocity = p.velocity ∧ q.acceleration = p.acceleration ∧
  q.wind_velocity = p.wind_velocity ∧ q.radial_acceleration = p.radial_acceleration ∧
  q.tangential_acceleration = p.tangential_acceleration ∧ q.damping = p.damping ∧
  q.time = p.time ∧ q.lifetime = p.lifetime

/-- The particle `r` is `p` after one explicit Euler step `t`: the position
moved by the velocity plus the wind, the velocity by the acceleration, the age
by `t`. -/
def EulerStep (t : ℚ) (p r : Particle) : Prop :=
  r.pos = ⟨p.pos.x + (p.velocity.x + p.wind_velocity.x) * t,
           p.pos.y + (p.velocity.y + p.wind_velocity.y) * t⟩ ∧
  r.velocity = ⟨p.velocity.x + p.acceleration.x * t, p.velocity.y + p.acceleration.y * t⟩ ∧
  r.time = p.time + t ∧ r.lifetime = p.lifetime

/-- A particle of lifetime 4 at the origin with velocity (1, 0), wind (0, 1),
acceleration (2, 0), no damping (coefficient 1) and no attractor. -/
def driftingParticle : Particle :=
  { (default : Particle) with
    velocity := ⟨1, 0⟩, wind_velocity := ⟨0, 1⟩, acceleration := ⟨2, 0⟩, damping := 1,
    lifetime := 4 }

/-- A created system of capacity 2 with one live particle, `driftingParticle`,
and a spare record in slot 1. -/
def driftingSystem : ParticleSystem :=
  { createdSystem (sampleDef true 2 EMITTER_MODE.ALWAYS 0) with
    num_particles := 1
    particles := [driftingParticle, healthyParticle] }

/-- The system at the start of the kill pass of `ParticleSystem::Update`, past
the pre-roll check: the age advanced by the frame time, the animation updated,
`_UpdateParticles` made. -/
def beforeKill (env : Env) (d : ParticleSystemDef) (frame_time : ℚ) (params : EffectParameters)
    (s : ParticleSystem) : ParticleSystem :=
  _UpdateParticles env d frame_time params
    { s with age := s.age + frame_time, animation := env.AnimationUpdate s.animation }

/-! ## Drawing -/

/-- The texture of a frame as `Draw` reads it (`private_video::ImageTexture`):
the texture coordinates of the image in its sheet and its size in pixels. -/
structure ImageTexture where
  u1 : ℚ
  u2 : ℚ
  v1 : ℚ
  v2 : ℚ
  width : Int
  height : Int
deriving DecidableEq

/-- The collaborators of `ParticleSystem::Draw` that are not part of the sources
at hand, taken as parameters: `atan2f`, the product of a color and a float
(`Color::operator*`), and the accessors of the animation, the texture of frame
`i` standing for `GetFrame(i)->_image_texture`. -/
structure DrawEnv where
  atan2f : ℚ → ℚ → ℚ
  ColorScale : Color → ℚ → Color
  GetCurrentFrameIndex : AnimatedImage → Nat
  GetNumFrames : AnimatedImage → Nat
  GetFrameTexture : AnimatedImage → Nat → ImageTexture
  GetPercentProgress : AnimatedImage → ℚ

/-- One call of `VideoManager->DrawParticleSystem`: the three buffers as they
are at the call, and the number of vertices. -/
structure DrawCall where
  vertices : List Position2D
  texcoords : List TexCoord
  colors : List Color
  count : Int
deriving DecidableEq

/-- The body of a fill loop of `Draw`, `buf[v] = q0; ++v; buf[v] = q1; ++v;
buf[v] = q2; ++v; buf[v] = q3; ++v;`: the buffer and the index afterwards. -/
def writeQuad {α : Type} (buf : List α) (v : Nat) (q : α × α × α × α) : List α × Nat :=
  ((((buf.set v q.1).set (v + 1) q.2.1).set (v + 2) q.2.2.1).set (v + 3) q.2.2.2, v + 4)

/-- A fill loop of `Draw`: the index starts at 0 and
`for (j = 0; j < _num_particles; ++j)` writes the four entries `quad j`. A
write past the end of the buffer is dropped. -/
def fillQuads {α : Type} (quad : Nat → α × α × α × α) (num_particles : Int) (buf : List α) :
    List α :=
  ((List.range num_particles.toNat).foldl (fun st j => writeQuad st.1 st.2 (quad j))
    (buf, 0)).1

/-- The four vertices `Draw` writes for a particle when rotation is not used:
upper-left, upper-right, lower-right, lower-left. -/
def plainCorners (img_width_half img_height_half : ℚ) (p : Particle) :
    Position2D × Position2D × Position2D × Position2D :=
  let scaled_width_half := img_width_half * p.size.x
  let scaled_height_half := img_height_half * p.size.y
  (⟨p.pos.x - scaled_width_half, p.pos.y - scaled_height_half⟩,
   ⟨p.pos.x + scaled_width_half, p.pos.y - scaled_height_half⟩,
   ⟨p.pos.x + scaled_width_half, p.pos.y + scaled_height_half⟩,
   ⟨p.pos.x - scaled_width_half, p.pos.y + scaled_height_half⟩)

/-- One vertex of the rotated quad: the offset `(x, y)` goes through
`RotatePoint`, then the particle position is added. -/
def rotatedCorner (env : Env) (x y rotation_angle : ℚ) (pos : Position2D) : Position2D :=
  ⟨(env.RotatePoint x y rotation_angle).1 + pos.x,
   (env.RotatePoint x y rotation_angle).2 + pos.y⟩

/-- The four vertices `Draw` writes for a particle when rotation is used. -/
def rotatedCorners (env : Env) (denv : DrawEnv) (d : ParticleSystemDef)
    (img_width_half img_height_half : ℚ) (p : Particle) :
    Position2D × Position2D × Position2D × Position2D :=
  let scaled_width_half := img_width_half * p.size.x
  let scaled_height_half := img_height_half * p.size.y
  let rotation_angle := p.rotation_angle
  let rotation_angle :=
    if d.rotate_to_velocity then
      rotation_angle
        + (env.UTILS_HALF_PI + denv.atan2f p.combined_velocity.y p.combined_velocity.x)
    else rotation_angle
  let scaled_height_half :=
    if d.rotate_to_velocity then
      if d.speed_scale_used then
        let speed := env.sqrtf (p.combined_velocity.x * p.combined_velocity.x
          + p.combined_velocity.y * p.combined_velocity.y)
        let scale_factor := d.speed_scale * speed
        let scale_factor :=
          if scale_factor < d.min_speed_scale then d.min_speed_scale else scale_factor
        let scale_factor :=
          if scale_factor > d.max_speed_scale then d.max_speed_scale else scale_factor
        scaled_height_half * scale_factor
      else scaled_height_half
    else scaled_height_half
  (rotatedCorner env (-scaled_width_half) (-scaled_height_half) rotation_angle p.pos,
   rotatedCorner env scaled_width_half (-scaled_height_half) rotation_angle p.pos,
   rotatedCorner env scaled_width_half scaled_height_half rotation_angle p.pos,
   rotatedCorner env (-scaled_width_half) scaled_height_half rotation_angle p.pos)

/-- The four colors `Draw` writes for a particle in its first pass. -/
def firstColors (denv : DrawEnv) (d : ParticleSystemDef) (frame_progress : ℚ) (p : Particle) :
    Color × Color × Color × Color :=
  let color := p.color
  let color := if d.smooth_animation then denv.ColorScale color (1 - frame_progress) else color
  (color, color, color, color)

/-- The four colors `Draw` writes for a particle in the pass of the next frame. -/
def secondColors (denv : DrawEnv) (frame_progress : ℚ) (p : Particle) :
    Color × Color × Color × Color :=
  let color := p.color
  let color := denv.ColorScale color frame_progress
  (color, color, color, color)

/-- The four texture coordinates `Draw` writes for a particle. -/
def texQuad (u1 u2 v1 v2 : ℚ) : TexCoord × TexCoord × TexCoord × TexCoord :=
  (⟨u1, v1⟩, ⟨u2, v1⟩, ⟨u2, v2⟩, ⟨u1, v2⟩)

/-- The first pass of `ParticleSystem::Draw` past its guard: the vertex, color
and texture coordinate buffers are filled from the current frame. -/
def drawFirstPass (env : Env) (denv : DrawEnv) (d : ParticleSystemDef) (s : ParticleSystem) :
    ParticleSystem :=
  let img := denv.GetFrameTexture s.animation (denv.GetCurrentFrameIndex s.animation)
  let frame_progress := denv.GetPercentProgress s.animation
  let img_width : ℚ := (img.width : ℚ)
  let img_height : ℚ := (img.height : ℚ)
  let img_width_half := img_width * (1 / 2)
  let img_height_half := img_height * (1 / 2)
  { s with
    particle_vertices :=
      if d.rotation_used then
        fillQuads
          (fun j => rotatedCorners env denv d img_width_half img_height_half
            (s.particles.getD j default))
          s.num_particles s.particle_vertices
      else
        fillQuads
          (fun j => plainCorners img_width_half img_height_half (s.particles.getD j default))
          s.num_particles s.particle_vertices
    particle_colors :=
      fillQuads (fun j => firstColors denv d frame_progress (s.particles.getD j default))
        s.num_particles s.particle_colors
    particle_texcoords :=
      fillQuads (fun _ => texQuad img.u1 img.u2 img.v1 img.v2) s.num_particles
        s.particle_texcoords }

/-- The pass of `ParticleSystem::Draw` made with smooth animation: the texture
coordinates and colors are written again from the frame after the current one.
`none` when the animation has no frame (the frame index is taken modulo the
number of frames, in `uint32_t`). -/
def drawSecondPass (denv : DrawEnv) (s : ParticleSystem) : Option ParticleSystem :=
  if denv.GetNumFrames s.animation = 0 then none
  else
    let frame_progress := denv.GetPercentProgress s.animation
    let findex := denv.GetCurrentFrameIndex s.animation
    let findex := ((findex + 1) % 2 ^ 32) % denv.GetNumFrames s.animation
    let img2 := denv.GetFrameTexture s.animation findex
    some { s with
      particle_texcoords :=
        fillQuads (fun _ => texQuad img2.u1 img2.u2 img2.v1 img2.v2) s.num_particles
          s.particle_texcoords
      particle_colors :=
        fillQuads (fun j => secondColors denv frame_progress (s.particles.getD j default))
          s.num_particles s.particle_colors }

/-- The draw call made with the buffers of `s`. -/
def drawCallOf (s : ParticleSystem) : DrawCall :=
  ⟨s.particle_vertices, s.particle_texcoords, s.particle_colors, s.num_particles * 4⟩

/-- `ParticleSystem::Draw`: the system afterwards (its render buffers are
written) and the calls of `DrawParticleSystem` made, in order. The settings of
blending, stencil and texture filtering of the video manager are not part of
the state modelled. `none` when the definition pointer is null or the second
pass does not return. -/
def Draw (env : Env) (denv : DrawEnv) (s : ParticleSystem) :
    Option (ParticleSystem × List DrawCall) :=
  if !s.alive then some (s, [])
  else
    match s.system_def with
    | none => none
    | some d =>
      if !d.enabled || decide (s.age < d.emitter._start_time) || decide (s.num_particles ≤ 0)
      then some (s, [])
      else
        let s1 := drawFirstPass env denv d s
        if d.smooth_animation then
          match drawSecondPass denv s1 with
          | none => none
          | some s2 => some (s2, [drawCallOf s1, drawCallOf s2])
        else some (s1, [drawCallOf s1])

/-- Sample collaborators of `Draw`: every frame is a 4 by 2 pixel image covering
the unit square of its sheet, the animation has one frame and is at its start. -/
def sampleDrawEnv : DrawEnv where
  atan2f := fun _ _ => 0
  ColorScale := fun c f => ⟨c.c0 * f, c.c1 * f, c.c2 * f, c.c3 * f⟩
  GetCurrentFrameIndex := fun _ => 0
  GetNumFrames := fun _ => 1
  GetFrameTexture := fun _ _ => ⟨0, 1, 0, 1, 4, 2⟩
  GetPercentProgress := fun _ => 0

/-- A particle at (3, 5) of size (1, 2). -/
def spriteParticle : Particle :=
  { (default : Particle) with pos := ⟨3, 5⟩, size := ⟨1, 2⟩, lifetime := 1 }

/-- A created system of capacity 2 with one live particle, `spriteParticle`. -/
def spriteSystem : ParticleSystem :=
  { createdSystem (sampleDef true 2 EMITTER_MODE.ALWAYS 0) with
    num_particles := 1
    particles := [spriteParticle, default] }

/-! ## Battle idle state time (`battle.cpp`) -/

/-- The part of a battle actor (`BattleActor`) that `SetActorIdleStateTime`
reads and writes: the agility rating and the idle state time, both `uint32`. -/
structure BattleActor where
  agility : Nat
  idle_state_time : Nat
deriving DecidableEq

/-- Modelled from the spec: `BattleActor::GetAgility` is not part of the sources
at hand; it reports the agility rating of the actor. -/
def BattleActor.GetAgility (a : BattleActor) : Nat := a.agility

/-- Modelled from the spec: `BattleActor::SetIdleStateTime` is not part of the
sources at hand; it stores the idle state time of the actor. -/
def BattleActor.SetIdleStateTime (a : BattleActor) (time : Nat) : BattleActor :=
  { a with idle_state_time := time }

/-- The members of `BattleMode` read by `SetActorIdleStateTime`. -/
structure BattleMode where
  _highest_agility : Nat
  _battle_type_time_factor : ℚ
deriving DecidableEq

/-- The idle state wait time of the fastest actor (`MIN_IDLE_WAIT_TIME`). -/
def MIN_IDLE_WAIT_TIME : Nat := 10000

/-- The conversion `static_cast<uint32>` of a float: the value is truncated
toward zero; `none` when the truncated value is not a `uint32`, where the
conversion is undefined. -/
def castUint32 (x : ℚ) : Option Nat :=
  if -1 < x ∧ x < 2 ^ 32 then some (Int.toNat ⌊x⌋) else none

/-- `BattleMode::SetActorIdleStateTime(actor)`: the actor afterwards, `none`
standing for the null pointer; no result when the conversion to `uint32` is
undefined. The arithmetic is that of `float`: the two `uint32` values are
converted to `float`, and the product, the quotient and the final product are
each rounded to single precision. -/
def SetActorIdleStateTime (bm : BattleMode) (actor : Option BattleActor) :
    Option (Option BattleActor) :=
  match actor with
  | none => some none
  | some a =>
    if a.GetAgility = 0 then some (some a)
    else if bm._highest_agility = 0 ∨ bm._battle_type_time_factor = 0 then some (some a)
    else
      let proportion : ℚ :=
        roundFloat (roundFloat (bm._highest_agility : ℚ)
          / roundFloat (roundFloat (a.GetAgility : ℚ) * bm._battle_type_time_factor))
      match castUint32 (roundFloat (roundFloat (MIN_IDLE_WAIT_TIME : ℚ) * proportion)) with
      | none => none
      | some time => some (some (a.SetIdleStateTime time))

/-- The divisor of the division `SetActorIdleStateTime` performs, the float
`actor->GetAgility() * _battle_type_time_factor`, and `none` when it returns
before dividing. -/
def idleDivisor (bm : BattleMode) (actor : Option BattleActor) : Option ℚ :=
  match actor with
  | none => none
  | some a =>
    if a.GetAgility = 0 then none
    else if bm._highest_agility = 0 ∨ bm._battle_type_time_factor = 0 then none
    else some (roundFloat (roundFloat (a.GetAgility : ℚ) * bm._battle_type_time_factor))

/-- The float `MIN_IDLE_WAIT_TIME * proportion` that `SetActorIdleStateTime`
converts to `uint32`, for an actor that passes the guards. -/
def idleTimeFloat (bm : BattleMode) (a : BattleActor) : ℚ :=
  roundFloat (roundFloat (MIN_IDLE_WAIT_TIME : ℚ)
    * roundFloat (roundFloat (bm._highest_agility : ℚ)
        / roundFloat (roundFloat (a.agility : ℚ) * bm._battle_type_time_factor)))

/-- The body of the two loops of `BattleMode::_Initialize` that look for the
highest agility rating: `if (actor->GetAgility() > _highest_agility)
_highest_agility = actor->GetAgility();`. -/
def raiseHighestAgility (highest_agility : Nat) (a : BattleActor) : Nat :=
  if a.GetAgility > highest_agility then a.GetAgility else highest_agility

/-- The value `BattleMode::_Initialize` gives `_highest_agility`: the highest
agility rating among the character actors and the enemy actors, and 1 when that
is 0. -/
def findHighestAgility (character_actors enemy_actors : List BattleActor) : Nat :=
  let highest_agility := character_actors.foldl raiseHighestAgility 0
  let highest_agility := enemy_actors.foldl raiseHighestAgility highest_agility
  if highest_agility = 0 then 1 else highest_agility

/-- The `int32_t` arithmetic of the rate-based emission count does not overflow
at the state `s`: the unclamped count and its sum with the live count are
`int32_t` values (in particular the float difference was within the range of
the conversion). -/
def RateFitsInt32 (d : ParticleSystemDef) (s : ParticleSystem) : Prop :=
  -(2 ^ 31 : Int) ≤ floatRateCount s.last_update_time s.age d.emitter._emission_rate ∧
  -(2 ^ 31 : Int)
    ≤ floatRateCount s.last_update_time s.age d.emitter._emission_rate + s.num_particles ∧
  floatRateCount s.last_update_time s.age d.emitter._emission_rate + s.num_particles
    ≤ 2 ^ 31 - 1

/-- The sample definition with rate-based emission at 3e9 particles per second
(a value of type `float`) and capacity 2. -/
def overflowDef : ParticleSystemDef :=
  { sampleDef true 2 EMITTER_MODE.LOOPING 0 with
    emitter := { sampleEmitter EMITTER_MODE.LOOPING 0 with _emission_rate := 3000000000 } }

/-- The system created from `overflowDef` after a first `Update` of frame time
1. -/
def overflowFirst : ParticleSystem :=
  (Update sampleEnv 1 (createdSystem overflowDef) 1 sampleParams).getD blankSystem

/-! ## Creation -/

theorem resize_length {α : Type} [Inhabited α] (v : List α) (n : Nat) :
    (resize v n).length = n := by
  simp [resize]
  omega

/-- C8: `_Create` with a null definition returns `false` and leaves the empty
dead state, whatever the prior state: not alive, not stopped, no live particle,
age and last update time 0, empty pool, no definition. -/
theorem create_null_resets (s : ParticleSystem) :
    (_Create s none).1 = false ∧ (_Create s none).2.alive = false ∧
    (_Create s none).2.stopped = false ∧ (_Create s none).2.num_particles = 0 ∧
    (_Create s none).2.age = 0 ∧ (_Create s none).2.last_update_time = 0 ∧
    (_Create s none).2.particles = [] ∧ (_Create s none).2.system_def = none := by
  simp [_Create, _Destroy]

/-- C9: `_Create` with a non-null definition returns `true` and yields a system
that is alive, not stopped, of age 0, with no live particle, referring to the
given definition. -/
theorem create_some_starts (s : ParticleSystem) (d : ParticleSystemDef) :
    (_Create s (some d)).1 = true ∧ (_Create s (some d)).2.alive = true ∧
    (_Create s (some d)).2.stopped = false ∧ (_Create s (some d)).2.age = 0 ∧
    (_Create s (some d)).2.num_particles = 0 ∧
    (_Create s (some d)).2.system_def = some d := by
  simp [_Create]

/-- C10 as stated fails: with capacity 1 the particle pool has 1 entry after a
successful `_Create`, not 4. -/
theorem create_pool_not_four_times :
    (_Create blankSystem (some (sampleDef true 1 EMITTER_MODE.LOOPING 0))).1 = true ∧
    (_Create blankSystem (some (sampleDef true 1 EMITTER_MODE.LOOPING 0))).2.particles.length
      ≠ 4 * (sampleDef true 1 EMITTER_MODE.LOOPING 0).max_particles := by
  simp [_Create, resize_length, sampleDef]

/-- C10 amended: after a successful `_Create` the particle pool has exactly
`capacity` entries and each of the three render buffers (vertices, texture
coordinates, colors) has exactly `4 * capacity` entries. -/
theorem create_sizes (s : ParticleSystem) (d : ParticleSystemDef) :
    (_Create s (some d)).1 = true ∧
    (_Create s (some d)).2.particles.length = d.max_particles ∧
    (_Create s (some d)).2.particle_vertices.length = 4 * d.max_particles ∧
    (_Create s (some d)).2.particle_texcoords.length = 4 * d.max_particles ∧
    (_Create s (some d)).2.particle_colors.length = 4 * d.max_particles := by
  simp [_Create, resize_length, Nat.mul_comm]

/-! ## The frame update: control state -/

theorem updateParticles_zero (env : Env) (d : ParticleSystemDef) (t : ℚ)
    (params : EffectParameters) (s : ParticleSystem) (h : s.num_particles ≤ 0) :
    _UpdateParticles env d t params s = s := by
  have h0 : s.num_particles.toNat = 0 := by omega
  simp [_UpdateParticles, h0]

/-- C7: for an alive, enabled system and a frame time that keeps the age below
the emitter start time, `Update` returns the system with `age` advanced by the
frame time and `last_update_time` set to the new age, every other field
(live count, pool, alive, stopped) unchanged. -/
theorem update_preroll (env : Env) (fuel : Nat) (s : ParticleSystem) (d : ParticleSystemDef)
    (frame_time : ℚ) (params : EffectParameters)
    (halive : s.alive = true) (hdef : s.system_def = some d) (hen : d.enabled = true)
    (hpre : s.age + frame_time < d.emitter._start_time) :
    Update env fuel s frame_time params
      = some { s with age := s.age + frame_time, last_update_time := s.age + frame_time } := by
  simp [Update, halive, hdef, hen, hpre]

theorem SameControl.refl (s : ParticleSystem) : SameControl s s :=
  ⟨rfl, rfl, rfl, rfl, rfl, rfl⟩

theorem SameControl.trans {s s1 s2 : ParticleSystem} (h1 : SameControl s s1)
    (h2 : SameControl s1 s2) : SameControl s s2 :=
  ⟨h2.1.trans h1.1, h2.2.1.trans h1.2.1, h2.2.2.1.trans h1.2.2.1,
    h2.2.2.2.1.trans h1.2.2.2.1, h2.2.2.2.2.1.trans h1.2.2.2.2.1,
    h2.2.2.2.2.2.trans h1.2.2.2.2.2⟩

theorem respawn_some {env : Env} {d : ParticleSystemDef} {fuel : Nat}
    {params : EffectParameters} {s s1 : ParticleSystem} {i : Int}
    (h : _RespawnParticle env d fuel params s i = some s1) :
    ∃ p n, respawnParticle env d fuel params (s.particles.getD i.toNat default) s.random_draws
        = some (p, n) ∧
      s1 = { s with particles := s.particles.set i.toNat p, random_draws := n } := by
  unfold _RespawnParticle at h
  split at h
  · cases h
  · next p n hr =>
    cases h
    exact ⟨p, n, hr, rfl⟩

theorem respawn_control {env : Env} {d : ParticleSystemDef} {fuel : Nat}
    {params : EffectParameters} {s s1 : ParticleSystem} {i : Int}
    (h : _RespawnParticle env d fuel params s i = some s1) :
    SameControl s s1 ∧ s1.num_particles = s.num_particles := by
  obtain ⟨p, n, -, rfl⟩ := respawn_some h
  simp [SameControl]

theorem foldl_updateSlot_control (env : Env) (d : ParticleSystemDef) (t : ℚ)
    (params : EffectParameters) (l : List Nat) :
    ∀ s : ParticleSystem,
      SameControl s (l.foldl (updateSlot env d t params) s) ∧
      (l.foldl (updateSlot env d t params) s).num_particles = s.num_particles ∧
      (l.foldl (updateSlot env d t params) s).animation = s.animation := by
  induction l with
  | nil => intro s; exact ⟨SameControl.refl s, rfl, rfl⟩
  | cons j l ih =>
    intro s
    rw [List.foldl_cons]
    obtain ⟨c, hn, ha⟩ := ih (updateSlot env d t params s j)
    have c0 : SameControl s (updateSlot env d t params s j) := by
      simp [SameControl, updateSlot]
    exact ⟨c0.trans c, by rw [hn]; rfl, by rw [ha]; rfl⟩

theorem updateParticles_control (env : Env) (d : ParticleSystemDef) (t : ℚ)
    (params : EffectParameters) (s : ParticleSystem) :
    SameControl s (_UpdateParticles env d t params s) ∧
      (_UpdateParticles env d t params s).num_particles = s.num_particles ∧
      (_UpdateParticles env d t params s).animation = s.animation :=
  foldl_updateSlot_control env d t params _ s

/-- What the kill loop keeps: the control fields, a live count that does not
grow and stays non-negative, a budget that does not grow, and a kill only once
the budget is used up. -/
theorem killLoop_control (env : Env) (d : ParticleSystemDef) (fuel : Nat)
    (params : EffectParameters) :
    ∀ (steps j : Nat) (num : Int) (s : ParticleSystem) (num1 : Int) (s1 : ParticleSystem),
      killLoop env d fuel params steps j num s = some (num1, s1) →
      SameControl s s1 ∧ s1.num_particles ≤ s.num_particles ∧
      (0 ≤ s.num_particles → 0 ≤ s1.num_particles) ∧ num1 ≤ num ∧
      (s1.num_particles = s.num_particles ∨ num1 ≤ 0) := by
  intro steps
  induction steps with
  | zero =>
    intro j num s num1 s1 h
    unfold killLoop at h
    split at h
    · cases h
    · cases h
      exact ⟨SameControl.refl _, le_refl _, fun h => h, le_refl _, Or.inl rfl⟩
  | succ k ih =>
    intro j num s num1 s1 h
    unfold killLoop at h
    split at h
    · next hj =>
      split at h
      · split at h
        · next hnum =>
          split at h
          · cases h
          · next s2 hr =>
            obtain ⟨hc, hn⟩ := respawn_control hr
            obtain ⟨c, h1, h2, h3, h4⟩ := ih _ _ _ _ _ h
            rw [hn] at h1 h2 h4
            refine ⟨hc.trans c, h1, h2, by omega, ?_⟩
            rcases h4 with h4 | h4
            · exact Or.inl h4
            · exact Or.inr (by omega)
        · next hnum =>
          obtain ⟨c, h1, h2, h3, h4⟩ := ih _ _ _ _ _ h
          have hc : SameControl s { (if (j : Int) ≠ s.num_particles - 1
              then _MoveParticle s (s.num_particles - 1) j else s) with
              num_particles := (if (j : Int) ≠ s.num_particles - 1
                then _MoveParticle s (s.num_particles - 1) j else s).num_particles - 1 } := by
            split <;> simp [SameControl, _MoveParticle]
          have hn : (if (j : Int) ≠ s.num_particles - 1
              then _MoveParticle s (s.num_particles - 1) j else s).num_particles
              = s.num_particles := by
            split <;> simp [_MoveParticle]
          simp only [hn] at h1 h2 h4
          refine ⟨hc.trans c, by omega, fun _ => h2 (by omega), h3, Or.inr (by omega)⟩
      · exact ih _ _ _ _ _ h
    · cases h
      exact ⟨SameControl.refl _, le_refl _, fun h => h, le_refl _, Or.inl rfl⟩

theorem emitLoop_control (env : Env) (d : ParticleSystemDef) (fuel : Nat)
    (params : EffectParameters) :
    ∀ (k : Nat) (s s1 : ParticleSystem), emitLoop env d fuel params k s = some s1 →
      SameControl s s1 ∧ s1.num_particles = s.num_particles + k := by
  intro k
  induction k with
  | zero =>
    intro s s1 h
    simp [emitLoop] at h
    subst h
    exact ⟨SameControl.refl _, by simp⟩
  | succ k ih =>
    intro s s1 h
    unfold emitLoop at h
    split at h
    · cases h
    · next s2 hr =>
      obtain ⟨hc, hn⟩ := respawn_control hr
      obtain ⟨c, h1⟩ := ih _ _ h
      have hc2 : SameControl s2 { s2 with num_particles := s2.num_particles + 1 } := by
        simp [SameControl]
      refine ⟨hc.trans (hc2.trans c), ?_⟩
      simp only [hn] at h1
      rw [h1]
      push_cast
      ring

/-! ## Respawns return -/

theorem draw_sq_le {env : Env} (hr : RandomFloatInRange env) (h : ℚ) (n : Nat) :
    env.RandomFloat (-h) h n * env.RandomFloat (-h) h n ≤ h * h := by
  obtain ⟨h1, h2⟩ := hr (-h) h n
  rcases le_total 0 h with hh | hh
  · rw [min_eq_left (by linarith)] at h1
    rw [max_eq_right (by linarith)] at h2
    nlinarith
  · rw [min_eq_right (by linarith)] at h1
    rw [max_eq_left (by linarith)] at h2
    nlinarith

/-- With draws inside their bounds, the rejection loop of the filled circle
accepts its first sample. -/
theorem sampleFilledCircle_first {env : Env} (hr : RandomFloatInRange env) (radius : ℚ)
    (fuel n : Nat) :
    sampleFilledCircle env radius (fuel + 1) n
      = some (env.RandomFloat (-(radius * (1 / 2))) (radius * (1 / 2)) n,
              env.RandomFloat (-(radius * (1 / 2))) (radius * (1 / 2)) (n + 1), n + 2) := by
  have hx := draw_sq_le hr (radius * (1 / 2)) n
  have hy := draw_sq_le hr (radius * (1 / 2)) (n + 1)
  have hle : ¬ (env.RandomFloat (-(radius * (1 / 2))) (radius * (1 / 2)) n
        * env.RandomFloat (-(radius * (1 / 2))) (radius * (1 / 2)) n
      + env.RandomFloat (-(radius * (1 / 2))) (radius * (1 / 2)) (n + 1)
        * env.RandomFloat (-(radius * (1 / 2))) (radius * (1 / 2)) (n + 1)
      > radius * radius) := by
    nlinarith [mul_self_nonneg radius]
  simp only [sampleFilledCircle, hle, if_false]

theorem respawnParticle_returns {env : Env} (hr : RandomFloatInRange env)
    (d : ParticleSystemDef) {fuel : Nat} (hf : 0 < fuel) (params : EffectParameters)
    (p : Particle) (n : Nat) :
    ∃ r, respawnParticle env d fuel params p n = some r := by
  obtain ⟨f, rfl⟩ : ∃ f, fuel = f + 1 := ⟨fuel - 1, by omega⟩
  unfold respawnParticle respawnPosition
  cases d.emitter._shape <;> simp [sampleFilledCircle_first hr]

theorem respawn_returns {env : Env} (hr : RandomFloatInRange env)
    (d : ParticleSystemDef) {fuel : Nat} (hf : 0 < fuel) (params : EffectParameters)
    (s : ParticleSystem) (i : Int) :
    ∃ s1, _RespawnParticle env d fuel params s i = some s1 := by
  obtain ⟨⟨p, n⟩, h⟩ := respawnParticle_returns hr d hf params
    (s.particles.getD i.toNat default) s.random_draws
  unfold _RespawnParticle
  rw [h]
  exact ⟨_, rfl⟩

theorem killLoop_returns {env : Env} (hr : RandomFloatInRange env) (d : ParticleSystemDef)
    {fuel : Nat} (hf : 0 < fuel) (params : EffectParameters) :
    ∀ (steps j : Nat) (num : Int) (s : ParticleSystem), s.num_particles ≤ j + steps →
      ∃ r, killLoop env d fuel params steps j num s = some r := by
  intro steps
  induction steps with
  | zero =>
    intro j num s h
    have : ¬ ((j : Int) < s.num_particles) := by omega
    exact ⟨(num, s), by simp [killLoop, this]⟩
  | succ k ih =>
    intro j num s h
    unfold killLoop
    split
    · split
      · split
        · obtain ⟨s1, h1⟩ := respawn_returns hr d hf params s j
          rw [h1]
          have hn := (respawn_control h1).2
          exact ih _ _ _ (by rw [hn]; push_cast; omega)
        · refine ih _ _ _ ?_
          have hn : (if (j : Int) ≠ s.num_particles - 1
              then _MoveParticle s (s.num_particles - 1) j else s).num_particles
              = s.num_particles := by
            split <;> simp [_MoveParticle]
          simp only [hn]
          push_cast
          omega
      · exact ih _ _ _ (by push_cast; omega)
    · exact ⟨_, rfl⟩

theorem emitLoop_returns {env : Env} (hr : RandomFloatInRange env) (d : ParticleSystemDef)
    {fuel : Nat} (hf : 0 < fuel) (params : EffectParameters) :
    ∀ (k : Nat) (s : ParticleSystem), ∃ s1, emitLoop env d fuel params k s = some s1 := by
  intro k
  induction k with
  | zero => intro s; exact ⟨s, rfl⟩
  | succ k ih =>
    intro s
    unfold emitLoop
    obtain ⟨s1, h1⟩ := respawn_returns hr d hf params s s.num_particles
    rw [h1]
    exact ih _

/-! ## The frame update: structure of a full frame -/

theorem emissionCount_congr (d : ParticleSystemDef) {s s1 : ParticleSystem}
    (c : SameControl s s1) (hn : s1.num_particles = s.num_particles) :
    emissionCount d s1 = emissionCount d s := by
  obtain ⟨-, -, c3, c4, c5, -⟩ := c
  simp [emissionCount, c3, c4, c5, hn]

/-- A full frame is the per-particle update, the kill pass, the emit pass and
the end-of-frame checks, in order. -/
theorem fullFrame_some {env : Env} {fuel : Nat} {s s' : ParticleSystem} {d : ParticleSystemDef}
    {frame_time : ℚ} {params : EffectParameters}
    (h : fullFrame env fuel d frame_time params s = some s') :
    ∃ s0 num1 s1 s2,
      SameControl s s0 ∧ s0.num_particles = s.num_particles ∧
      _KillParticles env d fuel (emissionCount d s0) params s0 = some (num1, s1) ∧
      _EmitParticles env d fuel num1 params s1 = some s2 ∧
      s' = finishUpdate d s2 := by
  unfold fullFrame at h
  split at h
  · cases h
  · next num1 s1 hk =>
    split at h
    · cases h
    · next s2 he =>
      cases h
      have c := updateParticles_control env d frame_time params
        { s with animation := env.AnimationUpdate s.animation }
      exact ⟨_, num1, s1, s2, c.1, c.2.1, hk, he, rfl⟩

theorem update_eq_fullFrame {env : Env} {fuel : Nat} {s : ParticleSystem}
    {d : ParticleSystemDef} {frame_time : ℚ} {params : EffectParameters}
    (halive : s.alive = true) (hdef : s.system_def = some d) (hen : d.enabled = true)
    (hstart : ¬ s.age + frame_time < d.emitter._start_time) :
    Update env fuel s frame_time params
      = fullFrame env fuel d frame_time params { s with age := s.age + frame_time } := by
  simp [Update, halive, hdef, hen, hstart]

theorem fullFrame_returns {env : Env} (hr : RandomFloatInRange env) {fuel : Nat} (hf : 0 < fuel)
    (s : ParticleSystem) (d : ParticleSystemDef) (frame_time : ℚ) (params : EffectParameters) :
    ∃ s', fullFrame env fuel d frame_time params s = some s' := by
  unfold fullFrame _KillParticles _EmitParticles
  generalize _UpdateParticles env d frame_time params
    { s with animation := env.AnimationUpdate s.animation } = s0
  obtain ⟨⟨num1, s1⟩, hk⟩ := killLoop_returns hr d hf params s0.num_particles.toNat 0
    (emissionCount d s0) s0 (by omega)
  obtain ⟨s2, he⟩ := emitLoop_returns hr d hf params num1.toNat s1
  rw [hk]
  simp only
  rw [he]
  exact ⟨_, rfl⟩

theorem update_returns {env : Env} (hr : RandomFloatInRange env) {fuel : Nat} (hf : 0 < fuel)
    (s : ParticleSystem) (d : ParticleSystemDef) (hdef : s.system_def = some d)
    (frame_time : ℚ) (params : EffectParameters) :
    ∃ s', Update env fuel s frame_time params = some s' := by
  unfold Update
  split
  · exact ⟨_, rfl⟩
  · simp only [hdef]
    split
    · exact ⟨_, rfl⟩
    · split
      · exact ⟨_, rfl⟩
      · exact fullFrame_returns hr hf _ d frame_time params

theorem finishUpdate_num (d : ParticleSystemDef) (s : ParticleSystem) :
    (finishUpdate d s).num_particles = s.num_particles ∧
    (finishUpdate d s).system_def = s.system_def ∧
    (finishUpdate d s).particles = s.particles := by
  unfold finishUpdate Stop
  dsimp only
  refine ⟨?_, ?_, ?_⟩ <;> split_ifs <;> rfl

theorem finishUpdate_stopped (d : ParticleSystemDef) (s : ParticleSystem) :
    (s.stopped = true → (finishUpdate d s).stopped = true) ∧
    (d.emitter._emitter_mode = EMITTER_MODE.BURST → (finishUpdate d s).stopped = true) := by
  unfold finishUpdate Stop
  dsimp only
  refine ⟨?_, ?_⟩ <;> intro h <;> split_ifs <;> simp_all

theorem finishUpdate_alive (d : ParticleSystemDef) (s : ParticleSystem) :
    (finishUpdate d s).alive = false ↔
      s.alive = false ∨
        ((finishUpdate d s).num_particles = 0 ∧ (finishUpdate d s).stopped = true) := by
  unfold finishUpdate Stop
  dsimp only
  split_ifs <;> simp_all

theorem killParticles_control {env : Env} {d : ParticleSystemDef} {fuel : Nat}
    {params : EffectParameters} {num num1 : Int} {s s1 : ParticleSystem}
    (h : _KillParticles env d fuel num params s = some (num1, s1)) :
    SameControl s s1 ∧ s1.num_particles ≤ s.num_particles ∧
      (0 ≤ s.num_particles → 0 ≤ s1.num_particles) ∧ num1 ≤ num ∧
      (s1.num_particles = s.num_particles ∨ num1 ≤ 0) :=
  killLoop_control env d fuel params _ _ _ _ _ _ h

theorem emitParticles_control {env : Env} {d : ParticleSystemDef} {fuel : Nat}
    {params : EffectParameters} {num : Int} {s s1 : ParticleSystem}
    (h : _EmitParticles env d fuel num params s = some s1) :
    SameControl s s1 ∧ s1.num_particles = s.num_particles + num.toNat :=
  emitLoop_control env d fuel params _ _ _ h

theorem killParticles_empty (env : Env) (d : ParticleSystemDef) (fuel : Nat)
    (params : EffectParameters) (num : Int) (s : ParticleSystem) (h : s.num_particles = 0) :
    _KillParticles env d fuel num params s = some (num, s) := by
  simp [_KillParticles, h, killLoop]

theorem preroll_step {env : Env} {fuel : Nat} {s : ParticleSystem} {d : ParticleSystemDef}
    {frame_time : ℚ} {params : EffectParameters}
    (halive : s.alive = true) (hdef : s.system_def = some d) (hen : d.enabled = true)
    (hpre : s.age + frame_time < d.emitter._start_time) :
    Update env fuel s frame_time params
      = some { s with age := s.age + frame_time, last_update_time := s.age + frame_time } := by
  simp [Update, halive, hdef, hen, hpre]

/-- The state after a full frame, in terms of the state before it. -/
theorem fullFrame_facts {env : Env} {fuel : Nat} {s s' : ParticleSystem} {d : ParticleSystemDef}
    {frame_time : ℚ} {params : EffectParameters}
    (h : fullFrame env fuel d frame_time params s = some s') :
    ∃ s2, s' = finishUpdate d s2 ∧ SameControl s s2 ∧
      (0 ≤ s.num_particles → 0 ≤ s2.num_particles) ∧
      (s2.num_particles ≤ s.num_particles ∨
        s2.num_particles ≤ s.num_particles + emissionCount d s) := by
  obtain ⟨s0, num1, s1, s2, c0, hn0, hk, he, rfl⟩ := fullFrame_some h
  obtain ⟨c1, k1, k2, k3, k4⟩ := killParticles_control hk
  obtain ⟨c2, e1⟩ := emitParticles_control he
  rw [emissionCount_congr d c0 hn0] at k3
  rw [hn0] at k1 k2 k4
  have t0 : (0 : Int) ≤ (num1.toNat : Int) := Int.ofNat_nonneg _
  have t1 : num1 ≤ 0 → (num1.toNat : Int) = 0 := fun h => by
    rw [Int.toNat_of_nonpos h]; rfl
  have t2 : 0 ≤ num1 → (num1.toNat : Int) = num1 := fun h => Int.toNat_of_nonneg h
  refine ⟨s2, rfl, c0.trans (c1.trans c2), fun h0 => by have := k2 h0; omega, ?_⟩
  rcases le_total num1 0 with hn | hn
  · left
    have := t1 hn
    omega
  · have := t2 hn
    rcases k4 with k4 | k4
    · right
      omega
    · left
      omega

theorem wrapInt32_of_fits (n : Int) (h1 : -(2 ^ 31 : Int) ≤ n) (h2 : n ≤ 2 ^ 31 - 1) :
    wrapInt32 n = n := by
  unfold wrapInt32
  omega

theorem castInt32_range (x : ℚ) : -(2 ^ 31 : Int) ≤ castInt32 x ∧ castInt32 x ≤ 2 ^ 31 - 1 := by
  unfold castInt32
  split_ifs with h1 h2
  · constructor
    · have : (0 : Int) ≤ ⌊x⌋ := Int.floor_nonneg.mpr h2
      omega
    · have : ⌊x⌋ < 2 ^ 31 := by
        rw [Int.floor_lt]
        push_cast
        exact h1.2
      omega
  · constructor
    · have : -(2 ^ 31 : Int) - 1 < ⌈x⌉ := by
        rw [Int.lt_ceil]
        have := h1.1
        push_cast
        linarith
      omega
    · have : ⌈x⌉ ≤ 0 := by
        rw [Int.ceil_le]
        push_cast
        linarith
      omega
  · constructor <;> omega

/-- The rate-based emission count when its `int32_t` arithmetic does not
overflow: the unclamped count clamped to the free capacity. -/
theorem emissionCount_rate (d : ParticleSystemDef) (s : ParticleSystem)
    (hstopped : s.stopped = false)
    (halways : d.emitter._emitter_mode ≠ EMITTER_MODE.ALWAYS)
    (hburst : d.emitter._emitter_mode ≠ EMITTER_MODE.BURST)
    (hfit : RateFitsInt32 d s) :
    emissionCount d s
      = min (floatRateCount s.last_update_time s.age d.emitter._emission_rate)
          ((d.max_particles : Int) - s.num_particles) := by
  obtain ⟨f1, f2, f3⟩ := hfit
  have hc := (castInt32_range
    (roundFloat ((⌈roundFloat (s.age * d.emitter._emission_rate)⌉ : ℚ)
      - (⌊roundFloat (s.last_update_time * d.emitter._emission_rate)⌋ : ℚ)))).2
  have e : castInt32
      (roundFloat ((⌈roundFloat (s.age * d.emitter._emission_rate)⌉ : ℚ)
        - (⌊roundFloat (s.last_update_time * d.emitter._emission_rate)⌋ : ℚ))) - 1
      = floatRateCount s.last_update_time s.age d.emitter._emission_rate := rfl
  have hfc : floatRateCount s.last_update_time s.age d.emitter._emission_rate ≤ 2 ^ 31 - 1 := by
    rw [← e]
    omega
  unfold emissionCount
  simp only [hstopped, halways, hburst, Bool.not_false, if_true, if_false, ne_eq,
    not_false_eq_true]
  rw [e, wrapInt32_of_fits _ f1 hfc, wrapInt32_of_fits _ f2 f3]
  split_ifs with h
  · rw [min_eq_right]
    omega
  · rw [min_eq_left]
    omega

theorem emissionCount_le (d : ParticleSystemDef) (s : ParticleSystem)
    (hcap : s.num_particles ≤ (d.max_particles : Int))
    (hburst : d.emitter._emitter_mode = EMITTER_MODE.BURST → s.stopped = false →
      s.num_particles = 0)
    (hfit : s.stopped = false → d.emitter._emitter_mode ≠ EMITTER_MODE.ALWAYS →
      d.emitter._emitter_mode ≠ EMITTER_MODE.BURST → RateFitsInt32 d s) :
    s.num_particles + emissionCount d s ≤ (d.max_particles : Int) := by
  by_cases hs : s.stopped = false
  · by_cases ha : d.emitter._emitter_mode = EMITTER_MODE.ALWAYS
    · unfold emissionCount
      rw [hs, if_pos (by decide), if_pos ha]
      omega
    · by_cases hb : d.emitter._emitter_mode = EMITTER_MODE.BURST
      · have := hburst hb hs
        unfold emissionCount
        rw [hs, if_pos (by decide), if_neg ha, if_neg (by simpa using hb)]
        omega
      · rw [emissionCount_rate d s hs ha hb (hfit hs ha hb)]
        have := min_le_right
          (floatRateCount s.last_update_time s.age d.emitter._emission_rate)
          ((d.max_particles : Int) - s.num_particles)
        omega
  · have hs1 : s.stopped = true := by simpa using hs
    unfold emissionCount
    rw [hs1, if_neg (by decide)]
    omega

theorem update_dead {env : Env} {fuel : Nat} {s : ParticleSystem} {frame_time : ℚ}
    {params : EffectParameters} (halive : s.alive = false) :
    Update env fuel s frame_time params = some s := by
  simp [Update, halive]

theorem update_disabled {env : Env} {fuel : Nat} {s : ParticleSystem} {d : ParticleSystemDef}
    {frame_time : ℚ} {params : EffectParameters}
    (hdef : s.system_def = some d) (hen : d.enabled = false) :
    Update env fuel s frame_time params = some s := by
  cases halive : s.alive <;> simp [Update, halive, hdef, hen]

/-- One `Update` keeps the capacity invariant whenever the `int32_t` arithmetic
of the rate-based emission count does not overflow in it. -/
theorem update_capacityInv {env : Env} {fuel : Nat} {s s' : ParticleSystem}
    {d : ParticleSystemDef} {frame_time : ℚ} {params : EffectParameters}
    (hinv : CapacityInv d s)
    (hfit : s.stopped = false → d.emitter._emitter_mode ≠ EMITTER_MODE.ALWAYS →
      d.emitter._emitter_mode ≠ EMITTER_MODE.BURST →
      RateFitsInt32 d { s with age := s.age + frame_time })
    (h : Update env fuel s frame_time params = some s') :
    CapacityInv d s' := by
  obtain ⟨hdef, h0, hcap, hburst⟩ := hinv
  cases halive : s.alive with
  | false =>
    rw [update_dead halive] at h
    cases h
    exact ⟨hdef, h0, hcap, hburst⟩
  | true =>
    cases hen : d.enabled with
    | false =>
      rw [update_disabled hdef hen] at h
      cases h
      exact ⟨hdef, h0, hcap, hburst⟩
    | true =>
      by_cases hpre : s.age + frame_time < d.emitter._start_time
      · rw [preroll_step halive hdef hen hpre] at h
        cases h
        exact ⟨hdef, h0, hcap, hburst⟩
      · rw [update_eq_fullFrame halive hdef hen hpre] at h
        obtain ⟨s2, rfl, c, f0, f1⟩ := fullFrame_facts h
        obtain ⟨c1, -, c3, -, -, -⟩ := c
        have hle := emissionCount_le d { s with age := s.age + frame_time } hcap hburst hfit
        obtain ⟨n1, n2, -⟩ := finishUpdate_num d s2
        refine ⟨by rw [n2, c1]; exact hdef, by rw [n1]; exact f0 h0, ?_, ?_⟩
        · rw [n1]
          rcases f1 with f1 | f1
          · exact le_trans f1 hcap
          · exact le_trans f1 hle
        · intro hb hs
          rw [(finishUpdate_stopped d s2).2 hb] at hs
          cases hs

theorem create_capacityInv (s : ParticleSystem) (d : ParticleSystemDef) :
    CapacityInv d (_Create s (some d)).2 := by
  simp [CapacityInv, _Create]

/-! ## Termination of a system -/

/-- C6: `Update` turns `alive` from true to false only when, at the end of that
call, the system is stopped and holds no live particle; and it never turns
`alive` from false to true. -/
theorem update_single_death (env : Env) (fuel : Nat) (s s' : ParticleSystem) (frame_time : ℚ)
    (params : EffectParameters) (h : Update env fuel s frame_time params = some s') :
    (s.alive = true → s'.alive = false → s'.stopped = true ∧ s'.num_particles = 0) ∧
    (s.alive = false → s'.alive = false) := by
  cases halive : s.alive with
  | false =>
    rw [update_dead halive] at h
    cases h
    simp [halive]
  | true =>
    refine ⟨fun _ hdead => ?_, fun hc => by cases hc⟩
    cases hdef : s.system_def with
    | none => simp [Update, halive, hdef] at h
    | some d =>
      cases hen : d.enabled with
      | false =>
        rw [update_disabled hdef hen] at h
        cases h
        rw [halive] at hdead
        cases hdead
      | true =>
        by_cases hpre : s.age + frame_time < d.emitter._start_time
        · rw [preroll_step halive hdef hen hpre] at h
          cases h
          simp [halive] at hdead
        · rw [update_eq_fullFrame halive hdef hen hpre] at h
          obtain ⟨s2, rfl, c, -, -⟩ := fullFrame_facts h
          obtain ⟨-, c2, -, -, -, -⟩ := c
          rcases (finishUpdate_alive d s2).1 hdead with h2 | ⟨h2, h3⟩
          · rw [c2] at h2
            simp [halive] at h2
          · exact ⟨h3, h2⟩

/-- A concrete run for C6: a stopped, empty, alive system past its start time
is turned dead by `Update`, and is stopped and empty at the end of that call. -/
theorem update_single_death_witness :
    ({ stoppedEmpty true 0 with age := 1, last_update_time := 1, alive := false }).stopped = true ∧
    ({ stoppedEmpty true 0 with age := 1, last_update_time := 1, alive := false }).num_particles
      = 0 :=
  (update_single_death sampleEnv 1 (stoppedEmpty true 0)
    { stoppedEmpty true 0 with age := 1, last_update_time := 1, alive := false }
    1 sampleParams (by decide!)).1 rfl rfl

/-- C5 as stated fails: an alive, stopped system without a live particle is
still alive after an `Update` that ends before the emitter start time (here
start time 10, frame time 1), and after any `Update` while its definition is
disabled. -/
theorem stopped_empty_stays_alive :
    ((stoppedEmpty true 10).alive = true ∧ (stoppedEmpty true 10).stopped = true ∧
      (stoppedEmpty true 10).num_particles = 0 ∧
      (Update sampleEnv 1 (stoppedEmpty true 10) 1 sampleParams).map IsAlive = some true) ∧
    ((stoppedEmpty false 0).alive = true ∧ (stoppedEmpty false 0).stopped = true ∧
      (stoppedEmpty false 0).num_particles = 0 ∧
      (Update sampleEnv 1 (stoppedEmpty false 0) 1 sampleParams).map IsAlive = some true) := by
  decide!

theorem fullFrame_stopped_empty (env : Env) (fuel : Nat) (d : ParticleSystemDef)
    (frame_time : ℚ) (params : EffectParameters) (s : ParticleSystem)
    (hstopped : s.stopped = true) (hnum : s.num_particles = 0) :
    fullFrame env fuel d frame_time params s
      = some (finishUpdate d { s with animation := env.AnimationUpdate s.animation }) := by
  have hu : _UpdateParticles env d frame_time params
      { s with animation := env.AnimationUpdate s.animation }
      = { s with animation := env.AnimationUpdate s.animation } :=
    updateParticles_zero env d frame_time params _ (le_of_eq hnum)
  have hc : emissionCount d { s with animation := env.AnimationUpdate s.animation } = 0 := by
    simp [emissionCount, hstopped]
  have hk := killParticles_empty env d fuel params 0
      { s with animation := env.AnimationUpdate s.animation } hnum
  unfold fullFrame
  rw [hu, hc, hk]
  simp only [_EmitParticles, Int.toNat_zero, emitLoop]

/-- C5 amended: for every alive system of an enabled definition that is stopped
and holds no live particle, an `Update` whose frame time brings the age to the
emitter start time or beyond returns, and `IsAlive` is false afterwards. -/
theorem stopped_empty_dies (env : Env) (fuel : Nat) (s : ParticleSystem)
    (d : ParticleSystemDef) (frame_time : ℚ) (params : EffectParameters)
    (halive : s.alive = true) (hdef : s.system_def = some d) (hen : d.enabled = true)
    (hstopped : s.stopped = true) (hnum : s.num_particles = 0)
    (hstart : d.emitter._start_time ≤ s.age + frame_time) :
    ∃ s', Update env fuel s frame_time params = some s' ∧ IsAlive s' = false := by
  rw [update_eq_fullFrame halive hdef hen (not_lt.mpr hstart),
    fullFrame_stopped_empty env fuel d frame_time params { s with age := s.age + frame_time }
      hstopped hnum]
  refine ⟨_, rfl, ?_⟩
  rw [IsAlive, finishUpdate_alive]
  right
  rw [(finishUpdate_num d _).1]
  exact ⟨hnum, (finishUpdate_stopped d _).1 hstopped⟩

/-- A concrete run for C5 amended: the stopped, empty system with start time 0
is dead after an `Update` of frame time 1. -/
theorem stopped_empty_dies_witness :
    ∃ s', Update sampleEnv 1 (stoppedEmpty true 0) 1 sampleParams = some s' ∧
      IsAlive s' = false :=
  stopped_empty_dies sampleEnv 1 (stoppedEmpty true 0)
    (sampleDef true 1 EMITTER_MODE.LOOPING 0) 1 sampleParams rfl rfl rfl rfl rfl (by decide!)

/-- A concrete run for C7: a created system with start time 10 after an
`Update` of frame time 1 differs only in `age` and `last_update_time`. -/
theorem update_preroll_witness :
    Update sampleEnv 1 (createdSystem (sampleDef true 1 EMITTER_MODE.LOOPING 10)) 1 sampleParams
      = some { createdSystem (sampleDef true 1 EMITTER_MODE.LOOPING 10) with
          age := (createdSystem (sampleDef true 1 EMITTER_MODE.LOOPING 10)).age + 1
          last_update_time := (createdSystem (sampleDef true 1 EMITTER_MODE.LOOPING 10)).age + 1 } :=
  update_preroll sampleEnv 1 (createdSystem (sampleDef true 1 EMITTER_MODE.LOOPING 10))
    (sampleDef true 1 EMITTER_MODE.LOOPING 10) 1 sampleParams rfl rfl rfl (by decide!)

/-! ## Burst mode -/

theorem preroll_fresh (env : Env) (fuel : Nat) (d : ParticleSystemDef) (hen : d.enabled = true) :
    ∀ (pre : List (ℚ × EffectParameters)) (s s1 : ParticleSystem),
      FreshSystem d s → preRollOnly d s.age pre →
      runCalls env fuel s (pre.map (fun c => Call.update c.1 c.2)) = some s1 →
      FreshSystem d s1 := by
  intro pre
  induction pre with
  | nil =>
    intro s s1 hf _ h
    simp [runCalls] at h
    subst h
    exact hf
  | cons c cs ih =>
    intro s s1 hf hp h
    obtain ⟨f1, f2, f3, f4⟩ := hf
    obtain ⟨p1, p2⟩ := hp
    simp only [List.map_cons, runCalls, applyCall] at h
    rw [preroll_step f2 f1 hen p1] at h
    exact ih { s with age := s.age + c.1, last_update_time := s.age + c.1 } s1
      ⟨f1, f2, f3, f4⟩ p2 h

theorem burst_frame {env : Env} {fuel : Nat} {s s' : ParticleSystem} {d : ParticleSystemDef}
    {frame_time : ℚ} {params : EffectParameters}
    (hfresh : FreshSystem d s) (hen : d.enabled = true)
    (hmode : d.emitter._emitter_mode = EMITTER_MODE.BURST)
    (hreach : d.emitter._start_time ≤ s.age + frame_time)
    (h : Update env fuel s frame_time params = some s') :
    s'.num_particles = (d.max_particles : Int) ∧ s'.stopped = true := by
  obtain ⟨f1, f2, f3, f4⟩ := hfresh
  rw [update_eq_fullFrame f2 f1 hen (not_lt.mpr hreach)] at h
  obtain ⟨s0, num1, s1, s2, c0, hn0, hk, he, rfl⟩ := fullFrame_some h
  have hn0' : s0.num_particles = 0 := by rw [hn0]; exact f4
  rw [killParticles_empty env d fuel params _ s0 hn0'] at hk
  have hs0 : s0.stopped = false := by rw [c0.2.2.1]; exact f3
  have hc : emissionCount d s0 = (d.max_particles : Int) := by
    simp [emissionCount, hs0, hmode]
  simp only [Option.some.injEq, Prod.mk.injEq] at hk
  obtain ⟨hk1, hk2⟩ := hk
  subst hk2
  obtain ⟨-, e1⟩ := emitParticles_control he
  refine ⟨?_, (finishUpdate_stopped d s2).2 hmode⟩
  rw [(finishUpdate_num d s2).1, e1, hn0', ← hk1, hc]
  simp

/-- C4: burst mode. For a system just created from an enabled definition in
burst mode, after any sequence of `Update` calls that each ended below the
emitter start time, the first `Update` that reaches the start time leaves the
live count equal to the capacity and the system stopped; and that `Update`
returns whenever the random provider keeps its draws between their bounds. -/
theorem burst_fills (env : Env) (fuel : Nat) (s : ParticleSystem) (d : ParticleSystemDef)
    (pre : List (ℚ × EffectParameters)) (s1 : ParticleSystem) (frame_time : ℚ)
    (params : EffectParameters)
    (hen : d.enabled = true) (hmode : d.emitter._emitter_mode = EMITTER_MODE.BURST)
    (hpre : preRollOnly d 0 pre)
    (hrun : runCalls env fuel (_Create s (some d)).2 (pre.map (fun c => Call.update c.1 c.2))
      = some s1)
    (hreach : d.emitter._start_time ≤ s1.age + frame_time) :
    (RandomFloatInRange env → 0 < fuel →
      ∃ s', Update env fuel s1 frame_time params = some s') ∧
    ∀ s', Update env fuel s1 frame_time params = some s' →
      s'.num_particles = (d.max_particles : Int) ∧ s'.stopped = true := by
  have h0 : FreshSystem d (_Create s (some d)).2 := by simp [FreshSystem, _Create]
  have h1 := preroll_fresh env fuel d hen pre _ s1 h0 (by simpa [_Create] using hpre) hrun
  exact ⟨fun hr hf => update_returns hr hf s1 d h1.1 frame_time params,
    fun s' h => burst_frame h1 hen hmode hreach h⟩

theorem sampleEnv_inRange : RandomFloatInRange sampleEnv := by
  intro a b n
  exact ⟨min_le_left a b, le_max_left a b⟩

/-- A concrete run for C4: capacity 3, start time 2; one pre-roll `Update` of
frame time 1, then the `Update` of frame time 2 fills the pool and stops. -/
theorem burst_fills_witness :
    ∃ s', Update sampleEnv 1
        { createdSystem (sampleDef true 3 EMITTER_MODE.BURST 2) with
          age := 0 + 1, last_update_time := 0 + 1 } 2 sampleParams = some s' ∧
      s'.num_particles = ((sampleDef true 3 EMITTER_MODE.BURST 2).max_particles : Int) ∧
      s'.stopped = true := by
  have h := burst_fills sampleEnv 1 blankSystem
    (sampleDef true 3 EMITTER_MODE.BURST 2) [(1, sampleParams)]
    { createdSystem (sampleDef true 3 EMITTER_MODE.BURST 2) with
      age := 0 + 1, last_update_time := 0 + 1 } 2 sampleParams rfl rfl
    ⟨by decide!, trivial⟩ (by decide!) (by decide!)
  obtain ⟨s', hs⟩ := h.1 sampleEnv_inRange (by decide)
  exact ⟨s', hs, h.2 s' hs⟩

/-! ## The kill pass -/

theorem expiredIn_succ (ps : List Particle) (j k : Nat) :
    expiredIn ps j (k + 1)
      = expiredIn ps (j + 1) k + if expired (ps.getD j default) = true then 1 else 0 := by
  simp only [expiredIn, List.range'_succ, List.countP_cons]

theorem expiredIn_set (ps : List Particle) (p : Particle) (i : Nat) :
    ∀ (k j : Nat), i < j → expiredIn (ps.set i p) j k = expiredIn ps j k := by
  intro k
  induction k with
  | zero => intro j _; simp [expiredIn]
  | succ k ih =>
    intro j hij
    rw [expiredIn_succ, expiredIn_succ, ih (j + 1) (by omega)]
    have hne : i ≠ j := by omega
    simp [List.getElem?_set_ne hne]

/-- The kill loop with a budget that covers every expired particle ahead:
nothing is killed, each expired slot is respawned in place, the other slots are
untouched and the budget drops by the number of expired particles. -/
theorem killLoop_recycle (env : Env) (d : ParticleSystemDef) (fuel : Nat)
    (params : EffectParameters) :
    ∀ (steps j : Nat) (num : Int) (s : ParticleSystem) (num1 : Int) (s1 : ParticleSystem),
      (j : Int) + steps = s.num_particles → s.num_particles ≤ (s.particles.length : Int) →
      (expiredIn s.particles j steps : Int) ≤ num →
      killLoop env d fuel params steps j num s = some (num1, s1) →
      s1.num_particles = s.num_particles ∧
      num1 = num - (expiredIn s.particles j steps : Int) ∧
      s1.particles.length = s.particles.length ∧
      (∀ i, (i < j ∨ j + steps ≤ i ∨ expired (s.particles.getD i default) = false) →
        s1.particles.getD i default = s.particles.getD i default) ∧
      (∀ i, j ≤ i → i < j + steps → expired (s.particles.getD i default) = true →
        ∃ n n1, respawnParticle env d fuel params (s.particles.getD i default) n
          = some (s1.particles.getD i default, n1)) := by
  intro steps
  induction steps with
  | zero =>
    intro j num s num1 s1 hj _ _ h
    have hlt : ¬ ((j : Int) < s.num_particles) := by omega
    simp only [killLoop, hlt, if_false, Option.some.injEq, Prod.mk.injEq] at h
    obtain ⟨rfl, rfl⟩ := h
    refine ⟨rfl, by simp [expiredIn], rfl, fun _ _ => rfl, fun i h1 h2 => by omega⟩
  | succ k ih =>
    intro j num s num1 s1 hj hpool hnum h
    have hlt : (j : Int) < s.num_particles := by omega
    have hjlen : j < s.particles.length := by omega
    rw [expiredIn_succ] at hnum ⊢
    unfold killLoop at h
    simp only [hlt, if_true] at h
    by_cases hexp : expired (s.particles.getD j default) = true
    · have hexp' : (s.particles.getD j default).time > (s.particles.getD j default).lifetime := by
        simpa [expired] using hexp
      simp only [hexp, if_true] at hnum ⊢
      have hpos : num > 0 := by
        have : (0 : Int) ≤ (expiredIn s.particles (j + 1) k : Int) := Int.ofNat_nonneg _
        push_cast at hnum
        omega
      simp only [hexp', hpos, if_true] at h
      split at h
      · cases h
      · next s2 hr =>
        obtain ⟨p, n, hp, rfl⟩ := respawn_some hr
        simp only [Int.toNat_ofNat] at hp h
        have hset := expiredIn_set s.particles p j k (j + 1) (by omega)
        obtain ⟨a1, a2, a3, a4, a5⟩ := ih (j + 1) (num - 1) _ num1 s1
          (by push_cast; omega) (by simpa using hpool)
          (by rw [hset]; push_cast at hnum; omega) h
        simp only [List.length_set] at a1 a2 a3 a4 a5
        rw [hset] at a2
        refine ⟨a1, by rw [a2]; push_cast; ring, a3, ?_, ?_⟩
        · intro i hi
          have hne : j ≠ i := by
            rintro rfl
            rcases hi with hi | hi | hi
            · omega
            · omega
            · rw [hexp] at hi
              cases hi
          rw [a4 i (by
            rcases hi with hi | hi | hi
            · left; omega
            · right; left; omega
            · right; right
              simpa [List.getElem?_set_ne hne] using hi)]
          simp [List.getElem?_set_ne hne]
        · intro i hi1 hi2 hi3
          by_cases hij : i = j
          · subst hij
            refine ⟨s.random_draws, n, ?_⟩
            rw [a4 i (Or.inl (by omega)), hp]
            simp [List.getElem?_set_self hjlen]
          · have hne : j ≠ i := fun h => hij h.symm
            obtain ⟨m, m1, hm⟩ := a5 i (by omega) (by omega)
              (by simpa [List.getElem?_set_ne hne] using hi3)
            refine ⟨m, m1, ?_⟩
            rw [← hm]
            simp [List.getElem?_set_ne hne]
    · have hexp' : ¬ ((s.particles.getD j default).time
          > (s.particles.getD j default).lifetime) := by
        simpa [expired] using hexp
      simp only [hexp, hexp', if_false] at h hnum ⊢
      obtain ⟨a1, a2, a3, a4, a5⟩ := ih (j + 1) num s num1 s1
        (by push_cast; omega) hpool (by simpa using hnum) h
      refine ⟨a1, by rw [a2]; simp, a3, ?_, ?_⟩
      · intro i hi
        by_cases hij : i = j
        · subst hij
          exact a4 i (Or.inl (by omega))
        · exact a4 i (by
            rcases hi with hi | hi | hi
            · left; omega
            · right; left; omega
            · right; right; exact hi)
      · intro i hi1 hi2 hi3
        have hij : i ≠ j := by
          rintro rfl
          exact hexp hi3
        exact a5 i (by omega) (by omega) hi3

/-- C2: recycling when enough emissions are due. For every pool with live count
between 0 and the pool size in which `N` live particles are expired, and every
budget `M ≥ N`, the kill pass leaves the live count unchanged, leaves a budget
of exactly `M - N`, leaves every slot that is not an expired live slot
unchanged, and leaves in each expired live slot a respawn of that slot; and
the pass returns whenever the random provider keeps its draws between their
bounds. -/
theorem kill_recycles (env : Env) (fuel : Nat) (d : ParticleSystemDef)
    (params : EffectParameters) (s : ParticleSystem) (M : Int)
    (h0 : 0 ≤ s.num_particles) (hpool : s.num_particles ≤ (s.particles.length : Int))
    (hM : (expiredCount s : Int) ≤ M) :
    (RandomFloatInRange env → 0 < fuel →
      ∃ r, _KillParticles env d fuel M params s = some r) ∧
    ∀ num1 s1, _KillParticles env d fuel M params s = some (num1, s1) →
      s1.num_particles = s.num_particles ∧
      num1 = M - (expiredCount s : Int) ∧
      (∀ j : Nat, (s.num_particles ≤ (j : Int) ∨ expired (s.particles.getD j default) = false) →
        s1.particles.getD j default = s.particles.getD j default) ∧
      (∀ j : Nat, (j : Int) < s.num_particles → expired (s.particles.getD j default) = true →
        ∃ n n1, respawnParticle env d fuel params (s.particles.getD j default) n
          = some (s1.particles.getD j default, n1)) := by
  refine ⟨fun hr hf => killLoop_returns hr d hf params _ _ _ _ (by omega), ?_⟩
  intro num1 s1 h
  obtain ⟨a1, a2, -, a4, a5⟩ := killLoop_recycle env d fuel params s.num_particles.toNat 0 M s
    num1 s1 (by omega) hpool hM h
  refine ⟨a1, a2, ?_, ?_⟩
  · intro j hj
    refine a4 j ?_
    rcases hj with hj | hj
    · right; left; omega
    · right; right; exact hj
  · intro j hj he
    exact a5 j (by omega) (by omega) he

/-- A concrete run for C2: two expired live particles and a budget of 3; the
kill pass returns with both slots still live and a budget of 1. -/
theorem kill_recycles_witness :
    ∃ num1 s1, _KillParticles sampleEnv (sampleDef true 2 EMITTER_MODE.ALWAYS 0) 1 3
        sampleParams twoExpired = some (num1, s1) ∧
      s1.num_particles = twoExpired.num_particles ∧
      num1 = 3 - (expiredCount twoExpired : Int) := by
  have h := kill_recycles sampleEnv 1 (sampleDef true 2 EMITTER_MODE.ALWAYS 0) sampleParams
    twoExpired 3 (by decide!) (by decide!) (by decide!)
  obtain ⟨⟨num1, s1⟩, hr⟩ := h.1 sampleEnv_inRange (by decide)
  exact ⟨num1, s1, hr, (h.2 num1 s1 hr).1, (h.2 num1 s1 hr).2.1⟩

/-- C3 on the code: with two live particles, both expired, and a budget of 0
(`N = 2`, `M = 0`), the kill pass removes one particle, not two: the particle
copied from the tail into slot 0 is not examined, and it is still live and
expired afterwards. The same happens in a run: a pool of 2 filled by a first
`Update`, `Stop`, then an `Update` in which both particles expire. -/
theorem kill_leaves_swapped_in :
    twoExpired.num_particles = 2 ∧ expiredCount twoExpired = 2 ∧
    (_KillParticles sampleEnv (sampleDef true 2 EMITTER_MODE.ALWAYS 0) 1 0 sampleParams
        twoExpired).map (fun r => (r.2.num_particles, expiredCount r.2)) = some (1, 1) ∧
    (runCalls sampleEnv 1 (createdSystem (sampleDef true 2 EMITTER_MODE.ALWAYS 0))
        [Call.update 1 sampleParams, Call.stop, Call.update 2 sampleParams]).map
      (fun s => (s.num_particles, expiredCount s)) = some (1, 1) := by
  decide!

/-! ## The emission count -/

theorem mem_ticksInside (lo hi : ℚ) (k : Int) :
    k ∈ ticksInside lo hi ↔ lo ≤ (k : ℚ) ∧ (k : ℚ) < hi := by
  simp only [ticksInside, Finset.mem_filter, Finset.mem_Icc, and_iff_right_iff_imp]
  rintro ⟨h1, h2⟩
  exact ⟨by exact_mod_cast (Int.floor_le lo).trans h1,
    by exact_mod_cast (h2.trans_le (Int.le_ceil hi)).le⟩

theorem mem_ticksStrictlyInside (lo hi : ℚ) (k : Int) :
    k ∈ ticksStrictlyInside lo hi ↔ lo < (k : ℚ) ∧ (k : ℚ) < hi := by
  simp only [ticksStrictlyInside, Finset.mem_filter, Finset.mem_Icc, and_iff_right_iff_imp]
  rintro ⟨h1, h2⟩
  exact ⟨by exact_mod_cast ((Int.floor_le lo).trans_lt h1).le,
    by exact_mod_cast (h2.trans_le (Int.le_ceil hi)).le⟩

theorem ticksStrictlyInside_eq (lo hi : ℚ) :
    ticksStrictlyInside lo hi = Finset.Ioo ⌊lo⌋ ⌈hi⌉ := by
  ext k
  rw [mem_ticksStrictlyInside, Finset.mem_Ioo, Int.floor_lt, Int.lt_ceil]

theorem ticksInside_eq (lo hi : ℚ) : ticksInside lo hi = Finset.Ico ⌈lo⌉ ⌈hi⌉ := by
  ext k
  rw [mem_ticksInside, Finset.mem_Ico, Int.ceil_le, Int.lt_ceil]

/-- C12 as stated fails: with `last_update_time = 0`, `age = 1` and rate 1 the
tick `k = 0` lies inside `[0, 1)`, so one tick falls inside the interval, while
the unclamped count is `ceil 1 - floor 0 - 1 = 0`; accordingly a created system
of rate 1 schedules no emission in a first `Update` of frame time 1. -/
theorem rate_count_misses_boundary_tick :
    (0 : ℚ) < 1 ∧ (0 : ℚ) ≤ 0 ∧ (0 : ℚ) ≤ 1 ∧
    rateEmissionCount 0 1 1 = 0 ∧ (ticksInside (0 * 1) (1 * 1)).card = 1 ∧
    emissionCount (sampleDef true 2 EMITTER_MODE.LOOPING 0)
      { createdSystem (sampleDef true 2 EMITTER_MODE.LOOPING 0) with age := 1 } = 0 := by
  decide!

/-- C12 amended: for every rate > 0 and every `last_update_time ≤ age`, the
unclamped rate-based count `ceil (age * rate) - floor (last_update_time * rate)
- 1` equals the number of integers `k` with
`last_update_time * rate < k < age * rate` (ticks strictly inside the interval)
whenever `last_update_time < age`, and it equals the number of integers `k`
with `last_update_time * rate ≤ k < age * rate` whenever
`last_update_time * rate` is not an integer. -/
theorem rate_count_ticks (last_update_time age rate : ℚ) (hrate : 0 < rate)
    (hle : last_update_time ≤ age) :
    (last_update_time < age →
      rateEmissionCount last_update_time age rate
        = ((ticksStrictlyInside (last_update_time * rate) (age * rate)).card : Int)) ∧
    (((⌊last_update_time * rate⌋ : Int) : ℚ) ≠ last_update_time * rate →
      rateEmissionCount last_update_time age rate
        = ((ticksInside (last_update_time * rate) (age * rate)).card : Int)) := by
  have hab : last_update_time * rate ≤ age * rate := mul_le_mul_of_nonneg_right hle hrate.le
  constructor
  · intro hlt
    have hab' : last_update_time * rate < age * rate := mul_lt_mul_of_pos_right hlt hrate
    have h1 : ⌊last_update_time * rate⌋ < ⌈age * rate⌉ := by
      rw [Int.floor_lt]
      exact hab'.trans_le (Int.le_ceil _)
    rw [ticksStrictlyInside_eq, Int.card_Ioo, rateEmissionCount, Int.toNat_of_nonneg (by omega)]
  · intro hni
    have hlt : ((⌊last_update_time * rate⌋ : Int) : ℚ) < last_update_time * rate :=
      lt_of_le_of_ne (Int.floor_le _) hni
    have hc : ⌈last_update_time * rate⌉ = ⌊last_update_time * rate⌋ + 1 := by
      rw [Int.ceil_eq_iff]
      push_cast
      exact ⟨by linarith, (Int.lt_floor_add_one _).le⟩
    have hmono : ⌈last_update_time * rate⌉ ≤ ⌈age * rate⌉ := Int.ceil_mono hab
    rw [ticksInside_eq, Int.card_Ico, rateEmissionCount, Int.toNat_of_nonneg (by omega)]
    omega

/-- A concrete instance for C12 amended: `last_update_time = 1/2`, `age = 5/2`,
rate 1; the count is 2, the ticks 1 and 2. -/
theorem rate_count_ticks_witness :
    rateEmissionCount (1 / 2) (5 / 2) 1
      = ((ticksStrictlyInside (1 / 2 * 1) (5 / 2 * 1)).card : Int) :=
  (rate_count_ticks (1 / 2) (5 / 2) 1 (by decide!) (by decide!)).1 (by decide!)

/-! ## The filled-circle rejection loop -/

theorem sampleFilledCircle_accept (env : Env) (radius : ℚ) (fuel n : Nat)
    (h : ¬ (env.RandomFloat (-(radius * (1 / 2))) (radius * (1 / 2)) n
          * env.RandomFloat (-(radius * (1 / 2))) (radius * (1 / 2)) n
        + env.RandomFloat (-(radius * (1 / 2))) (radius * (1 / 2)) (n + 1)
          * env.RandomFloat (-(radius * (1 / 2))) (radius * (1 / 2)) (n + 1)
        > radius * radius)) :
    sampleFilledCircle env radius (fuel + 1) n
      = some (env.RandomFloat (-(radius * (1 / 2))) (radius * (1 / 2)) n,
              env.RandomFloat (-(radius * (1 / 2))) (radius * (1 / 2)) (n + 1), n + 2) := by
  simp only [sampleFilledCircle, h, if_false]

/-- C16: filled-circle rejection sampling. For every positive radius `r`, when
the two draws `x`, `y` of the first iteration lie in `[-r/2, r/2]`, the
acceptance test `x * x + y * y ≤ r * r` holds, the rejection loop returns these
two draws after one iteration (two draws consumed, whatever the iteration
allowance), and the position sampled by the shape switch lies within `r/2` of
the emitter position on each axis. -/
theorem filled_circle_first_sample (env : Env) (emitter : ParticleEmitter) (fuel n : Nat)
    (hshape : emitter._shape = EMITTER_SHAPE.FILLED_CIRCLE) (hr : 0 < emitter._radius)
    (hx : -(emitter._radius / 2)
        ≤ env.RandomFloat (-(emitter._radius * (1 / 2))) (emitter._radius * (1 / 2)) n ∧
      env.RandomFloat (-(emitter._radius * (1 / 2))) (emitter._radius * (1 / 2)) n
        ≤ emitter._radius / 2)
    (hy : -(emitter._radius / 2)
        ≤ env.RandomFloat (-(emitter._radius * (1 / 2))) (emitter._radius * (1 / 2)) (n + 1) ∧
      env.RandomFloat (-(emitter._radius * (1 / 2))) (emitter._radius * (1 / 2)) (n + 1)
        ≤ emitter._radius / 2) :
    env.RandomFloat (-(emitter._radius * (1 / 2))) (emitter._radius * (1 / 2)) n
        * env.RandomFloat (-(emitter._radius * (1 / 2))) (emitter._radius * (1 / 2)) n
      + env.RandomFloat (-(emitter._radius * (1 / 2))) (emitter._radius * (1 / 2)) (n + 1)
        * env.RandomFloat (-(emitter._radius * (1 / 2))) (emitter._radius * (1 / 2)) (n + 1)
      ≤ emitter._radius * emitter._radius ∧
    sampleFilledCircle env emitter._radius (fuel + 1) n
      = some (env.RandomFloat (-(emitter._radius * (1 / 2))) (emitter._radius * (1 / 2)) n,
          env.RandomFloat (-(emitter._radius * (1 / 2))) (emitter._radius * (1 / 2)) (n + 1),
          n + 2) ∧
    ∃ pos, respawnPosition env emitter (fuel + 1) n = some (pos, n + 2) ∧
      |pos.x - emitter._pos.x| ≤ emitter._radius / 2 ∧
      |pos.y - emitter._pos.y| ≤ emitter._radius / 2 := by
  obtain ⟨x1, x2⟩ := hx
  obtain ⟨y1, y2⟩ := hy
  have hacc : env.RandomFloat (-(emitter._radius * (1 / 2))) (emitter._radius * (1 / 2)) n
        * env.RandomFloat (-(emitter._radius * (1 / 2))) (emitter._radius * (1 / 2)) n
      + env.RandomFloat (-(emitter._radius * (1 / 2))) (emitter._radius * (1 / 2)) (n + 1)
        * env.RandomFloat (-(emitter._radius * (1 / 2))) (emitter._radius * (1 / 2)) (n + 1)
      ≤ emitter._radius * emitter._radius := by
    nlinarith
  have hs := sampleFilledCircle_accept env emitter._radius fuel n (not_lt.mpr hacc)
  refine ⟨hacc, hs,
    ⟨env.RandomFloat (-(emitter._radius * (1 / 2))) (emitter._radius * (1 / 2)) n
        + emitter._pos.x,
      env.RandomFloat (-(emitter._radius * (1 / 2))) (emitter._radius * (1 / 2)) (n + 1)
        + emitter._pos.y⟩, ?_, ?_, ?_⟩
  · simp only [respawnPosition, hshape, hs]
  · simp only [add_sub_cancel_right]
    exact abs_le.mpr ⟨x1, x2⟩
  · simp only [add_sub_cancel_right]
    exact abs_le.mpr ⟨y1, y2⟩

/-- A concrete instance for C16: radius 1 and draws equal to the lower bound
`-1/2`; the loop returns `(-1/2, -1/2)` after one iteration. -/
theorem filled_circle_first_sample_witness :
    sampleFilledCircle sampleEnv filledCircleEmitter._radius (0 + 1) 0
      = some (sampleEnv.RandomFloat (-(filledCircleEmitter._radius * (1 / 2)))
            (filledCircleEmitter._radius * (1 / 2)) 0,
          sampleEnv.RandomFloat (-(filledCircleEmitter._radius * (1 / 2)))
            (filledCircleEmitter._radius * (1 / 2)) (0 + 1), 0 + 2) :=
  (filled_circle_first_sample sampleEnv filledCircleEmitter 0 0 rfl (by decide!)
    (by decide!) (by decide!)).2.1

/-! ## The animation frames of a created system -/

theorem foldl_AddFrame_frames (f : Nat → String) (g : Nat → Int) (l : List Nat) :
    ∀ a : AnimatedImage,
      (l.foldl (fun a j => a.AddFrame (f j) (g j)) a).frames
        = a.frames ++ l.map (fun j => (f j, g j)) := by
  induction l with
  | nil => intro a; simp
  | cons j l ih =>
    intro a
    rw [List.foldl_cons, ih]
    simp [AnimatedImage.AddFrame]

theorem frameTime_eq (times : List Int) (j : Nat) :
    frameTime times j
      = if j < times.length then times.getD j 0 else times.getLast?.getD 0 := by
  unfold frameTime
  split_ifs with h1 h2
  · rfl
  · have : times = [] := by simpa using h2
    subst this
    rfl
  · rw [List.getLastD_eq_getLast?]

/-- C18: animation frame durations at creation. For a definition with `n` frame
file names and frame times `ts`, a successful `_Create` appends exactly `n`
frames to the animation, in order, where frame `j` is file name `j` with
duration `ts[j]` if `j < |ts|`, otherwise the last element of `ts` if `ts` is
not empty, otherwise 0. -/
theorem create_frames (s : ParticleSystem) (d : ParticleSystemDef) :
    (_Create s (some d)).1 = true ∧
    (_Create s (some d)).2.animation.frames
      = s.animation.frames
        ++ (List.range d.animation_frame_filenames.length).map
            (fun j => (d.animation_frame_filenames.getD j "",
              if j < d.animation_frame_times.length then d.animation_frame_times.getD j 0
              else d.animation_frame_times.getLast?.getD 0)) ∧
    (_Create s (some d)).2.animation.frames.length
      = s.animation.frames.length + d.animation_frame_filenames.length := by
  have h : (_Create s (some d)).2.animation.frames
      = s.animation.frames
        ++ (List.range d.animation_frame_filenames.length).map
            (fun j => (d.animation_frame_filenames.getD j "",
              if j < d.animation_frame_times.length then d.animation_frame_times.getD j 0
              else d.animation_frame_times.getLast?.getD 0)) := by
    simp only [_Create, addFrames]
    rw [foldl_AddFrame_frames]
    simp only [frameTime_eq]
  refine ⟨rfl, h, ?_⟩
  rw [h]
  simp

/-! ## Spawning with a single keyframe -/

theorem draw_abs_le {env : Env} (hr : RandomFloatInRange env) (v : ℚ) (n : Nat) :
    |env.RandomFloat (-v) v n| ≤ |v| := by
  obtain ⟨h1, h2⟩ := hr (-v) v n
  rcases le_total 0 v with hv | hv
  · rw [min_eq_left (by linarith)] at h1
    rw [max_eq_right (by linarith)] at h2
    rw [abs_of_nonneg hv]
    exact abs_le.mpr ⟨h1, h2⟩
  · rw [min_eq_right (by linarith)] at h1
    rw [max_eq_left (by linarith)] at h2
    rw [abs_of_nonpos hv]
    exact abs_le.mpr ⟨by linarith, h2⟩

/-- A value to which a draw within plus or minus a drawn variation is added
stays within the configured variation of where it was. -/
theorem applied_variation_le {env : Env} (hr : RandomFloatInRange env) (base v : ℚ)
    (m n : Nat) :
    |base + env.RandomFloat (-(env.RandomFloat (-v) v m)) (env.RandomFloat (-v) v m) n - base|
      ≤ |v| := by
  rw [add_sub_cancel_left]
  exact (draw_abs_le hr _ n).trans (draw_abs_le hr v m)

theorem respawnFrom_keys (env : Env) (d : ParticleSystemDef) (params : EffectParameters)
    (p : Particle) (pos0 : Position2D) (n0 : Nat) :
    (respawnFrom env d params p pos0 n0).1.time = 0 ∧
    (respawnFrom env d params p pos0 n0).1.current_keyframe = some 0 ∧
    (respawnFrom env d params p pos0 n0).1.next_keyframe
      = (if d.keyframes.length > 1 then some 1 else none) := by
  unfold respawnFrom
  simp only [apply_ite Prod.fst, apply_ite Particle.time, apply_ite Particle.current_keyframe,
    apply_ite Particle.next_keyframe, ite_self]
  exact ⟨trivial, trivial, trivial⟩

/-- With one keyframe, the keyframed properties of a respawned particle are
keyframe 0's values plus a draw within plus or minus the variation drawn just
before; `N` is the index of the first variation draw. -/
theorem respawnFrom_single (env : Env) (d : ParticleSystemDef) (params : EffectParameters)
    (p : Particle) (pos0 : Position2D) (n0 : Nat) (hk : d.keyframes.length = 1) :
    ∃ N,
      (respawnFrom env d params p pos0 n0).1.rotation_speed
        = (d.keyframes.getD 0 default).rotation_speed
          + env.RandomFloat
              (-(env.RandomFloat (-(d.keyframes.getD 0 default).rotation_speed_variation)
                  (d.keyframes.getD 0 default).rotation_speed_variation (N + 6)))
              (env.RandomFloat (-(d.keyframes.getD 0 default).rotation_speed_variation)
                  (d.keyframes.getD 0 default).rotation_speed_variation (N + 6)) (N + 7 + 6) ∧
      (respawnFrom env d params p pos0 n0).1.size
        = ⟨(d.keyframes.getD 0 default).size.x
            + env.RandomFloat
                (-(env.RandomFloat (-(d.keyframes.getD 0 default).size_variation.x)
                    (d.keyframes.getD 0 default).size_variation.x N))
                (env.RandomFloat (-(d.keyframes.getD 0 default).size_variation.x)
                    (d.keyframes.getD 0 default).size_variation.x N) (N + 7 + 4),
           (d.keyframes.getD 0 default).size.y
            + env.RandomFloat
                (-(env.RandomFloat (-(d.keyframes.getD 0 default).size_variation.y)
                    (d.keyframes.getD 0 default).size_variation.y (N + 1)))
                (env.RandomFloat (-(d.keyframes.getD 0 default).size_variation.y)
                    (d.keyframes.getD 0 default).size_variation.y (N + 1)) (N + 7 + 5)⟩ ∧
      (respawnFrom env d params p pos0 n0).1.color
        = ⟨(d.keyframes.getD 0 default).color.c0
            + env.RandomFloat
                (-(env.RandomFloat (-(d.keyframes.getD 0 default).color_variation.c0)
                    (d.keyframes.getD 0 default).color_variation.c0 (N + 2)))
                (env.RandomFloat (-(d.keyframes.getD 0 default).color_variation.c0)
                    (d.keyframes.getD 0 default).color_variation.c0 (N + 2)) (N + 7),
           (d.keyframes.getD 0 default).color.c1
            + env.RandomFloat
                (-(env.RandomFloat (-(d.keyframes.getD 0 default).color_variation.c1)
                    (d.keyframes.getD 0 default).color_variation.c1 (N + 3)))
                (env.RandomFloat (-(d.keyframes.getD 0 default).color_variation.c1)
                    (d.keyframes.getD 0 default).color_variation.c1 (N + 3)) (N + 7 + 1),
           (d.keyframes.getD 0 default).color.c2
            + env.RandomFloat
                (-(env.RandomFloat (-(d.keyframes.getD 0 default).color_variation.c2)
                    (d.keyframes.getD 0 default).color_variation.c2 (N + 4)))
                (env.RandomFloat (-(d.keyframes.getD 0 default).color_variation.c2)
                    (d.keyframes.getD 0 default).color_variation.c2 (N + 4)) (N + 7 + 2),
           (d.keyframes.getD 0 default).color.c3
            + env.RandomFloat
                (-(env.RandomFloat (-(d.keyframes.getD 0 default).color_variation.c3)
                    (d.keyframes.getD 0 default).color_variation.c3 (N + 5)))
                (env.RandomFloat (-(d.keyframes.getD 0 default).color_variation.c3)
                    (d.keyframes.getD 0 default).color_variation.c3 (N + 5)) (N + 7 + 3)⟩ := by
  unfold respawnFrom
  simp only [hk, gt_iff_lt, lt_self_iff_false, if_false, apply_ite Prod.fst,
    apply_ite Particle.rotation_speed, apply_ite Particle.size, apply_ite Particle.color,
    ite_self]
  exact ⟨_, rfl, rfl, rfl⟩

theorem respawnParticle_some {env : Env} {d : ParticleSystemDef} {fuel : Nat}
    {params : EffectParameters} {p q : Particle} {n n1 : Nat}
    (h : respawnParticle env d fuel params p n = some (q, n1)) :
    ∃ pos0 n0, q = (respawnFrom env d params p pos0 n0).1 := by
  unfold respawnParticle at h
  split at h
  · cases h
  · next pos0 n0 _ =>
    simp only [Option.some.injEq] at h
    exact ⟨pos0, n0, by rw [h]⟩

/-- C13: single-keyframe spawn bound. For a definition with exactly one
keyframe and a random provider whose draws `RandomFloat(a, b)` lie between `a`
and `b`, `_RespawnParticle` returns, and the particle it yields has rotation
speed, both size components and all four color channels within keyframe 0's
configured variation (in absolute value) of keyframe 0's value, and no next
keyframe. -/
theorem single_keyframe_spawn (env : Env) (hr : RandomFloatInRange env)
    (d : ParticleSystemDef) (fuel : Nat) (hf : 0 < fuel) (params : EffectParameters)
    (p : Particle) (n : Nat) (hk : d.keyframes.length = 1) :
    ∃ q n1, respawnParticle env d fuel params p n = some (q, n1) ∧
      |q.rotation_speed - (d.keyframes.getD 0 default).rotation_speed|
        ≤ |(d.keyframes.getD 0 default).rotation_speed_variation| ∧
      |q.size.x - (d.keyframes.getD 0 default).size.x|
        ≤ |(d.keyframes.getD 0 default).size_variation.x| ∧
      |q.size.y - (d.keyframes.getD 0 default).size.y|
        ≤ |(d.keyframes.getD 0 default).size_variation.y| ∧
      |q.color.c0 - (d.keyframes.getD 0 default).color.c0|
        ≤ |(d.keyframes.getD 0 default).color_variation.c0| ∧
      |q.color.c1 - (d.keyframes.getD 0 default).color.c1|
        ≤ |(d.keyframes.getD 0 default).color_variation.c1| ∧
      |q.color.c2 - (d.keyframes.getD 0 default).color.c2|
        ≤ |(d.keyframes.getD 0 default).color_variation.c2| ∧
      |q.color.c3 - (d.keyframes.getD 0 default).color.c3|
        ≤ |(d.keyframes.getD 0 default).color_variation.c3| ∧
      q.next_keyframe = none := by
  obtain ⟨⟨q, n1⟩, h⟩ := respawnParticle_returns hr d hf params p n
  obtain ⟨pos0, n0, rfl⟩ := respawnParticle_some h
  obtain ⟨N, e1, e2, e3⟩ := respawnFrom_single env d params p pos0 n0 hk
  refine ⟨_, n1, h, ?_, ?_, ?_, ?_, ?_, ?_, ?_, ?_⟩
  · rw [e1]; exact applied_variation_le hr _ _ _ _
  · rw [e2]; exact applied_variation_le hr _ _ _ _
  · rw [e2]; exact applied_variation_le hr _ _ _ _
  · rw [e3]; exact applied_variation_le hr _ _ _ _
  · rw [e3]; exact applied_variation_le hr _ _ _ _
  · rw [e3]; exact applied_variation_le hr _ _ _ _
  · rw [e3]; exact applied_variation_le hr _ _ _ _
  · rw [(respawnFrom_keys env d params p pos0 n0).2.2, hk]
    rfl

/-- A concrete instance for C13: the one-keyframe sample definition, whose
keyframe 0 has rotation speed 0 and variation 0. -/
theorem single_keyframe_spawn_witness :
    ∃ q n1, respawnParticle sampleEnv (sampleDef true 1 EMITTER_MODE.LOOPING 0) 1 sampleParams
        default 0 = some (q, n1) ∧
      |q.rotation_speed
          - ((sampleDef true 1 EMITTER_MODE.LOOPING 0).keyframes.getD 0 default).rotation_speed|
        ≤ |((sampleDef true 1 EMITTER_MODE.LOOPING 0).keyframes.getD 0
            default).rotation_speed_variation| ∧
      q.next_keyframe = none := by
  obtain ⟨q, n1, h, h1, -, -, -, -, -, -, h2⟩ :=
    single_keyframe_spawn sampleEnv sampleEnv_inRange (sampleDef true 1 EMITTER_MODE.LOOPING 0)
      1 (by decide) sampleParams default 0 rfl
  exact ⟨q, n1, h, h1, h2⟩

/-! ## The keyframe state of a particle -/

/-- The keyframe part of the loop body is the scan, the current-variation step
and the next-variation step, in order. -/
theorem advanceKeyframe_eq (env : Env) (d : ParticleSystemDef) (st : ℚ) (p : Particle)
    (n : Nat) :
    advanceKeyframe env d st p n
      = match p.next_keyframe with
        | none => (p, n)
        | some old_next =>
          if st ≥ (keyframeAt d p.next_keyframe).time then
            nextVariations env d (currentVariations env d old_next (scanKeyframes d st p) n).1
              (currentVariations env d old_next (scanKeyframes d st p) n).2
          else (p, n) := by
  rfl

theorem scanKeyframes_fields (d : ParticleSystemDef) (st : ℚ) (p : Particle) :
    (scanKeyframes d st p).time = p.time ∧ (scanKeyframes d st p).lifetime = p.lifetime ∧
    (scanKeyframes d st p).current_keyframe = some (prevIndex (keyframeScan d st)) ∧
    (scanKeyframes d st p).next_keyframe
      = (if keyframeScan d st < d.keyframes.length then some (keyframeScan d st) else none) := by
  have hle : keyframeScan d st ≤ d.keyframes.length := List.findIdx_le_length _
  unfold scanKeyframes
  dsimp only
  generalize keyframeScan d st = k at hle ⊢
  by_cases hk : k < d.keyframes.length
  · have hne : k ≠ d.keyframes.length := by omega
    rw [if_pos hk, if_neg hne, if_pos hk]
    exact ⟨rfl, rfl, rfl, rfl⟩
  · have he : k = d.keyframes.length := by omega
    rw [if_neg hk, if_pos he, if_neg hk]
    exact ⟨rfl, rfl, rfl, rfl⟩

theorem currentVariations_fields (env : Env) (d : ParticleSystemDef) (old_next : Nat)
    (p : Particle) (n : Nat) :
    SameKeyframes p (currentVariations env d old_next p n).1 ∧
    SameLook p (currentVariations env d old_next p n).1 := by
  unfold currentVariations
  split_ifs <;> exact ⟨⟨rfl, rfl, rfl, rfl⟩, ⟨rfl, rfl, rfl⟩⟩

theorem nextVariations_fields (env : Env) (d : ParticleSystemDef) (p : Particle) (n : Nat) :
    SameKeyframes p (nextVariations env d p n).1 ∧
    SameLook p (nextVariations env d p n).1 := by
  unfold nextVariations
  split <;> exact ⟨⟨rfl, rfl, rfl, rfl⟩, ⟨rfl, rfl, rfl⟩⟩

theorem advanceKeyframe_none (env : Env) (d : ParticleSystemDef) (st : ℚ) (p : Particle)
    (n : Nat) (h : p.next_keyframe = none) : advanceKeyframe env d st p n = (p, n) := by
  rw [advanceKeyframe_eq]
  simp only [h]

theorem advanceKeyframe_early (env : Env) (d : ParticleSystemDef) (st : ℚ) (p : Particle)
    (n : Nat) (h : ¬ st ≥ (keyframeAt d p.next_keyframe).time) :
    advanceKeyframe env d st p n = (p, n) := by
  rw [advanceKeyframe_eq]
  split
  · rfl
  · rw [if_neg h]

theorem advanceKeyframe_advanced (env : Env) (d : ParticleSystemDef) (st : ℚ) (p : Particle)
    (n nk : Nat) (hn : p.next_keyframe = some nk)
    (h : st ≥ (keyframeAt d p.next_keyframe).time) :
    (advanceKeyframe env d st p n).1.time = p.time ∧
    (advanceKeyframe env d st p n).1.lifetime = p.lifetime ∧
    (advanceKeyframe env d st p n).1.current_keyframe = some (prevIndex (keyframeScan d st)) ∧
    (advanceKeyframe env d st p n).1.next_keyframe
      = (if keyframeScan d st < d.keyframes.length then some (keyframeScan d st) else none) := by
  have e : advanceKeyframe env d st p n
      = nextVariations env d (currentVariations env d nk (scanKeyframes d st p) n).1
          (currentVariations env d nk (scanKeyframes d st p) n).2 := by
    rw [advanceKeyframe_eq]
    simp only [hn]
    rw [if_pos (by rw [← hn]; exact h)]
  obtain ⟨s1, s2, s3, s4⟩ := scanKeyframes_fields d st p
  obtain ⟨⟨c1, c2, c3, c4⟩, -⟩ := currentVariations_fields env d nk (scanKeyframes d st p) n
  obtain ⟨⟨n1, n2, n3, n4⟩, -⟩ := nextVariations_fields env d
    (currentVariations env d nk (scanKeyframes d st p) n).1
    (currentVariations env d nk (scanKeyframes d st p) n).2
  rw [e]
  exact ⟨by rw [n1, c1, s1], by rw [n2, c2, s2], by rw [n3, c3, s3], by rw [n4, c4, s4]⟩

theorem interpolate_fields (d : ParticleSystemDef) (st : ℚ) (p : Particle) :
    SameKeyframes p (interpolate d st p) ∧
    (p.next_keyframe = none → interpolate d st p = p) := by
  unfold interpolate
  split
  · exact ⟨⟨rfl, rfl, rfl, rfl⟩, fun _ => rfl⟩
  · next k hk => exact ⟨⟨rfl, rfl, rfl, rfl⟩, fun h => by rw [hk] at h; cases h⟩

theorem combineVelocity_fields (env : Env) (d : ParticleSystemDef) (t : ℚ) (p : Particle) :
    SameKeyframes p (combineVelocity env d t p) ∧ SameLook p (combineVelocity env d t p) := by
  unfold combineVelocity
  dsimp only
  split_ifs <;> exact ⟨⟨rfl, rfl, rfl, rfl⟩, ⟨rfl, rfl, rfl⟩⟩

theorem integrate_fields (t : ℚ) (p : Particle) :
    SameKeyframes p (integrate t p) ∧ SameLook p (integrate t p) :=
  ⟨⟨rfl, rfl, rfl, rfl⟩, ⟨rfl, rfl, rfl⟩⟩

theorem attract_fields (env : Env) (d : ParticleSystemDef) (params : EffectParameters) (t : ℚ)
    (p : Particle) :
    SameKeyframes p (attract env d params t p) ∧ SameLook p (attract env d params t p) := by
  unfold attract
  dsimp only
  split_ifs <;> exact ⟨⟨rfl, rfl, rfl, rfl⟩, ⟨rfl, rfl, rfl⟩⟩

theorem dampAndAge_fields (env : Env) (t : ℚ) (p : Particle) :
    (dampAndAge env t p).time = p.time + t ∧ (dampAndAge env t p).lifetime = p.lifetime ∧
    (dampAndAge env t p).current_keyframe = p.current_keyframe ∧
    (dampAndAge env t p).next_keyframe = p.next_keyframe ∧
    SameLook p (dampAndAge env t p) := by
  unfold dampAndAge
  dsimp only
  split_ifs <;> exact ⟨rfl, rfl, rfl, rfl, ⟨rfl, rfl, rfl⟩⟩

/-- The loop body of `_UpdateParticles` after the keyframe part and the
interpolation: the look and the keyframe pointers stay, the age grows by `t`. -/
theorem motion_fields (env : Env) (d : ParticleSystemDef) (params : EffectParameters) (t : ℚ)
    (p : Particle) :
    (dampAndAge env t (attract env d params t (integrate t (combineVelocity env d t p)))).time
      = p.time + t ∧
    (dampAndAge env t (attract env d params t (integrate t (combineVelocity env d t p)))).lifetime
      = p.lifetime ∧
    (dampAndAge env t (attract env d params t
      (integrate t (combineVelocity env d t p)))).current_keyframe = p.current_keyframe ∧
    (dampAndAge env t (attract env d params t
      (integrate t (combineVelocity env d t p)))).next_keyframe = p.next_keyframe ∧
    SameLook p
      (dampAndAge env t (attract env d params t (integrate t (combineVelocity env d t p)))) := by
  obtain ⟨⟨a1, a2, a3, a4⟩, a5, a6, a7⟩ := combineVelocity_fields env d t p
  obtain ⟨⟨b1, b2, b3, b4⟩, b5, b6, b7⟩ := integrate_fields t (combineVelocity env d t p)
  obtain ⟨⟨c1, c2, c3, c4⟩, c5, c6, c7⟩ := attract_fields env d params t
    (integrate t (combineVelocity env d t p))
  obtain ⟨e1, e2, e3, e4, e5, e6, e7⟩ := dampAndAge_fields env t
    (attract env d params t (integrate t (combineVelocity env d t p)))
  exact ⟨by rw [e1, c1, b1, a1], by rw [e2, c2, b2, a2], by rw [e3, c3, b3, a3],
    by rw [e4, c4, b4, a4], by rw [e5, c5, b5, a5], by rw [e6, c6, b6, a6],
    by rw [e7, c7, b7, a7]⟩

theorem updateParticle_eq (env : Env) (d : ParticleSystemDef) (params : EffectParameters)
    (t : ℚ) (p : Particle) (n : Nat) :
    updateParticle env d params t p n
      = (dampAndAge env t (attract env d params t (integrate t (combineVelocity env d t
            (interpolate d (p.time / p.lifetime)
              (advanceKeyframe env d (p.time / p.lifetime) p n).1)))),
          (advanceKeyframe env d (p.time / p.lifetime) p n).2) :=
  rfl

/-- Without a next keyframe the loop body keeps color, size and rotation speed,
and there is still no next keyframe afterwards. -/
theorem updateParticle_no_next (env : Env) (d : ParticleSystemDef) (params : EffectParameters)
    (t : ℚ) (p : Particle) (n : Nat) (h : p.next_keyframe = none) :
    (updateParticle env d params t p n).1.next_keyframe = none ∧
    SameLook p (updateParticle env d params t p n).1 := by
  rw [updateParticle_eq, advanceKeyframe_none env d _ p n h,
    (interpolate_fields d _ p).2 h]
  obtain ⟨-, -, -, m4, m5⟩ := motion_fields env d params t p
  exact ⟨by rw [m4, h], m5⟩

theorem sameLook_trans {p q r : Particle} (h1 : SameLook p q) (h2 : SameLook q r) :
    SameLook p r :=
  ⟨h2.1.trans h1.1, h2.2.1.trans h1.2.1, h2.2.2.trans h1.2.2⟩

theorem updateParticleMany_no_next (env : Env) (d : ParticleSystemDef) :
    ∀ (ups : List (EffectParameters × ℚ)) (p : Particle) (n : Nat),
      p.next_keyframe = none →
      (updateParticleMany env d ups p n).1.next_keyframe = none ∧
      SameLook p (updateParticleMany env d ups p n).1 := by
  intro ups
  induction ups with
  | nil => intro p n h; exact ⟨h, rfl, rfl, rfl⟩
  | cons u us ih =>
    intro p n h
    obtain ⟨h1, h2⟩ := updateParticle_no_next env d u.1 u.2 p n h
    obtain ⟨h3, h4⟩ := ih (updateParticle env d u.1 u.2 p n).1
      (updateParticle env d u.1 u.2 p n).2 h1
    exact ⟨h3, sameLook_trans h2 h4⟩

theorem updateSlot_slot (env : Env) (d : ParticleSystemDef) (t : ℚ)
    (params : EffectParameters) (s : ParticleSystem) (i j : Nat) :
    (updateSlot env d t params s i).particles.getD j default = s.particles.getD j default ∨
    (updateSlot env d t params s i).particles.getD j default
      = (updateParticle env d params t (s.particles.getD j default) s.random_draws).1 := by
  unfold updateSlot
  by_cases hij : i = j
  · subst hij
    by_cases hlen : i < s.particles.length
    · right
      simp [List.getElem?_set_self hlen]
    · left
      rw [List.set_eq_of_length_le (by omega)]
  · left
    simp [List.getElem?_set_ne hij]

theorem foldl_updateSlot_no_next (env : Env) (d : ParticleSystemDef) (t : ℚ)
    (params : EffectParameters) (j : Nat) (l : List Nat) :
    ∀ s : ParticleSystem, (s.particles.getD j default).next_keyframe = none →
      ((l.foldl (updateSlot env d t params) s).particles.getD j default).next_keyframe = none ∧
      SameLook (s.particles.getD j default)
        ((l.foldl (updateSlot env d t params) s).particles.getD j default) := by
  induction l with
  | nil => intro s h; exact ⟨h, rfl, rfl, rfl⟩
  | cons i l ih =>
    intro s h
    rw [List.foldl_cons]
    rcases updateSlot_slot env d t params s i j with e | e
    · obtain ⟨h1, h2⟩ := ih (updateSlot env d t params s i) (by rw [e]; exact h)
      rw [e] at h2
      exact ⟨h1, h2⟩
    · obtain ⟨u1, u2⟩ := updateParticle_no_next env d params t (s.particles.getD j default)
        s.random_draws h
      obtain ⟨h1, h2⟩ := ih (updateSlot env d t params s i) (by rw [e]; exact u1)
      rw [e] at h2
      exact ⟨h1, sameLook_trans u2 h2⟩

/-- C14: no interpolation without a next keyframe. For every particle whose
`next_keyframe` is none, the loop body of `_UpdateParticles` leaves color, size
and rotation speed unchanged and `next_keyframe` stays none; the same holds of
every slot of the pool through a whole `_UpdateParticles` pass; hence, with a
one-keyframe definition, the color, size and rotation speed a particle got from
`_RespawnParticle` stay the same through any number of per-particle updates. -/
theorem no_interpolation_without_next (env : Env) (d : ParticleSystemDef) :
    (∀ (params : EffectParameters) (t : ℚ) (p : Particle) (n : Nat),
      p.next_keyframe = none →
      (updateParticle env d params t p n).1.color = p.color ∧
      (updateParticle env d params t p n).1.size = p.size ∧
      (updateParticle env d params t p n).1.rotation_speed = p.rotation_speed ∧
      (updateParticle env d params t p n).1.next_keyframe = none) ∧
    (∀ (params : EffectParameters) (t : ℚ) (s : ParticleSystem) (j : Nat),
      (s.particles.getD j default).next_keyframe = none →
      ((_UpdateParticles env d t params s).particles.getD j default).color
        = (s.particles.getD j default).color ∧
      ((_UpdateParticles env d t params s).particles.getD j default).size
        = (s.particles.getD j default).size ∧
      ((_UpdateParticles env d t params s).particles.getD j default).rotation_speed
        = (s.particles.getD j default).rotation_speed ∧
      ((_UpdateParticles env d t params s).particles.getD j default).next_keyframe = none) ∧
    (d.keyframes.length = 1 →
      ∀ (fuel : Nat) (params : EffectParameters) (p q : Particle) (n n1 : Nat),
        respawnParticle env d fuel params p n = some (q, n1) →
        ∀ ups : List (EffectParameters × ℚ),
          (updateParticleMany env d ups q n1).1.color = q.color ∧
          (updateParticleMany env d ups q n1).1.size = q.size ∧
          (updateParticleMany env d ups q n1).1.rotation_speed = q.rotation_speed ∧
          (updateParticleMany env d ups q n1).1.next_keyframe = none) := by
  refine ⟨?_, ?_, ?_⟩
  · intro params t p n h
    obtain ⟨h1, h2, h3, h4⟩ := updateParticle_no_next env d params t p n h
    exact ⟨h2, h3, h4, h1⟩
  · intro params t s j h
    obtain ⟨h1, h2, h3, h4⟩ := foldl_updateSlot_no_next env d t params j
      (List.range s.num_particles.toNat) s h
    exact ⟨h2, h3, h4, h1⟩
  · intro hk fuel params p q n n1 hr ups
    obtain ⟨pos0, n0, rfl⟩ := respawnParticle_some hr
    have hnone : (respawnFrom env d params p pos0 n0).1.next_keyframe = none := by
      rw [(respawnFrom_keys env d params p pos0 n0).2.2, hk]
      rfl
    obtain ⟨h1, h2, h3, h4⟩ := updateParticleMany_no_next env d ups _ n1 hnone
    exact ⟨h2, h3, h4, h1⟩

/-- A concrete instance for C14: a particle respawned from the one-keyframe
sample definition keeps its color through two updates of frame times 1/2
and 1/4. -/
theorem no_interpolation_without_next_witness :
    (updateParticleMany sampleEnv (sampleDef true 1 EMITTER_MODE.LOOPING 0)
        [(sampleParams, 1 / 2), (sampleParams, 1 / 4)]
        (respawnFrom sampleEnv (sampleDef true 1 EMITTER_MODE.LOOPING 0) sampleParams default
          ⟨0, 0⟩ 0).1
        (respawnFrom sampleEnv (sampleDef true 1 EMITTER_MODE.LOOPING 0) sampleParams default
          ⟨0, 0⟩ 0).2).1.color
      = (respawnFrom sampleEnv (sampleDef true 1 EMITTER_MODE.LOOPING 0) sampleParams default
          ⟨0, 0⟩ 0).1.color :=
  ((no_interpolation_without_next sampleEnv (sampleDef true 1 EMITTER_MODE.LOOPING 0)).2.2 rfl
    1 sampleParams default _ 0 _ rfl [(sampleParams, 1 / 2), (sampleParams, 1 / 4)]).1

theorem prevIndex_of_pos {k : Nat} (h0 : k ≠ 0) (hk : k < 2 ^ 64) : prevIndex k = k - 1 := by
  unfold prevIndex
  have e : k + 2 ^ 64 - 1 = (k - 1) + 2 ^ 64 := by omega
  rw [e, Nat.add_mod_right, Nat.mod_eq_of_lt (by omega)]

theorem keyframeAt_of_lt (d : ParticleSystemDef) {i : Nat} (h : i < d.keyframes.length) :
    keyframeAt d (some i) = d.keyframes[i] := by
  simp [keyframeAt, List.getElem?_eq_getElem h]

/-- After the keyframe part of the loop body, a particle that has a next
keyframe has its scaled time between the current keyframe's time (included) and
the next keyframe's time (excluded). -/
theorem advanceKeyframe_straddle (env : Env) (d : ParticleSystemDef) (st : ℚ) (p : Particle)
    (n : Nat) (hk0 : (d.keyframes.getD 0 default).time = 0) (hlen : d.keyframes.length < 2 ^ 64)
    (hst : 0 ≤ st)
    (hinv : p.next_keyframe ≠ none → (keyframeAt d p.current_keyframe).time ≤ st)
    (hnext : (advanceKeyframe env d st p n).1.next_keyframe ≠ none) :
    (keyframeAt d (advanceKeyframe env d st p n).1.current_keyframe).time ≤ st ∧
    st < (keyframeAt d (advanceKeyframe env d st p n).1.next_keyframe).time := by
  cases hn : p.next_keyframe with
  | none =>
    rw [advanceKeyframe_none env d st p n hn] at hnext
    exact absurd hn hnext
  | some nk =>
    by_cases h : st ≥ (keyframeAt d p.next_keyframe).time
    · obtain ⟨-, -, a3, a4⟩ := advanceKeyframe_advanced env d st p n nk hn h
      rw [a4] at hnext
      have hk : keyframeScan d st < d.keyframes.length := by
        by_contra hc
        rw [if_neg hc] at hnext
        exact hnext rfl
      rw [a3, a4, if_pos hk]
      have hfound : decide ((d.keyframes[keyframeScan d st]).time > st) = true :=
        @List.findIdx_getElem ParticleKeyframe (fun kf => decide (kf.time > st)) d.keyframes hk
      have hfound' : (d.keyframes[keyframeScan d st]).time > st := by simpa using hfound
      have h0 : keyframeScan d st ≠ 0 := by
        intro h0
        have hpos : 0 < d.keyframes.length := by omega
        have e0 : d.keyframes.getD 0 default = d.keyframes[0] := by
          simp [List.getElem?_eq_getElem hpos]
        have hz : (d.keyframes[0]).time > st := by
          have := hfound'
          simp only [h0] at this
          exact this
        rw [← e0, hk0] at hz
        linarith
      have hprev : prevIndex (keyframeScan d st) = keyframeScan d st - 1 :=
        prevIndex_of_pos h0 (by omega)
      have hlt : keyframeScan d st - 1 < keyframeScan d st := by omega
      have hb : keyframeScan d st - 1 < d.keyframes.length := by omega
      have hbefore : decide ((d.keyframes[keyframeScan d st - 1]).time > st) = false :=
        @List.not_of_lt_findIdx ParticleKeyframe (fun kf => decide (kf.time > st)) d.keyframes
          (keyframeScan d st - 1) hlt
      rw [hprev, keyframeAt_of_lt d hb, keyframeAt_of_lt d hk]
      exact ⟨by simpa using hbefore, hfound'⟩
    · rw [advanceKeyframe_early env d st p n h] at hnext ⊢
      exact ⟨hinv hnext, not_le.mp h⟩

/-- When the scaled time has reached the next keyframe's time, the keyframe
part of the loop body moves the next keyframe pointer. -/
theorem advanceKeyframe_moves (env : Env) (d : ParticleSystemDef) (st : ℚ) (p : Particle)
    (n nk : Nat) (hn : p.next_keyframe = some nk)
    (h : st ≥ (keyframeAt d (some nk)).time) :
    (advanceKeyframe env d st p n).1.next_keyframe ≠ some nk := by
  obtain ⟨-, -, -, a4⟩ := advanceKeyframe_advanced env d st p n nk hn (by rw [hn]; exact h)
  rw [a4]
  intro hc
  split_ifs at hc with hk
  · simp only [Option.some.injEq] at hc
    have hfound : decide ((d.keyframes[keyframeScan d st]).time > st) = true :=
      @List.findIdx_getElem ParticleKeyframe (fun kf => decide (kf.time > st)) d.keyframes hk
    have hfound' : (d.keyframes[keyframeScan d st]).time > st := by simpa using hfound
    have hk' : nk < d.keyframes.length := by omega
    rw [keyframeAt_of_lt d hk'] at h
    simp only [hc] at hfound'
    linarith

theorem advanceKeyframe_time (env : Env) (d : ParticleSystemDef) (st : ℚ) (p : Particle)
    (n : Nat) :
    (advanceKeyframe env d st p n).1.time = p.time ∧
    (advanceKeyframe env d st p n).1.lifetime = p.lifetime := by
  cases hn : p.next_keyframe with
  | none => rw [advanceKeyframe_none env d st p n hn]; exact ⟨rfl, rfl⟩
  | some nk =>
    by_cases h : st ≥ (keyframeAt d p.next_keyframe).time
    · obtain ⟨a1, a2, -, -⟩ := advanceKeyframe_advanced env d st p n nk hn h
      exact ⟨a1, a2⟩
    · rw [advanceKeyframe_early env d st p n h]; exact ⟨rfl, rfl⟩

/-- The loop body of `_UpdateParticles` with a non-negative frame time keeps
`KeyframeInv`. -/
theorem updateParticle_keyframeInv (env : Env) (d : ParticleSystemDef)
    (params : EffectParameters) (t : ℚ) (p : Particle) (n : Nat)
    (hk0 : (d.keyframes.getD 0 default).time = 0) (hlen : d.keyframes.length < 2 ^ 64)
    (ht : 0 ≤ t) (hinv : KeyframeInv d p) :
    KeyframeInv d (updateParticle env d params t p n).1 := by
  obtain ⟨i1, i2, i3⟩ := hinv
  have hst : 0 ≤ p.time / p.lifetime := div_nonneg i2 i1.le
  obtain ⟨a1, a2⟩ := advanceKeyframe_time env d (p.time / p.lifetime) p n
  obtain ⟨⟨b1, b2, b3, b4⟩, -⟩ := interpolate_fields d (p.time / p.lifetime)
    (advanceKeyframe env d (p.time / p.lifetime) p n).1
  obtain ⟨m1, m2, m3, m4, -⟩ := motion_fields env d params t
    (interpolate d (p.time / p.lifetime) (advanceKeyframe env d (p.time / p.lifetime) p n).1)
  rw [updateParticle_eq]
  refine ⟨by rw [m2, b2, a2]; exact i1, by rw [m1, b1, a1]; linarith, ?_⟩
  intro hnext
  rw [m4, b4] at hnext
  rw [m3, b3, m1, b1, a1, m2, b2, a2]
  have hs := (advanceKeyframe_straddle env d (p.time / p.lifetime) p n hk0 hlen hst i3 hnext).1
  exact hs.trans (div_le_div_of_nonneg_right (by linarith) i1.le)

theorem updateParticleMany_keyframeInv (env : Env) (d : ParticleSystemDef)
    (hk0 : (d.keyframes.getD 0 default).time = 0) (hlen : d.keyframes.length < 2 ^ 64) :
    ∀ (ups : List (EffectParameters × ℚ)) (p : Particle) (n : Nat),
      (∀ u ∈ ups, 0 ≤ u.2) → KeyframeInv d p →
      KeyframeInv d (updateParticleMany env d ups p n).1 := by
  intro ups
  induction ups with
  | nil => intro p n _ h; exact h
  | cons u us ih =>
    intro p n hdt h
    exact ih _ _ (fun v hv => hdt v (List.mem_cons_of_mem u hv))
      (updateParticle_keyframeInv env d u.1 u.2 p n hk0 hlen (hdt u (List.mem_cons_self u us)) h)

theorem respawn_keyframeInv (env : Env) (d : ParticleSystemDef) (params : EffectParameters)
    (p : Particle) (pos0 : Position2D) (n0 : Nat)
    (hk0 : (d.keyframes.getD 0 default).time = 0)
    (hlife : 0 < (respawnFrom env d params p pos0 n0).1.lifetime) :
    KeyframeInv d (respawnFrom env d params p pos0 n0).1 := by
  obtain ⟨k1, k2, -⟩ := respawnFrom_keys env d params p pos0 n0
  refine ⟨hlife, by rw [k1], fun _ => ?_⟩
  rw [k2, k1, zero_div]
  exact le_of_eq hk0

/-- C15: keyframe interpolation boundary. Assuming keyframe 0 has time 0, frame
times are non-negative and the respawned particle's lifetime is positive (the
keyframes fitting a `size_t` index), for every particle created by
`_RespawnParticle` and then updated any number of times, with `r` its record at
the start of a loop body: whenever a next keyframe is left after the keyframe
part, so that the interpolation runs, the interval `next_keyframe.time -
current_keyframe.time` it divides by is non-zero; and when the scaled time
equals the next keyframe's time exactly, the keyframe part moves the next
keyframe pointer before the interpolation. -/
theorem interpolation_interval_nonzero (env : Env) (d : ParticleSystemDef) (fuel : Nat)
    (params : EffectParameters) (p q r : Particle) (n n1 m : Nat)
    (ups : List (EffectParameters × ℚ))
    (hk0 : (d.keyframes.getD 0 default).time = 0) (hlen : d.keyframes.length < 2 ^ 64)
    (hresp : respawnParticle env d fuel params p n = some (q, n1))
    (hlife : 0 < q.lifetime) (hdt : ∀ u ∈ ups, 0 ≤ u.2)
    (hr : updateParticleMany env d ups q n1 = (r, m)) :
    ((advanceKeyframe env d (r.time / r.lifetime) r m).1.next_keyframe ≠ none →
      (keyframeAt d (advanceKeyframe env d (r.time / r.lifetime) r m).1.next_keyframe).time
        - (keyframeAt d
            (advanceKeyframe env d (r.time / r.lifetime) r m).1.current_keyframe).time ≠ 0) ∧
    (∀ nk, r.next_keyframe = some nk → r.time / r.lifetime = (keyframeAt d (some nk)).time →
      (advanceKeyframe env d (r.time / r.lifetime) r m).1.next_keyframe ≠ some nk) := by
  obtain ⟨pos0, n0, rfl⟩ := respawnParticle_some hresp
  have hq := respawn_keyframeInv env d params p pos0 n0 hk0 hlife
  have hinv := updateParticleMany_keyframeInv env d hk0 hlen ups _ n1 hdt hq
  rw [hr] at hinv
  obtain ⟨i1, i2, i3⟩ := hinv
  constructor
  · intro hnext
    obtain ⟨s1, s2⟩ := advanceKeyframe_straddle env d (r.time / r.lifetime) r m hk0 hlen
      (div_nonneg i2 i1.le) i3 hnext
    intro h0
    linarith
  · intro nk hn he
    exact advanceKeyframe_moves env d (r.time / r.lifetime) r m nk hn (le_of_eq he.symm)

/-- A concrete instance for C15: two keyframes at times 0 and 1, a particle of
lifetime 1 respawned and updated once with frame time 1/2; the interpolation
interval of its next update is not zero. -/
theorem interpolation_interval_nonzero_witness :
    (keyframeAt twoKeyframeDef
        (advanceKeyframe sampleEnv twoKeyframeDef
          ((updateParticleMany sampleEnv twoKeyframeDef [(sampleParams, 1 / 2)]
              (respawnFrom sampleEnv twoKeyframeDef sampleParams default ⟨0, 0⟩ 0).1
              (respawnFrom sampleEnv twoKeyframeDef sampleParams default ⟨0, 0⟩ 0).2).1.time
            / (updateParticleMany sampleEnv twoKeyframeDef [(sampleParams, 1 / 2)]
              (respawnFrom sampleEnv twoKeyframeDef sampleParams default ⟨0, 0⟩ 0).1
              (respawnFrom sampleEnv twoKeyframeDef sampleParams default ⟨0, 0⟩ 0).2).1.lifetime)
          (updateParticleMany sampleEnv twoKeyframeDef [(sampleParams, 1 / 2)]
              (respawnFrom sampleEnv twoKeyframeDef sampleParams default ⟨0, 0⟩ 0).1
              (respawnFrom sampleEnv twoKeyframeDef sampleParams default ⟨0, 0⟩ 0).2).1
          (updateParticleMany sampleEnv twoKeyframeDef [(sampleParams, 1 / 2)]
              (respawnFrom sampleEnv twoKeyframeDef sampleParams default ⟨0, 0⟩ 0).1
              (respawnFrom sampleEnv twoKeyframeDef sampleParams default ⟨0, 0⟩ 0).2).2
          ).1.next_keyframe).time
      - (keyframeAt twoKeyframeDef
        (advanceKeyframe sampleEnv twoKeyframeDef
          ((updateParticleMany sampleEnv twoKeyframeDef [(sampleParams, 1 / 2)]
              (respawnFrom sampleEnv twoKeyframeDef sampleParams default ⟨0, 0⟩ 0).1
              (respawnFrom sampleEnv twoKeyframeDef sampleParams default ⟨0, 0⟩ 0).2).1.time
            / (updateParticleMany sampleEnv twoKeyframeDef [(sampleParams, 1 / 2)]
              (respawnFrom sampleEnv twoKeyframeDef sampleParams default ⟨0, 0⟩ 0).1
              (respawnFrom sampleEnv twoKeyframeDef sampleParams default ⟨0, 0⟩ 0).2).1.lifetime)
          (updateParticleMany sampleEnv twoKeyframeDef [(sampleParams, 1 / 2)]
              (respawnFrom sampleEnv twoKeyframeDef sampleParams default ⟨0, 0⟩ 0).1
              (respawnFrom sampleEnv twoKeyframeDef sampleParams default ⟨0, 0⟩ 0).2).1
          (updateParticleMany sampleEnv twoKeyframeDef [(sampleParams, 1 / 2)]
              (respawnFrom sampleEnv twoKeyframeDef sampleParams default ⟨0, 0⟩ 0).1
              (respawnFrom sampleEnv twoKeyframeDef sampleParams default ⟨0, 0⟩ 0).2).2
          ).1.current_keyframe).time ≠ 0 :=
  (interpolation_interval_nonzero sampleEnv twoKeyframeDef 1 sampleParams default _ _ 0 _ _
    [(sampleParams, 1 / 2)] (by decide!) (by decide!) rfl (by decide!) (by decide!) rfl).1
    (by decide!)

/-! ## Wave motion -/

/-- The wave branch of the loop body is entered on `wave_motion_used` and a
positive half-amplitude alone, and it divides the tangent by `waveDivisor`. -/
theorem combineVelocity_wave (env : Env) (d : ParticleSystemDef) (t : ℚ) (p : Particle)
    (speed : ℚ) (h : waveDivisor env d p = some speed) :
    (combineVelocity env d t p).combined_velocity
      = ⟨(p.velocity.x + p.wind_velocity.x)
          + -(p.velocity.y + p.wind_velocity.y) / speed
            * (p.wave_half_amplitude * env.sinf (p.wave_length_coefficient * p.time)),
         (p.velocity.y + p.wind_velocity.y)
          + (p.velocity.x + p.wind_velocity.x) / speed
            * (p.wave_half_amplitude * env.sinf (p.wave_length_coefficient * p.time))⟩ := by
  unfold waveDivisor at h
  split_ifs at h with hc
  simp only [Option.some.injEq] at h
  subst h
  unfold combineVelocity
  dsimp only
  rw [if_pos hc]

/-- C17 on the code: with wave motion enabled, a positive wave half-amplitude
and a combined velocity (velocity + wind) of exactly zero, the wave branch is
entered all the same: the tangent is divided by `sqrtf 0`, which is 0, and the
quotient `0 / 0` goes into the combined velocity. -/
theorem wave_divides_by_zero (env : Env) (d : ParticleSystemDef) (t : ℚ) (p : Particle)
    (hs : env.sqrtf 0 = 0) (hw : d.wave_motion_used = true) (ha : p.wave_half_amplitude > 0)
    (hx : p.velocity.x + p.wind_velocity.x = 0) (hy : p.velocity.y + p.wind_velocity.y = 0) :
    waveDivisor env d p = some 0 ∧
    (combineVelocity env d t p).combined_velocity
      = ⟨0 + -0 / 0 * (p.wave_half_amplitude * env.sinf (p.wave_length_coefficient * p.time)),
         0 + 0 / 0 * (p.wave_half_amplitude * env.sinf (p.wave_length_coefficient * p.time))⟩ := by
  have hd : waveDivisor env d p = some 0 := by
    unfold waveDivisor
    rw [if_pos ⟨hw, ha⟩, hx, hy]
    simp [Position2D.GetLength2, hs]
  refine ⟨hd, ?_⟩
  rw [combineVelocity_wave env d t p 0 hd, hx, hy]

/-- A concrete instance for C17: a particle at rest with wave half-amplitude 1
in a definition with wave motion enabled; the divisor of the wave branch is 0. -/
theorem wave_divides_by_zero_witness :
    waveDivisor sampleEnv waveDef restingWaveParticle = some 0 :=
  (wave_divides_by_zero sampleEnv waveDef 1 restingWaveParticle rfl rfl (by decide!)
    (by decide!) (by decide!)).1

/-! ## The kill pass: swapped-in particles and healthy particles -/

/-- C19 on the code: with a budget of 0 and the live pool expired, healthy,
expired, the kill pass copies the expired tail particle (of `time` 3) into
slot 0 and leaves it live: afterwards slot 0 is below `num_particles` = 2 and
has `time` 3 > `lifetime` 1. The same happens in a run: a pool of 3 filled by a
first `Update`, `Stop`, then an `Update` in which all particles expire leaves
a live expired particle. -/
theorem kill_pass_leaves_expired :
    (_KillParticles sampleEnv (sampleDef true 3 EMITTER_MODE.ALWAYS 0) 1 0 sampleParams
        threeMixed).map
      (fun r => (r.2.num_particles, (r.2.particles.getD 0 default).time,
        (r.2.particles.getD 0 default).lifetime, expired (r.2.particles.getD 0 default)))
      = some (2, 3, 1, true) ∧
    (runCalls sampleEnv 1 (createdSystem (sampleDef true 3 EMITTER_MODE.ALWAYS 0))
        [Call.update 1 sampleParams, Call.stop, Call.update 2 sampleParams]).map
      (fun s => (s.num_particles, expired (s.particles.getD 0 default))) = some (1, true) := by
  decide!

theorem coe_set_add {α : Type} [Inhabited α] (L : List α) :
    ∀ (j : Nat) (x : α), j < L.length →
      ((L.set j x : List α) : Multiset α) + {L.getD j default} = (L : Multiset α) + {x} := by
  induction L with
  | nil => intro j x h; simp at h
  | cons a t ih =>
    intro j x h
    cases j with
    | zero =>
      simp only [List.set_cons_zero, List.getD_cons_zero, ← Multiset.cons_coe]
      rw [add_comm, Multiset.singleton_add, add_comm (a ::ₘ (t : Multiset α)),
        Multiset.singleton_add, Multiset.cons_swap]
    | succ j =>
      simp only [List.set_cons_succ, List.getD_cons_succ, ← Multiset.cons_coe]
      rw [Multiset.cons_add, Multiset.cons_add, ih j x (by simpa using h)]

theorem coe_take_succ {α : Type} [Inhabited α] (L : List α) (m : Nat) (h : m < L.length) :
    ((L.take (m + 1) : List α) : Multiset α) = (L.take m : List α) + {L.getD m default} := by
  have e : L.take (m + 1) = L.take m ++ [L.getD m default] := by
    rw [List.take_succ]
    simp [List.getElem?_eq_getElem h]
  rw [e, ← Multiset.coe_add, ← Multiset.coe_singleton]

/-- Killing slot `j` of `m + 1` live slots (the tail slot `m` is copied over
slot `j` unless `j` is the tail, then the live count drops to `m`) takes exactly
the particle of slot `j` out of the live particles. -/
theorem coe_take_kill (ps : List Particle) (j m : Nat) (hj : j ≤ m) (hm : m < ps.length) :
    ((ps.take (m + 1) : List Particle) : Multiset Particle)
      = ((if j ≠ m then ps.set j (ps.getD m default) else ps).take m : List Particle)
        + {ps.getD j default} := by
  by_cases h : j = m
  · subst h
    simp only [ne_eq, not_true_eq_false, if_false]
    exact coe_take_succ ps j hm
  · have hlt : j < m := by omega
    rw [if_pos h, List.set_take, coe_take_succ ps m hm]
    have hlen : j < (ps.take m).length := by
      rw [List.length_take]
      omega
    have hg : (ps.take m).getD j default = ps.getD j default := by
      simp [List.getElem?_take_of_lt hlt]
    rw [← coe_set_add (ps.take m) j (ps.getD m default) hlen, hg]

/-- The kill loop with a budget used up: it returns, and the live particles
before are the live particles after plus removed particles that had all
expired. -/
theorem killLoop_healthy (env : Env) (d : ParticleSystemDef) (fuel : Nat)
    (params : EffectParameters) :
    ∀ (steps j : Nat) (num : Int) (s : ParticleSystem), num ≤ 0 → 0 ≤ s.num_particles →
      s.num_particles ≤ (s.particles.length : Int) → s.num_particles ≤ (j : Int) + steps →
      ∃ (s1 : ParticleSystem) (removed : Multiset Particle),
        killLoop env d fuel params steps j num s = some (num, s1) ∧
        ((liveParticles s : List Particle) : Multiset Particle)
          = (liveParticles s1 : List Particle) + removed ∧
        (∀ p ∈ removed, expired p = true) ∧
        0 ≤ s1.num_particles ∧ s1.num_particles ≤ (s1.particles.length : Int) := by
  intro steps
  induction steps with
  | zero =>
    intro j num s _ h0 hpool hsteps
    have hlt : ¬ ((j : Int) < s.num_particles) := by omega
    refine ⟨s, 0, by simp [killLoop, hlt], by simp, by simp, h0, hpool⟩
  | succ k ih =>
    intro j num s hnum h0 hpool hsteps
    unfold killLoop
    by_cases hlt : (j : Int) < s.num_particles
    · rw [if_pos hlt]
      by_cases hexp : (s.particles.getD j default).time > (s.particles.getD j default).lifetime
      · rw [if_pos hexp, if_neg (by omega)]
        obtain ⟨m, hm⟩ : ∃ m : Nat, s.num_particles = (m : Int) + 1 :=
          ⟨(s.num_particles - 1).toNat, by omega⟩
        have hjm : j ≤ m := by omega
        have hmlen : m < s.particles.length := by omega
        have hmove : (if (j : Int) ≠ s.num_particles - 1
              then _MoveParticle s (s.num_particles - 1) j else s).particles
            = if j ≠ m then s.particles.set j (s.particles.getD m default) else s.particles := by
          have e1 : s.num_particles - 1 = (m : Int) := by omega
          rw [e1]
          by_cases hjm' : j = m
          · subst hjm'
            simp
          · have hne : (j : Int) ≠ (m : Int) := by omega
            rw [if_pos hne, if_pos hjm']
            simp [_MoveParticle]
        have hnum' : (if (j : Int) ≠ s.num_particles - 1
              then _MoveParticle s (s.num_particles - 1) j else s).num_particles
            = s.num_particles := by
          split <;> simp [_MoveParticle]
        have hlen' : (if j ≠ m then s.particles.set j (s.particles.getD m default)
            else s.particles).length = s.particles.length := by
          split <;> simp
        obtain ⟨s1, removed, r1, r2, r3, r4, r5⟩ := ih (j + 1) num
          { (if (j : Int) ≠ s.num_particles - 1
              then _MoveParticle s (s.num_particles - 1) j else s) with
            num_particles := (if (j : Int) ≠ s.num_particles - 1
              then _MoveParticle s (s.num_particles - 1) j else s).num_particles - 1 }
          hnum (by simp only [hnum']; omega) (by simp only [hnum', hmove, hlen']; omega)
          (by simp only [hnum']; push_cast; omega)
        refine ⟨s1, removed + {s.particles.getD j default}, r1, ?_, ?_, r4, r5⟩
        · have hl : liveParticles s = s.particles.take (m + 1) := by
            simp [liveParticles, hm]
          have hl' : liveParticles
              { (if (j : Int) ≠ s.num_particles - 1
                  then _MoveParticle s (s.num_particles - 1) j else s) with
                num_particles := (if (j : Int) ≠ s.num_particles - 1
                  then _MoveParticle s (s.num_particles - 1) j else s).num_particles - 1 }
              = (if j ≠ m then s.particles.set j (s.particles.getD m default)
                  else s.particles).take m := by
            simp only [liveParticles, hnum', hmove]
            congr 1
            omega
          rw [hl, coe_take_kill s.particles j m hjm hmlen, ← hl', r2, add_assoc]
        · intro p hp
          rcases Multiset.mem_add.mp hp with hp | hp
          · exact r3 p hp
          · rw [Multiset.mem_singleton.mp hp]
            simpa [expired] using hexp
      · rw [if_neg hexp]
        exact ih (j + 1) num s hnum h0 hpool (by push_cast; omega)
    · rw [if_neg hlt]
      exact ⟨s, 0, rfl, by simp, by simp, h0, hpool⟩

/-- C20: the kill pass neither loses nor duplicates a healthy particle. For
every pool with live count between 0 and the pool size and every emission
budget `≤ 0`, the kill pass returns with the budget unchanged, and the live
particles before it are, as a multiset, the live particles after it plus
removed particles that all had `time > lifetime`; so the live particles after
form a sub-multiset of those before and every particle with `time ≤ lifetime`
is live afterwards as many times as before. -/
theorem kill_keeps_healthy (env : Env) (d : ParticleSystemDef) (fuel : Nat)
    (params : EffectParameters) (s : ParticleSystem) (num : Int)
    (h0 : 0 ≤ s.num_particles) (hpool : s.num_particles ≤ (s.particles.length : Int))
    (hnum : num ≤ 0) :
    ∃ (s1 : ParticleSystem) (removed : Multiset Particle),
      _KillParticles env d fuel num params s = some (num, s1) ∧
      ((liveParticles s : List Particle) : Multiset Particle)
        = (liveParticles s1 : List Particle) + removed ∧
      (∀ p ∈ removed, expired p = true) ∧
      ((liveParticles s1 : List Particle) : Multiset Particle) ≤ (liveParticles s : List Particle) ∧
      (∀ p, expired p = false →
        Multiset.count p ((liveParticles s1 : List Particle) : Multiset Particle)
          = Multiset.count p ((liveParticles s : List Particle) : Multiset Particle)) := by
  obtain ⟨s1, removed, r1, r2, r3, -, -⟩ := killLoop_healthy env d fuel params
    s.num_particles.toNat 0 num s hnum h0 hpool (by omega)
  refine ⟨s1, removed, r1, r2, r3, ?_, ?_⟩
  · rw [r2]
    exact Multiset.le_add_right _ _
  · intro p hp
    rw [r2, Multiset.count_add]
    have : p ∉ removed := fun hmem => by
      rw [r3 p hmem] at hp
      cases hp
    rw [Multiset.count_eq_zero_of_not_mem this, add_zero]

/-- A concrete instance for C20: the pool expired, healthy, expired with a
budget of 0; the pass returns and the healthy particle is live once before and
once after. -/
theorem kill_keeps_healthy_witness :
    ∃ (s1 : ParticleSystem),
      _KillParticles sampleEnv (sampleDef true 3 EMITTER_MODE.ALWAYS 0) 1 0 sampleParams
        threeMixed = some (0, s1) ∧
      Multiset.count healthyParticle ((liveParticles s1 : List Particle) : Multiset Particle)
        = Multiset.count healthyParticle
            ((liveParticles threeMixed : List Particle) : Multiset Particle) := by
  obtain ⟨s1, removed, r1, -, -, -, r5⟩ :=
    kill_keeps_healthy sampleEnv (sampleDef true 3 EMITTER_MODE.ALWAYS 0) 1 sampleParams
      threeMixed 0 (by decide!) (by decide!) (by decide)
  exact ⟨s1, r1, r5 healthyParticle (by decide!)⟩

/-! ## The interpolation parameter and the keyframe scan -/

/-- C21: interpolation parameter range. Assuming keyframe 0 has time 0, frame
times are non-negative and the respawned particle's lifetime is positive (the
keyframes fitting a `size_t` index), for every particle created by
`_RespawnParticle` and then updated any number of times, with `r` its record at
the start of a loop body: whenever a next keyframe is left after the keyframe
part, so that the interpolation runs, `current_keyframe.time ≤ scaled_time <
next_keyframe.time`, and the parameter `a = (scaled_time - current.time) /
(next.time - current.time)` satisfies `0 ≤ a < 1`. -/
theorem interpolation_parameter_range (env : Env) (d : ParticleSystemDef) (fuel : Nat)
    (params : EffectParameters) (p q r : Particle) (n n1 m : Nat)
    (ups : List (EffectParameters × ℚ))
    (hk0 : (d.keyframes.getD 0 default).time = 0) (hlen : d.keyframes.length < 2 ^ 64)
    (hresp : respawnParticle env d fuel params p n = some (q, n1))
    (hlife : 0 < q.lifetime) (hdt : ∀ u ∈ ups, 0 ≤ u.2)
    (hr : updateParticleMany env d ups q n1 = (r, m))
    (hnext : (advanceKeyframe env d (r.time / r.lifetime) r m).1.next_keyframe ≠ none) :
    (keyframeAt d (advanceKeyframe env d (r.time / r.lifetime) r m).1.current_keyframe).time
      ≤ r.time / r.lifetime ∧
    r.time / r.lifetime
      < (keyframeAt d (advanceKeyframe env d (r.time / r.lifetime) r m).1.next_keyframe).time ∧
    0 ≤ (r.time / r.lifetime
          - (keyframeAt d
              (advanceKeyframe env d (r.time / r.lifetime) r m).1.current_keyframe).time)
        / ((keyframeAt d (advanceKeyframe env d (r.time / r.lifetime) r m).1.next_keyframe).time
          - (keyframeAt d
              (advanceKeyframe env d (r.time / r.lifetime) r m).1.current_keyframe).time) ∧
    (r.time / r.lifetime
          - (keyframeAt d
              (advanceKeyframe env d (r.time / r.lifetime) r m).1.current_keyframe).time)
        / ((keyframeAt d (advanceKeyframe env d (r.time / r.lifetime) r m).1.next_keyframe).time
          - (keyframeAt d
              (advanceKeyframe env d (r.time / r.lifetime) r m).1.current_keyframe).time)
      < 1 := by
  obtain ⟨pos0, n0, rfl⟩ := respawnParticle_some hresp
  have hq := respawn_keyframeInv env d params p pos0 n0 hk0 hlife
  have hinv := updateParticleMany_keyframeInv env d hk0 hlen ups _ n1 hdt hq
  rw [hr] at hinv
  obtain ⟨i1, i2, i3⟩ := hinv
  obtain ⟨s1, s2⟩ := advanceKeyframe_straddle env d (r.time / r.lifetime) r m hk0 hlen
    (div_nonneg i2 i1.le) i3 hnext
  refine ⟨s1, s2, div_nonneg (by linarith) (by linarith), ?_⟩
  rw [div_lt_one (by linarith)]
  linarith

/-- A concrete instance for C21: two keyframes at times 0 and 1, a particle of
lifetime 1 respawned and updated once with frame time 1/2; at its next update
the scaled time 1/2 lies before the next keyframe's time. -/
theorem interpolation_parameter_range_witness :
    sampleAged.1.time / sampleAged.1.lifetime
      < (keyframeAt twoKeyframeDef
          (advanceKeyframe sampleEnv twoKeyframeDef
            (sampleAged.1.time / sampleAged.1.lifetime) sampleAged.1
            sampleAged.2).1.next_keyframe).time :=
  (interpolation_parameter_range sampleEnv twoKeyframeDef 1 sampleParams default sampleSpawn.1
    sampleAged.1 0 sampleSpawn.2 sampleAged.2 [(sampleParams, 1 / 2)] (by decide!) (by decide!)
    rfl (by decide!) (by decide!) rfl (by decide!)).2.1

theorem keyframeAt_time_nonneg (d : ParticleSystemDef)
    (hpos : ∀ kf ∈ d.keyframes, 0 ≤ kf.time) (i : Option Nat) :
    0 ≤ (keyframeAt d i).time := by
  cases i with
  | none => exact le_refl _
  | some j =>
    by_cases h : j < d.keyframes.length
    · rw [keyframeAt_of_lt d h]
      exact hpos _ (List.getElem_mem h)
    · have e : keyframeAt d (some j) = default := by
        simp [keyframeAt, List.getElem?_eq_none (not_lt.mp h)]
      rw [e]
      exact le_refl _

theorem keyframeScan_ne_zero (d : ParticleSystemDef) (st : ℚ) (hne : d.keyframes ≠ [])
    (hk0 : (d.keyframes.getD 0 default).time = 0) (hst : 0 ≤ st) :
    keyframeScan d st ≠ 0 := by
  intro h0
  have hpos : 0 < d.keyframes.length := List.length_pos.mpr hne
  have hk : keyframeScan d st < d.keyframes.length := by omega
  have hfound : decide ((d.keyframes[keyframeScan d st]).time > st) = true :=
    @List.findIdx_getElem ParticleKeyframe (fun kf => decide (kf.time > st)) d.keyframes hk
  have hfound' : (d.keyframes[keyframeScan d st]).time > st := by simpa using hfound
  have e0 : d.keyframes.getD 0 default = d.keyframes[0] := by
    simp [List.getElem?_eq_getElem hpos]
  simp only [h0] at hfound'
  rw [← e0, hk0] at hfound'
  linarith

/-- C22: the keyframe scan stays in bounds. For a non-empty keyframe list (of
fewer than 2^64 keyframes) whose keyframe 0 has time 0 and whose times are all
non-negative, whenever the keyframe scan runs (a next keyframe exists and the
scaled time has reached its time), the first index `k` whose keyframe time
exceeds the scaled time is not 0, so the index `k - 1` computed on `size_t`
does not wrap and is a valid index of the keyframe list, and it is the current
keyframe set by the scan, both when a straddling pair is found and when `k`
reaches the number of keyframes. -/
theorem keyframe_scan_in_bounds (env : Env) (d : ParticleSystemDef) (st : ℚ) (p : Particle)
    (n nk : Nat) (hne : d.keyframes ≠ []) (hlen : d.keyframes.length < 2 ^ 64)
    (hk0 : (d.keyframes.getD 0 default).time = 0)
    (hpos : ∀ kf ∈ d.keyframes, 0 ≤ kf.time)
    (hn : p.next_keyframe = some nk) (h : st ≥ (keyframeAt d p.next_keyframe).time) :
    keyframeScan d st ≠ 0 ∧
    prevIndex (keyframeScan d st) = keyframeScan d st - 1 ∧
    keyframeScan d st - 1 < d.keyframes.length ∧
    (advanceKeyframe env d st p n).1.current_keyframe = some (keyframeScan d st - 1) := by
  have hst : 0 ≤ st := (keyframeAt_time_nonneg d hpos p.next_keyframe).trans h
  have h0 := keyframeScan_ne_zero d st hne hk0 hst
  have hle : keyframeScan d st ≤ d.keyframes.length := List.findIdx_le_length _
  have hprev := prevIndex_of_pos h0 (by omega)
  obtain ⟨-, -, a3, -⟩ := advanceKeyframe_advanced env d st p n nk hn h
  exact ⟨h0, hprev, by omega, by rw [a3, hprev]⟩

/-- A concrete instance for C22: two keyframes at times 0 and 1 and a scaled
time of 1; the scan ends at `k = 2` and the current keyframe becomes 1. -/
theorem keyframe_scan_in_bounds_witness :
    (advanceKeyframe sampleEnv twoKeyframeDef 1 (betweenKeyframes 1) 0).1.current_keyframe
      = some (keyframeScan twoKeyframeDef 1 - 1) :=
  (keyframe_scan_in_bounds sampleEnv twoKeyframeDef 1 (betweenKeyframes 1) 0 1 (by decide)
    (by decide!) (by decide!) (by decide!) rfl (by decide!)).2.2.2


/-! ## Past the last keyframe -/

theorem scanKeyframes_snap (d : ParticleSystemDef) (st : ℚ) (p : Particle)
    (hk : keyframeScan d st = d.keyframes.length) :
    (scanKeyframes d st p).color
      = (keyframeAt d (some (prevIndex d.keyframes.length))).color ∧
    (scanKeyframes d st p).size
      = (keyframeAt d (some (prevIndex d.keyframes.length))).size ∧
    (scanKeyframes d st p).rotation_speed
      = (keyframeAt d (some (prevIndex d.keyframes.length))).rotation_speed := by
  unfold scanKeyframes
  dsimp only
  rw [hk, if_neg (lt_irrefl _), if_pos rfl]
  exact ⟨rfl, rfl, rfl⟩

theorem keyframeAt_last (d : ParticleSystemDef) (hne : d.keyframes ≠ [])
    (hlen : d.keyframes.length < 2 ^ 64) :
    prevIndex d.keyframes.length = d.keyframes.length - 1 ∧
    keyframeAt d (some (prevIndex d.keyframes.length)) = d.keyframes.getLast hne := by
  have hpos : 0 < d.keyframes.length := List.length_pos.mpr hne
  have hprev : prevIndex d.keyframes.length = d.keyframes.length - 1 :=
    prevIndex_of_pos (by omega) (by omega)
  have hb : d.keyframes.length - 1 < d.keyframes.length := by omega
  refine ⟨hprev, ?_⟩
  rw [hprev, keyframeAt_of_lt d hb, List.getLast_eq_getElem]

/-- C23: snap to the last keyframe. For every particle with a next keyframe
(the keyframe list being non-empty, of fewer than 2^64 keyframes), if the scaled
time `time / lifetime` has reached the next keyframe's time and no keyframe has
a time greater than the scaled time, then after the loop body of
`_UpdateParticles` the current keyframe is the last keyframe, there is no next
keyframe, and color, size and rotation speed are exactly the last keyframe's
color, size and rotation speed, with no variation added. -/
theorem snap_to_last_keyframe (env : Env) (d : ParticleSystemDef) (params : EffectParameters)
    (t : ℚ) (p : Particle) (n nk : Nat) (hne : d.keyframes ≠ [])
    (hlen : d.keyframes.length < 2 ^ 64) (hn : p.next_keyframe = some nk)
    (h : p.time / p.lifetime ≥ (keyframeAt d p.next_keyframe).time)
    (hnone : ∀ kf ∈ d.keyframes, ¬ kf.time > p.time / p.lifetime) :
    (updateParticle env d params t p n).1.current_keyframe = some (d.keyframes.length - 1) ∧
    (updateParticle env d params t p n).1.next_keyframe = none ∧
    (updateParticle env d params t p n).1.color = (d.keyframes.getLast hne).color ∧
    (updateParticle env d params t p n).1.size = (d.keyframes.getLast hne).size ∧
    (updateParticle env d params t p n).1.rotation_speed
      = (d.keyframes.getLast hne).rotation_speed := by
  have hk : keyframeScan d (p.time / p.lifetime) = d.keyframes.length := by
    unfold keyframeScan
    rw [List.findIdx_eq_length]
    intro kf hkf
    exact decide_eq_false (hnone kf hkf)
  obtain ⟨hprev, hlast⟩ := keyframeAt_last d hne hlen
  obtain ⟨-, -, a3, a4⟩ := advanceKeyframe_advanced env d (p.time / p.lifetime) p n nk hn h
  rw [hk] at a3
  rw [hk, if_neg (lt_irrefl _)] at a4
  have e : advanceKeyframe env d (p.time / p.lifetime) p n
      = nextVariations env d
          (currentVariations env d nk (scanKeyframes d (p.time / p.lifetime) p) n).1
          (currentVariations env d nk (scanKeyframes d (p.time / p.lifetime) p) n).2 := by
    rw [advanceKeyframe_eq]
    simp only [hn]
    rw [if_pos (by rw [← hn]; exact h)]
  obtain ⟨s1, s2, s3⟩ := scanKeyframes_snap d (p.time / p.lifetime) p hk
  obtain ⟨-, c1, c2, c3⟩ := currentVariations_fields env d nk
    (scanKeyframes d (p.time / p.lifetime) p) n
  obtain ⟨-, n1, n2, n3⟩ := nextVariations_fields env d
    (currentVariations env d nk (scanKeyframes d (p.time / p.lifetime) p) n).1
    (currentVariations env d nk (scanKeyframes d (p.time / p.lifetime) p) n).2
  rw [← e] at n1 n2 n3
  obtain ⟨-, -, m3, m4, m5, m6, m7⟩ := motion_fields env d params t
    (advanceKeyframe env d (p.time / p.lifetime) p n).1
  rw [updateParticle_eq, (interpolate_fields d _ _).2 a4]
  refine ⟨by rw [m3, a3, hprev], by rw [m4, a4], ?_, ?_, ?_⟩
  · rw [m5, n1, c1, s1, hlast]
  · rw [m6, n2, c2, s2, hlast]
  · rw [m7, n3, c3, s3, hlast]

/-- A concrete instance for C23: two keyframes at times 0 and 1 and a particle
between them of age 2 and lifetime 1; after the loop body it has no next
keyframe. -/
theorem snap_to_last_keyframe_witness :
    (updateParticle sampleEnv twoKeyframeDef sampleParams 1 (betweenKeyframes 2) 0).1.next_keyframe
      = none :=
  (snap_to_last_keyframe sampleEnv twoKeyframeDef sampleParams 1 (betweenKeyframes 2) 0 1
    (by decide) (by decide!) rfl (by decide!) (by decide!)).2.1


/-! ## Variations on a keyframe advance -/

theorem drawnAt_within {env : Env} (hr : RandomFloatInRange env) (kf : ParticleKeyframe)
    (n : Nat) (rot : ℚ) (col : Color) (size : Position2D)
    (h : DrawnAt env kf n rot col size) : WithinVariation kf rot col size := by
  obtain ⟨rfl, rfl, rfl⟩ := h
  exact ⟨draw_abs_le hr _ _, draw_abs_le hr _ _, draw_abs_le hr _ _, draw_abs_le hr _ _,
    draw_abs_le hr _ _, draw_abs_le hr _ _, draw_abs_le hr _ _⟩

theorem sameVariations_trans {p q r : Particle} (h1 : SameVariations p q)
    (h2 : SameVariations q r) : SameVariations p r :=
  ⟨h2.1.trans h1.1, h2.2.1.trans h1.2.1, h2.2.2.1.trans h1.2.2.1,
    h2.2.2.2.1.trans h1.2.2.2.1, h2.2.2.2.2.1.trans h1.2.2.2.2.1,
    h2.2.2.2.2.2.trans h1.2.2.2.2.2⟩

theorem scanKeyframes_variations (d : ParticleSystemDef) (st : ℚ) (p : Particle) :
    SameVariations p (scanKeyframes d st p) := by
  unfold scanKeyframes
  dsimp only
  split_ifs <;> exact ⟨rfl, rfl, rfl, rfl, rfl, rfl⟩

theorem currentVariations_inherit (env : Env) (d : ParticleSystemDef) (old_next : Nat)
    (p : Particle) (n : Nat) (h : p.current_keyframe = some old_next) :
    (currentVariations env d old_next p n).1.current_color_variation = p.next_color_variation ∧
    (currentVariations env d old_next p n).1.current_size_variation = p.next_size_variation ∧
    (currentVariations env d old_next p n).1.current_rotation_speed_variation
      = p.next_rotation_speed_variation ∧
    (currentVariations env d old_next p n).2 = n := by
  unfold currentVariations
  rw [if_pos h]
  exact ⟨rfl, rfl, rfl, rfl⟩

theorem currentVariations_draw (env : Env) (d : ParticleSystemDef) (old_next : Nat)
    (p : Particle) (n : Nat) (h : ¬ p.current_keyframe = some old_next) :
    DrawnAt env (keyframeAt d p.current_keyframe) n
      (currentVariations env d old_next p n).1.current_rotation_speed_variation
      (currentVariations env d old_next p n).1.current_color_variation
      (currentVariations env d old_next p n).1.current_size_variation ∧
    (currentVariations env d old_next p n).2 = n + 7 := by
  unfold currentVariations
  rw [if_neg h]
  exact ⟨⟨rfl, rfl, rfl⟩, rfl⟩

theorem nextVariations_current (env : Env) (d : ParticleSystemDef) (p : Particle) (n : Nat) :
    (nextVariations env d p n).1.current_color_variation = p.current_color_variation ∧
    (nextVariations env d p n).1.current_size_variation = p.current_size_variation ∧
    (nextVariations env d p n).1.current_rotation_speed_variation
      = p.current_rotation_speed_variation := by
  unfold nextVariations
  split <;> exact ⟨rfl, rfl, rfl⟩

theorem nextVariations_draw (env : Env) (d : ParticleSystemDef) (p : Particle) (n : Nat)
    (h : p.next_keyframe ≠ none) :
    DrawnAt env (keyframeAt d p.next_keyframe) n
      (nextVariations env d p n).1.next_rotation_speed_variation
      (nextVariations env d p n).1.next_color_variation
      (nextVariations env d p n).1.next_size_variation ∧
    (nextVariations env d p n).2 = n + 7 := by
  unfold nextVariations
  split
  · next hn => exact absurd hn h
  · exact ⟨⟨rfl, rfl, rfl⟩, rfl⟩

theorem nextVariations_skip (env : Env) (d : ParticleSystemDef) (p : Particle) (n : Nat)
    (h : p.next_keyframe = none) : (nextVariations env d p n).2 = n := by
  unfold nextVariations
  split
  · rfl
  · next k hk => rw [h] at hk; cases hk

theorem interpolate_variations (d : ParticleSystemDef) (st : ℚ) (p : Particle) :
    SameVariations p (interpolate d st p) := by
  unfold interpolate
  split <;> exact ⟨rfl, rfl, rfl, rfl, rfl, rfl⟩

theorem combineVelocity_variations (env : Env) (d : ParticleSystemDef) (t : ℚ) (p : Particle) :
    SameVariations p (combineVelocity env d t p) := by
  unfold combineVelocity
  dsimp only
  split_ifs <;> exact ⟨rfl, rfl, rfl, rfl, rfl, rfl⟩

theorem attract_variations (env : Env) (d : ParticleSystemDef) (params : EffectParameters)
    (t : ℚ) (p : Particle) : SameVariations p (attract env d params t p) := by
  unfold attract
  dsimp only
  split_ifs <;> exact ⟨rfl, rfl, rfl, rfl, rfl, rfl⟩

theorem dampAndAge_variations (env : Env) (t : ℚ) (p : Particle) :
    SameVariations p (dampAndAge env t p) := by
  unfold dampAndAge
  dsimp only
  split_ifs <;> exact ⟨rfl, rfl, rfl, rfl, rfl, rfl⟩

/-- The loop body of `_UpdateParticles` after the keyframe part keeps the six
sampled variations. -/
theorem motion_variations (env : Env) (d : ParticleSystemDef) (params : EffectParameters)
    (t st : ℚ) (p : Particle) :
    SameVariations p
      (dampAndAge env t (attract env d params t (integrate t (combineVelocity env d t
        (interpolate d st p))))) :=
  sameVariations_trans (interpolate_variations d st p)
    (sameVariations_trans (combineVelocity_variations env d t _)
      (sameVariations_trans (⟨rfl, rfl, rfl, rfl, rfl, rfl⟩ :
          SameVariations (combineVelocity env d t (interpolate d st p))
            (integrate t (combineVelocity env d t (interpolate d st p))))
        (sameVariations_trans (attract_variations env d params t _)
          (dampAndAge_variations env t _))))


theorem advanceKeyframe_variations (env : Env) (d : ParticleSystemDef) (st : ℚ) (p : Particle)
    (n nk : Nat) (hn : p.next_keyframe = some nk)
    (h : st ≥ (keyframeAt d p.next_keyframe).time) :
    ((advanceKeyframe env d st p n).1.current_keyframe = some nk →
      (advanceKeyframe env d st p n).1.current_color_variation = p.next_color_variation ∧
      (advanceKeyframe env d st p n).1.current_size_variation = p.next_size_variation ∧
      (advanceKeyframe env d st p n).1.current_rotation_speed_variation
        = p.next_rotation_speed_variation) ∧
    (¬ (advanceKeyframe env d st p n).1.current_keyframe = some nk →
      DrawnAt env (keyframeAt d (advanceKeyframe env d st p n).1.current_keyframe) n
        (advanceKeyframe env d st p n).1.current_rotation_speed_variation
        (advanceKeyframe env d st p n).1.current_color_variation
        (advanceKeyframe env d st p n).1.current_size_variation) ∧
    ((advanceKeyframe env d st p n).1.next_keyframe ≠ none →
      DrawnAt env (keyframeAt d (advanceKeyframe env d st p n).1.next_keyframe)
        (if (advanceKeyframe env d st p n).1.current_keyframe = some nk then n else n + 7)
        (advanceKeyframe env d st p n).1.next_rotation_speed_variation
        (advanceKeyframe env d st p n).1.next_color_variation
        (advanceKeyframe env d st p n).1.next_size_variation) ∧
    (advanceKeyframe env d st p n).2
      = n + (if (advanceKeyframe env d st p n).1.current_keyframe = some nk then 0 else 7)
          + (if (advanceKeyframe env d st p n).1.next_keyframe = none then 0 else 7) := by
  have e : advanceKeyframe env d st p n
      = nextVariations env d (currentVariations env d nk (scanKeyframes d st p) n).1
          (currentVariations env d nk (scanKeyframes d st p) n).2 := by
    rw [advanceKeyframe_eq]
    simp only [hn]
    rw [if_pos (by rw [← hn]; exact h)]
  obtain ⟨-, -, -, sv4, sv5, sv6⟩ := scanKeyframes_variations d st p
  obtain ⟨⟨-, -, c3, c4⟩, -⟩ := currentVariations_fields env d nk (scanKeyframes d st p) n
  obtain ⟨⟨-, -, n3, n4⟩, -⟩ := nextVariations_fields env d
    (currentVariations env d nk (scanKeyframes d st p) n).1
    (currentVariations env d nk (scanKeyframes d st p) n).2
  obtain ⟨k1, k2, k3⟩ := nextVariations_current env d
    (currentVariations env d nk (scanKeyframes d st p) n).1
    (currentVariations env d nk (scanKeyframes d st p) n).2
  rw [← e] at n3 n4 k1 k2 k3
  have hcur : (advanceKeyframe env d st p n).1.current_keyframe
      = (scanKeyframes d st p).current_keyframe := n3.trans c3
  have hcount : (advanceKeyframe env d st p n).2
      = (currentVariations env d nk (scanKeyframes d st p) n).2
        + (if (advanceKeyframe env d st p n).1.next_keyframe = none then 0 else 7) := by
    by_cases hx : (advanceKeyframe env d st p n).1.next_keyframe = none
    · rw [if_pos hx, e]
      exact nextVariations_skip env d _ _ (by rw [← n4]; exact hx)
    · rw [if_neg hx, e]
      exact (nextVariations_draw env d _ _ (by rw [← n4]; exact hx)).2
  have hnextdraw : (advanceKeyframe env d st p n).1.next_keyframe ≠ none →
      DrawnAt env (keyframeAt d (advanceKeyframe env d st p n).1.next_keyframe)
        (currentVariations env d nk (scanKeyframes d st p) n).2
        (advanceKeyframe env d st p n).1.next_rotation_speed_variation
        (advanceKeyframe env d st p n).1.next_color_variation
        (advanceKeyframe env d st p n).1.next_size_variation := by
    intro hx
    have hd := (nextVariations_draw env d
      (currentVariations env d nk (scanKeyframes d st p) n).1
      (currentVariations env d nk (scanKeyframes d st p) n).2 (by rw [← n4]; exact hx)).1
    rw [← e, ← n4] at hd
    exact hd
  by_cases hS : (scanKeyframes d st p).current_keyframe = some nk
  · obtain ⟨i1, i2, i3, i4⟩ := currentVariations_inherit env d nk (scanKeyframes d st p) n hS
    have hA : (advanceKeyframe env d st p n).1.current_keyframe = some nk := hcur.trans hS
    refine ⟨fun _ => ⟨k1.trans (i1.trans sv4), k2.trans (i2.trans sv5), k3.trans (i3.trans sv6)⟩,
      fun hk => absurd hA hk, ?_, ?_⟩
    · intro hx
      have hd := hnextdraw hx
      rw [i4] at hd
      rw [if_pos hA]
      exact hd
    · rw [if_pos hA, hcount, i4, Nat.add_zero]
  · obtain ⟨j1, j2⟩ := currentVariations_draw env d nk (scanKeyframes d st p) n hS
    have hA : ¬ (advanceKeyframe env d st p n).1.current_keyframe = some nk := by
      rw [hcur]; exact hS
    refine ⟨fun hk => absurd hk hA, fun _ => ?_, ?_, ?_⟩
    · rw [hcur, k1, k2, k3]
      exact j1
    · intro hx
      have hd := hnextdraw hx
      rw [j2] at hd
      rw [if_neg hA]
      exact hd
    · rw [if_neg hA, hcount, j2]

/-- C24: variation carry-over on a single-step advance. For every particle with
a next keyframe whose scaled time `time / lifetime` has reached that keyframe's
time (so that the keyframe advance runs), with a generator that returns values
between its bounds, after the loop body of `_UpdateParticles`: when the new
current keyframe equals the old next keyframe, the current color, size and
rotation-speed variations are exactly the next variations the particle had
before, and nothing is drawn for them; otherwise they are seven fresh draws,
each within plus or minus the new current keyframe's configured variation; and
whenever there is a new next keyframe, the next variations are seven fresh
draws, each within plus or minus that keyframe's configured variation. The
number of draws is 7 for each set that is drawn. -/
theorem variation_carry_over (env : Env) (d : ParticleSystemDef) (params : EffectParameters)
    (t : ℚ) (p : Particle) (n nk : Nat) (hr : RandomFloatInRange env)
    (hn : p.next_keyframe = some nk)
    (h : p.time / p.lifetime ≥ (keyframeAt d p.next_keyframe).time) :
    ((updateParticle env d params t p n).1.current_keyframe = some nk →
      (updateParticle env d params t p n).1.current_color_variation = p.next_color_variation ∧
      (updateParticle env d params t p n).1.current_size_variation = p.next_size_variation ∧
      (updateParticle env d params t p n).1.current_rotation_speed_variation
        = p.next_rotation_speed_variation) ∧
    (¬ (updateParticle env d params t p n).1.current_keyframe = some nk →
      DrawnAt env (keyframeAt d (updateParticle env d params t p n).1.current_keyframe) n
        (updateParticle env d params t p n).1.current_rotation_speed_variation
        (updateParticle env d params t p n).1.current_color_variation
        (updateParticle env d params t p n).1.current_size_variation ∧
      WithinVariation (keyframeAt d (updateParticle env d params t p n).1.current_keyframe)
        (updateParticle env d params t p n).1.current_rotation_speed_variation
        (updateParticle env d params t p n).1.current_color_variation
        (updateParticle env d params t p n).1.current_size_variation) ∧
    ((updateParticle env d params t p n).1.next_keyframe ≠ none →
      DrawnAt env (keyframeAt d (updateParticle env d params t p n).1.next_keyframe)
        (if (updateParticle env d params t p n).1.current_keyframe = some nk then n else n + 7)
        (updateParticle env d params t p n).1.next_rotation_speed_variation
        (updateParticle env d params t p n).1.next_color_variation
        (updateParticle env d params t p n).1.next_size_variation ∧
      WithinVariation (keyframeAt d (updateParticle env d params t p n).1.next_keyframe)
        (updateParticle env d params t p n).1.next_rotation_speed_variation
        (updateParticle env d params t p n).1.next_color_variation
        (updateParticle env d params t p n).1.next_size_variation) ∧
    (updateParticle env d params t p n).2
      = n + (if (updateParticle env d params t p n).1.current_keyframe = some nk then 0 else 7)
          + (if (updateParticle env d params t p n).1.next_keyframe = none then 0 else 7) := by
  obtain ⟨a1, a2, a3, a4⟩ := advanceKeyframe_variations env d (p.time / p.lifetime) p n nk hn h
  obtain ⟨-, -, i3, i4⟩ := (interpolate_fields d (p.time / p.lifetime)
    (advanceKeyframe env d (p.time / p.lifetime) p n).1).1
  obtain ⟨-, -, m3, m4, -⟩ := motion_fields env d params t
    (interpolate d (p.time / p.lifetime) (advanceKeyframe env d (p.time / p.lifetime) p n).1)
  obtain ⟨v1, v2, v3, v4, v5, v6⟩ := motion_variations env d params t (p.time / p.lifetime)
    (advanceKeyframe env d (p.time / p.lifetime) p n).1
  have hck : (updateParticle env d params t p n).1.current_keyframe
      = (advanceKeyframe env d (p.time / p.lifetime) p n).1.current_keyframe := m3.trans i3
  have hnk : (updateParticle env d params t p n).1.next_keyframe
      = (advanceKeyframe env d (p.time / p.lifetime) p n).1.next_keyframe := m4.trans i4
  have w1 : (updateParticle env d params t p n).1.current_color_variation
      = (advanceKeyframe env d (p.time / p.lifetime) p n).1.current_color_variation := v1
  have w2 : (updateParticle env d params t p n).1.current_size_variation
      = (advanceKeyframe env d (p.time / p.lifetime) p n).1.current_size_variation := v2
  have w3 : (updateParticle env d params t p n).1.current_rotation_speed_variation
      = (advanceKeyframe env d (p.time / p.lifetime) p n).1.current_rotation_speed_variation := v3
  have w4 : (updateParticle env d params t p n).1.next_color_variation
      = (advanceKeyframe env d (p.time / p.lifetime) p n).1.next_color_variation := v4
  have w5 : (updateParticle env d params t p n).1.next_size_variation
      = (advanceKeyframe env d (p.time / p.lifetime) p n).1.next_size_variation := v5
  have w6 : (updateParticle env d params t p n).1.next_rotation_speed_variation
      = (advanceKeyframe env d (p.time / p.lifetime) p n).1.next_rotation_speed_variation := v6
  have w7 : (updateParticle env d params t p n).2
      = (advanceKeyframe env d (p.time / p.lifetime) p n).2 := rfl
  rw [hck, hnk, w1, w2, w3, w4, w5, w6, w7]
  exact ⟨a1, fun hk => ⟨a2 hk, drawnAt_within hr _ _ _ _ _ (a2 hk)⟩,
    fun hx => ⟨a3 hx, drawnAt_within hr _ _ _ _ _ (a3 hx)⟩, a4⟩

/-- A concrete instance for C24: two keyframes at times 0 and 1 and a particle
between them whose scaled time is 1; keyframe 1 becomes the current one and the
current color variation is the next color variation the particle had. -/
theorem variation_carry_over_witness :
    (updateParticle sampleEnv twoKeyframeDef sampleParams 1 (betweenKeyframes 1)
        0).1.current_color_variation
      = (betweenKeyframes 1).next_color_variation :=
  ((variation_carry_over sampleEnv twoKeyframeDef sampleParams 1 (betweenKeyframes 1) 0 1
    sampleEnv_inRange rfl (by decide!)).1 (by decide!)).1


/-! ## The interpolation formula -/

theorem interpolate_values (d : ParticleSystemDef) (st : ℚ) (p : Particle)
    (h : p.next_keyframe ≠ none) :
    (interpolate d st p).rotation_speed
      = (1 - cur_a d st p)
          * ((keyframeAt d p.current_keyframe).rotation_speed
              + p.current_rotation_speed_variation)
        + cur_a d st p
          * ((keyframeAt d p.next_keyframe).rotation_speed + p.next_rotation_speed_variation) ∧
    (interpolate d st p).size
      = ⟨(1 - cur_a d st p)
            * ((keyframeAt d p.current_keyframe).size.x + p.current_size_variation.x)
          + cur_a d st p * ((keyframeAt d p.next_keyframe).size.x + p.next_size_variation.x),
         (1 - cur_a d st p)
            * ((keyframeAt d p.current_keyframe).size.y + p.current_size_variation.y)
          + cur_a d st p
            * ((keyframeAt d p.next_keyframe).size.y + p.next_size_variation.y)⟩ ∧
    (interpolate d st p).color
      = ⟨(1 - cur_a d st p)
            * ((keyframeAt d p.current_keyframe).color.c0 + p.current_color_variation.c0)
          + cur_a d st p
            * ((keyframeAt d p.next_keyframe).color.c0 + p.next_color_variation.c0),
         (1 - cur_a d st p)
            * ((keyframeAt d p.current_keyframe).color.c1 + p.current_color_variation.c1)
          + cur_a d st p
            * ((keyframeAt d p.next_keyframe).color.c1 + p.next_color_variation.c1),
         (1 - cur_a d st p)
            * ((keyframeAt d p.current_keyframe).color.c2 + p.current_color_variation.c2)
          + cur_a d st p
            * ((keyframeAt d p.next_keyframe).color.c2 + p.next_color_variation.c2),
         (1 - cur_a d st p)
            * ((keyframeAt d p.current_keyframe).color.c3 + p.current_color_variation.c3)
          + cur_a d st p
            * ((keyframeAt d p.next_keyframe).color.c3 + p.next_color_variation.c3)⟩ := by
  unfold interpolate
  split
  · next hn => exact absurd hn h
  · exact ⟨rfl, rfl, rfl⟩

theorem cur_a_congr (d : ParticleSystemDef) (st : ℚ) (p q : Particle)
    (h1 : q.current_keyframe = p.current_keyframe) (h2 : q.next_keyframe = p.next_keyframe) :
    cur_a d st q = cur_a d st p := by
  unfold cur_a
  rw [h1, h2]


/-- C25: the interpolation formula. For every particle `p` and its record `r`
after the loop body of `_UpdateParticles` with step `t`: if `r` has a next
keyframe (the next keyframe is non-null after the advance step), then each of
rotation speed, size.x, size.y and the four color channels of `r` is
`(1 - a) * (current keyframe value + current variation) + a * (next keyframe
value + next variation)` with `a = (scaled_time - current.time) / (next.time -
current.time)`, the keyframes and variations being those of `r`, and
`scaled_time = p.time / p.lifetime` being taken from the age before it is
advanced: `r.time = p.time + t`. -/
theorem interpolation_formula (env : Env) (d : ParticleSystemDef) (params : EffectParameters)
    (t : ℚ) (p r : Particle) (n : Nat) (hr : (updateParticle env d params t p n).1 = r)
    (hnext : r.next_keyframe ≠ none) :
    r.rotation_speed
      = (1 - cur_a d (p.time / p.lifetime) r)
          * ((keyframeAt d r.current_keyframe).rotation_speed
              + r.current_rotation_speed_variation)
        + cur_a d (p.time / p.lifetime) r
          * ((keyframeAt d r.next_keyframe).rotation_speed + r.next_rotation_speed_variation) ∧
    r.size.x
      = (1 - cur_a d (p.time / p.lifetime) r)
          * ((keyframeAt d r.current_keyframe).size.x + r.current_size_variation.x)
        + cur_a d (p.time / p.lifetime) r
          * ((keyframeAt d r.next_keyframe).size.x + r.next_size_variation.x) ∧
    r.size.y
      = (1 - cur_a d (p.time / p.lifetime) r)
          * ((keyframeAt d r.current_keyframe).size.y + r.current_size_variation.y)
        + cur_a d (p.time / p.lifetime) r
          * ((keyframeAt d r.next_keyframe).size.y + r.next_size_variation.y) ∧
    r.color.c0
      = (1 - cur_a d (p.time / p.lifetime) r)
          * ((keyframeAt d r.current_keyframe).color.c0 + r.current_color_variation.c0)
        + cur_a d (p.time / p.lifetime) r
          * ((keyframeAt d r.next_keyframe).color.c0 + r.next_color_variation.c0) ∧
    r.color.c1
      = (1 - cur_a d (p.time / p.lifetime) r)
          * ((keyframeAt d r.current_keyframe).color.c1 + r.current_color_variation.c1)
        + cur_a d (p.time / p.lifetime) r
          * ((keyframeAt d r.next_keyframe).color.c1 + r.next_color_variation.c1) ∧
    r.color.c2
      = (1 - cur_a d (p.time / p.lifetime) r)
          * ((keyframeAt d r.current_keyframe).color.c2 + r.current_color_variation.c2)
        + cur_a d (p.time / p.lifetime) r
          * ((keyframeAt d r.next_keyframe).color.c2 + r.next_color_variation.c2) ∧
    r.color.c3
      = (1 - cur_a d (p.time / p.lifetime) r)
          * ((keyframeAt d r.current_keyframe).color.c3 + r.current_color_variation.c3)
        + cur_a d (p.time / p.lifetime) r
          * ((keyframeAt d r.next_keyframe).color.c3 + r.next_color_variation.c3) ∧
    r.time = p.time + t ∧
    cur_a d (p.time / p.lifetime) r
      = (p.time / p.lifetime - (keyframeAt d r.current_keyframe).time) /
          ((keyframeAt d r.next_keyframe).time - (keyframeAt d r.current_keyframe).time) := by
  obtain ⟨⟨i1, -, i3, i4⟩, -⟩ := interpolate_fields d (p.time / p.lifetime)
    (advanceKeyframe env d (p.time / p.lifetime) p n).1
  obtain ⟨m1, -, m3, m4, m5, m6, m7⟩ := motion_fields env d params t
    (interpolate d (p.time / p.lifetime) (advanceKeyframe env d (p.time / p.lifetime) p n).1)
  obtain ⟨v1, v2, v3, v4, v5, v6⟩ := motion_variations env d params t (p.time / p.lifetime)
    (advanceKeyframe env d (p.time / p.lifetime) p n).1
  have htime : (advanceKeyframe env d (p.time / p.lifetime) p n).1.time = p.time := by
    cases hp : p.next_keyframe with
    | none => rw [advanceKeyframe_none env d _ p n hp]
    | some nk =>
      by_cases h : p.time / p.lifetime ≥ (keyframeAt d p.next_keyframe).time
      · exact (advanceKeyframe_advanced env d _ p n nk hp h).1
      · rw [advanceKeyframe_early env d _ p n h]
  rw [updateParticle_eq] at hr
  change dampAndAge env t (attract env d params t (integrate t (combineVelocity env d t
    (interpolate d (p.time / p.lifetime)
      (advanceKeyframe env d (p.time / p.lifetime) p n).1)))) = r at hr
  rw [hr] at m1 m3 m4 m5 m6 m7 v1 v2 v3 v4 v5 v6
  have hck := m3.trans i3
  have hnk := m4.trans i4
  have hA : (advanceKeyframe env d (p.time / p.lifetime) p n).1.next_keyframe ≠ none := by
    rw [← hnk]; exact hnext
  obtain ⟨f1, f2, f3⟩ := interpolate_values d (p.time / p.lifetime) _ hA
  have ha := cur_a_congr d (p.time / p.lifetime) _ r hck hnk
  rw [← ha, ← hck, ← hnk, ← v3, ← v6] at f1
  rw [← ha, ← hck, ← hnk, ← v2, ← v5] at f2
  rw [← ha, ← hck, ← hnk, ← v1, ← v4] at f3
  refine ⟨m7.trans f1, ?_, ?_, ?_, ?_, ?_, ?_, ?_, rfl⟩
  · rw [m6, f2]
  · rw [m6, f2]
  · rw [m5, f3]
  · rw [m5, f3]
  · rw [m5, f3]
  · rw [m5, f3]
  · rw [m1, i1, htime]

/-- A concrete instance for C25: keyframes at times 0 and 1 fading from opaque
white to nothing, and a particle of age 1/2 and lifetime 1 between them; after
the loop body with step 1 its alpha channel is the interpolated value and its
age is 3/2. -/
theorem interpolation_formula_witness :
    (updateParticle sampleEnv fadingDef sampleParams 1 (betweenKeyframes (1 / 2)) 0).1.color.c3
      = 1 / 2 ∧
    (updateParticle sampleEnv fadingDef sampleParams 1 (betweenKeyframes (1 / 2)) 0).1.time
      = (betweenKeyframes (1 / 2)).time + 1 :=
  ⟨by decide!,
    (interpolation_formula sampleEnv fadingDef sampleParams 1 (betweenKeyframes (1 / 2))
      (updateParticle sampleEnv fadingDef sampleParams 1 (betweenKeyframes (1 / 2)) 0).1 0 rfl
      (by decide!)).2.2.2.2.2.2.2.1⟩


/-! ## The explicit Euler step -/

theorem advanceKeyframe_stages (env : Env) (d : ParticleSystemDef) (st : ℚ) (p : Particle)
    (n nk : Nat) (hn : p.next_keyframe = some nk)
    (h : st ≥ (keyframeAt d p.next_keyframe).time) :
    advanceKeyframe env d st p n
      = nextVariations env d (currentVariations env d nk (scanKeyframes d st p) n).1
          (currentVariations env d nk (scanKeyframes d st p) n).2 := by
  rw [advanceKeyframe_eq]
  simp only [hn]
  rw [if_pos (by rw [← hn]; exact h)]

theorem sameMotion_trans {p q r : Particle} (h1 : SameMotion p q) (h2 : SameMotion q r) :
    SameMotion p r :=
  ⟨h2.1.trans h1.1, h2.2.1.trans h1.2.1, h2.2.2.1.trans h1.2.2.1,
    h2.2.2.2.1.trans h1.2.2.2.1, h2.2.2.2.2.1.trans h1.2.2.2.2.1,
    h2.2.2.2.2.2.1.trans h1.2.2.2.2.2.1, h2.2.2.2.2.2.2.1.trans h1.2.2.2.2.2.2.1,
    h2.2.2.2.2.2.2.2.1.trans h1.2.2.2.2.2.2.2.1, h2.2.2.2.2.2.2.2.2.trans h1.2.2.2.2.2.2.2.2⟩

theorem sameMotion_refl (p : Particle) : SameMotion p p :=
  ⟨rfl, rfl, rfl, rfl, rfl, rfl, rfl, rfl, rfl⟩

theorem scanKeyframes_motion (d : ParticleSystemDef) (st : ℚ) (p : Particle) :
    SameMotion p (scanKeyframes d st p) := by
  unfold scanKeyframes
  dsimp only
  split_ifs <;> exact ⟨rfl, rfl, rfl, rfl, rfl, rfl, rfl, rfl, rfl⟩

theorem currentVariations_motion (env : Env) (d : ParticleSystemDef) (old_next : Nat)
    (p : Particle) (n : Nat) : SameMotion p (currentVariations env d old_next p n).1 := by
  unfold currentVariations
  split_ifs <;> exact ⟨rfl, rfl, rfl, rfl, rfl, rfl, rfl, rfl, rfl⟩

theorem nextVariations_motion (env : Env) (d : ParticleSystemDef) (p : Particle) (n : Nat) :
    SameMotion p (nextVariations env d p n).1 := by
  unfold nextVariations
  split <;> exact ⟨rfl, rfl, rfl, rfl, rfl, rfl, rfl, rfl, rfl⟩

theorem interpolate_motion (d : ParticleSystemDef) (st : ℚ) (p : Particle) :
    SameMotion p (interpolate d st p) := by
  unfold interpolate
  split <;> exact ⟨rfl, rfl, rfl, rfl, rfl, rfl, rfl, rfl, rfl⟩

/-- The keyframe part of the loop body of `_UpdateParticles` moves nothing. -/
theorem advanceKeyframe_motion (env : Env) (d : ParticleSystemDef) (st : ℚ) (p : Particle)
    (n : Nat) : SameMotion p (advanceKeyframe env d st p n).1 := by
  cases hp : p.next_keyframe with
  | none =>
    rw [advanceKeyframe_none env d st p n hp]
    exact sameMotion_refl p
  | some nk =>
    by_cases h : st ≥ (keyframeAt d p.next_keyframe).time
    · rw [advanceKeyframe_stages env d st p n nk hp h]
      exact sameMotion_trans (scanKeyframes_motion d st p)
        (sameMotion_trans (currentVariations_motion env d nk _ n)
          (nextVariations_motion env d _ _))
    · rw [advanceKeyframe_early env d st p n h]
      exact sameMotion_refl p

theorem attract_idle (env : Env) (d : ParticleSystemDef) (params : EffectParameters) (t : ℚ)
    (p : Particle) (hr : p.radial_acceleration = 0) (ht : p.tangential_acceleration = 0) :
    attract env d params t p = p := by
  unfold attract
  simp [hr, ht]

theorem dampAndAge_idle (env : Env) (t : ℚ) (p : Particle) (hd : p.damping = 1) :
    dampAndAge env t p = { p with time := p.time + t } := by
  unfold dampAndAge
  simp [hd]

theorem combineVelocity_plain (env : Env) (d : ParticleSystemDef) (t : ℚ) (p : Particle)
    (hw : d.wave_motion_used = false) :
    combineVelocity env d t p
      = { p with
          rotation_angle := p.rotation_angle + p.rotation_speed * p.rotation_direction * t
          combined_velocity :=
            ⟨p.velocity.x + p.wind_velocity.x, p.velocity.y + p.wind_velocity.y⟩ } := by
  unfold combineVelocity
  dsimp only
  rw [if_neg (by rw [hw]; simp)]

/-- The motion part of the loop body of `_UpdateParticles` without wave motion,
attractor and damping is one explicit Euler step. -/
theorem euler_motion (env : Env) (d : ParticleSystemDef) (params : EffectParameters) (t : ℚ)
    (q : Particle) (hw : d.wave_motion_used = false) (hr : q.radial_acceleration = 0)
    (ht : q.tangential_acceleration = 0) (hd : q.damping = 1) :
    EulerStep t q
      (dampAndAge env t (attract env d params t (integrate t (combineVelocity env d t q)))) := by
  have hr1 : (integrate t (combineVelocity env d t q)).radial_acceleration = 0 := by
    rw [combineVelocity_plain env d t q hw]; exact hr
  have ht1 : (integrate t (combineVelocity env d t q)).tangential_acceleration = 0 := by
    rw [combineVelocity_plain env d t q hw]; exact ht
  have hd1 : (integrate t (combineVelocity env d t q)).damping = 1 := by
    rw [combineVelocity_plain env d t q hw]; exact hd
  rw [attract_idle env d params t _ hr1 ht1, dampAndAge_idle env t _ hd1,
    combineVelocity_plain env d t q hw]
  exact ⟨rfl, rfl, rfl, rfl⟩

theorem updateParticle_euler (env : Env) (d : ParticleSystemDef) (params : EffectParameters)
    (t : ℚ) (p : Particle) (n : Nat) (hw : d.wave_motion_used = false)
    (hr : p.radial_acceleration = 0) (ht : p.tangential_acceleration = 0)
    (hd : p.damping = 1) : EulerStep t p (updateParticle env d params t p n).1 := by
  obtain ⟨a1, a2, a3, a4, a5, a6, a7, a8, a9⟩ :=
    sameMotion_trans (advanceKeyframe_motion env d (p.time / p.lifetime) p n)
      (interpolate_motion d (p.time / p.lifetime) _)
  obtain ⟨e1, e2, e3, e4⟩ := euler_motion env d params t
    (interpolate d (p.time / p.lifetime) (advanceKeyframe env d (p.time / p.lifetime) p n).1)
    hw (a5.trans hr) (a6.trans ht) (a7.trans hd)
  rw [a1, a2, a4] at e1
  rw [a2, a3] at e2
  rw [a8] at e3
  rw [a9] at e4
  exact ⟨e1, e2, e3, e4⟩


theorem updateSlot_other (env : Env) (d : ParticleSystemDef) (t : ℚ)
    (params : EffectParameters) (s : ParticleSystem) (i j : Nat) (hij : i ≠ j) :
    (updateSlot env d t params s i).particles.getD j default = s.particles.getD j default := by
  unfold updateSlot
  simp [List.getElem?_set_ne hij]

theorem updateSlot_self (env : Env) (d : ParticleSystemDef) (t : ℚ)
    (params : EffectParameters) (s : ParticleSystem) (i : Nat) (hi : i < s.particles.length) :
    (updateSlot env d t params s i).particles.getD i default
      = (updateParticle env d params t (s.particles.getD i default) s.random_draws).1 := by
  unfold updateSlot
  simp [List.getElem?_set_self hi]

/-- The loop of `_UpdateParticles` over the slots `0 .. m - 1`: the slots from
`m` on are untouched, and each slot below `m` holds the loop body's result on
the record it held before the loop. -/
theorem foldl_updateSlot_range (env : Env) (d : ParticleSystemDef) (t : ℚ)
    (params : EffectParameters) (s : ParticleSystem) (m : Nat) :
    ((List.range m).foldl (updateSlot env d t params) s).particles.length
      = s.particles.length ∧
    (∀ j, m ≤ j →
      ((List.range m).foldl (updateSlot env d t params) s).particles.getD j default
        = s.particles.getD j default) ∧
    (∀ j, j < m → j < s.particles.length → ∃ c,
      ((List.range m).foldl (updateSlot env d t params) s).particles.getD j default
        = (updateParticle env d params t (s.particles.getD j default) c).1) := by
  induction m with
  | zero =>
    exact ⟨rfl, fun _ _ => rfl, fun j hj => absurd hj (Nat.not_lt_zero j)⟩
  | succ m ih =>
    obtain ⟨h1, h2, h3⟩ := ih
    rw [List.range_succ, List.foldl_append, List.foldl_cons, List.foldl_nil]
    refine ⟨?_, ?_, ?_⟩
    · rw [← h1]
      unfold updateSlot
      exact List.length_set _ _ _
    · intro j hj
      rw [updateSlot_other env d t params _ m j (by omega)]
      exact h2 j (by omega)
    · intro j hj hlen
      by_cases hjm : j = m
      · subst hjm
        rw [updateSlot_self env d t params _ j (by rw [h1]; exact hlen), h2 j (le_refl j)]
        exact ⟨_, rfl⟩
      · rw [updateSlot_other env d t params _ m j (fun e => hjm e.symm)]
        exact h3 j (by omega) hlen

/-- C26: the explicit Euler step. With wave motion disabled, for every live
particle `j` (a slot of the pool below `num_particles`) with zero radial and
tangential acceleration and damping equal to 1, `_UpdateParticles` with step
`t` gives new position = old position + (old velocity + wind velocity) * t (the
velocity before this frame's acceleration), new velocity = old velocity +
acceleration * t, and new time = old time + t, and leaves the lifetime,
`num_particles`, the size of the pool and every slot at an index at or above
`num_particles` unchanged. -/
theorem explicit_euler_step (env : Env) (d : ParticleSystemDef) (t : ℚ)
    (params : EffectParameters) (s : ParticleSystem) (j : Nat)
    (hw : d.wave_motion_used = false) (hj : (j : Int) < s.num_particles)
    (hlen : j < s.particles.length)
    (hr : (s.particles.getD j default).radial_acceleration = 0)
    (ht : (s.particles.getD j default).tangential_acceleration = 0)
    (hd : (s.particles.getD j default).damping = 1) :
    ((_UpdateParticles env d t params s).particles.getD j default).pos
      = ⟨(s.particles.getD j default).pos.x
            + ((s.particles.getD j default).velocity.x
                + (s.particles.getD j default).wind_velocity.x) * t,
         (s.particles.getD j default).pos.y
            + ((s.particles.getD j default).velocity.y
                + (s.particles.getD j default).wind_velocity.y) * t⟩ ∧
    ((_UpdateParticles env d t params s).particles.getD j default).velocity
      = ⟨(s.particles.getD j default).velocity.x
            + (s.particles.getD j default).acceleration.x * t,
         (s.particles.getD j default).velocity.y
            + (s.particles.getD j default).acceleration.y * t⟩ ∧
    ((_UpdateParticles env d t params s).particles.getD j default).time
      = (s.particles.getD j default).time + t ∧
    ((_UpdateParticles env d t params s).particles.getD j default).lifetime
      = (s.particles.getD j default).lifetime ∧
    (_UpdateParticles env d t params s).num_particles = s.num_particles ∧
    (_UpdateParticles env d t params s).particles.length = s.particles.length ∧
    (∀ i : Nat, s.num_particles ≤ (i : Int) →
      (_UpdateParticles env d t params s).particles.getD i default
        = s.particles.getD i default) := by
  obtain ⟨-, hnum, -⟩ := updateParticles_control env d t params s
  obtain ⟨f1, f2, f3⟩ := foldl_updateSlot_range env d t params s s.num_particles.toNat
  obtain ⟨c, hc⟩ := f3 j (by omega) hlen
  obtain ⟨e1, e2, e3, e4⟩ := updateParticle_euler env d params t (s.particles.getD j default) c
    hw hr ht hd
  have hc1 : (_UpdateParticles env d t params s).particles.getD j default
      = (updateParticle env d params t (s.particles.getD j default) c).1 := hc
  rw [hc1]
  exact ⟨e1, e2, e3, e4, hnum, f1, fun i hi => f2 i (by omega)⟩

/-- A concrete instance for C26: the one live particle of `driftingSystem`, at
the origin with velocity (1, 0), wind (0, 1) and acceleration (2, 0), is at
(1/2, 1/2) after a step of 1/2, and its velocity is (2, 0). -/
theorem explicit_euler_step_witness :
    ((_UpdateParticles sampleEnv (sampleDef true 2 EMITTER_MODE.ALWAYS 0) (1 / 2) sampleParams
        driftingSystem).particles.getD 0 default).pos = ⟨1 / 2, 1 / 2⟩ ∧
    ((_UpdateParticles sampleEnv (sampleDef true 2 EMITTER_MODE.ALWAYS 0) (1 / 2) sampleParams
        driftingSystem).particles.getD 0 default).velocity = ⟨2, 0⟩ :=
  have h := explicit_euler_step sampleEnv (sampleDef true 2 EMITTER_MODE.ALWAYS 0) (1 / 2)
    sampleParams driftingSystem 0 rfl (by decide) (by decide) (by decide!) (by decide!)
    (by decide!)
  ⟨h.1.trans (by decide!), h.2.1.trans (by decide!)⟩


/-! ## Always-fill accounting -/

theorem fullFrame_stages {env : Env} {fuel : Nat} {s s' : ParticleSystem}
    {d : ParticleSystemDef} {frame_time : ℚ} {params : EffectParameters}
    (h : fullFrame env fuel d frame_time params { s with age := s.age + frame_time }
      = some s') :
    ∃ num1 s1 s2,
      _KillParticles env d fuel (emissionCount d (beforeKill env d frame_time params s)) params
        (beforeKill env d frame_time params s) = some (num1, s1) ∧
      _EmitParticles env d fuel num1 params s1 = some s2 ∧
      s' = finishUpdate d s2 := by
  unfold fullFrame at h
  split at h
  · cases h
  · next num1 s1 hk =>
    split at h
    · cases h
    · next s2 he =>
      cases h
      exact ⟨num1, s1, s2, hk, he, rfl⟩

theorem beforeKill_control (env : Env) (d : ParticleSystemDef) (frame_time : ℚ)
    (params : EffectParameters) (s : ParticleSystem) :
    (beforeKill env d frame_time params s).num_particles = s.num_particles ∧
    (beforeKill env d frame_time params s).stopped = s.stopped ∧
    (beforeKill env d frame_time params s).particles.length = s.particles.length ∧
    (beforeKill env d frame_time params s).system_def = s.system_def ∧
    (beforeKill env d frame_time params s).alive = s.alive := by
  obtain ⟨⟨c1, c2, c3, -, -, c6⟩, hn, -⟩ := updateParticles_control env d frame_time params
    { s with age := s.age + frame_time, animation := env.AnimationUpdate s.animation }
  exact ⟨hn, c3, c6, c1, c2⟩

/-- C27: always-fill accounting. For an alive, enabled, non-stopped system in
always-fill mode whose age reaches the emitter start time with this frame, with
`n` live particles before the kill pass (the live count is within the pool) of
which `E` are expired and `E ≤ capacity - n`: the emission budget is `capacity -
n`, the `Update` returns (the generator staying between its bounds), and
`num_particles` after the `Update` equals `capacity - E`; in particular the pool
is full after the `Update` exactly when no live particle was expired. -/
theorem always_fill_accounting (env : Env) (fuel : Nat) (s : ParticleSystem)
    (d : ParticleSystemDef) (frame_time : ℚ) (params : EffectParameters)
    (hr : RandomFloatInRange env) (hf : 0 < fuel)
    (halive : s.alive = true) (hdef : s.system_def = some d) (hen : d.enabled = true)
    (hstopped : s.stopped = false)
    (hmode : d.emitter._emitter_mode = EMITTER_MODE.ALWAYS)
    (hstart : d.emitter._start_time ≤ s.age + frame_time)
    (h0 : 0 ≤ s.num_particles) (hpool : s.num_particles ≤ (s.particles.length : Int))
    (hE : (expiredCount (beforeKill env d frame_time params s) : Int)
      ≤ (d.max_particles : Int) - s.num_particles) :
    (beforeKill env d frame_time params s).num_particles = s.num_particles ∧
    emissionCount d (beforeKill env d frame_time params s)
      = (d.max_particles : Int) - s.num_particles ∧
    ∃ s', Update env fuel s frame_time params = some s' ∧
      s'.num_particles
        = (d.max_particles : Int) - (expiredCount (beforeKill env d frame_time params s) : Int) ∧
      (s'.num_particles = (d.max_particles : Int)
        ↔ expiredCount (beforeKill env d frame_time params s) = 0) := by
  obtain ⟨b1, b2, b3, -, -⟩ := beforeKill_control env d frame_time params s
  have hB : emissionCount d (beforeKill env d frame_time params s)
      = (d.max_particles : Int) - s.num_particles := by
    unfold emissionCount
    rw [b2, hstopped, b1]
    simp [hmode]
  have hU := @update_eq_fullFrame env fuel s d frame_time params halive hdef hen (not_lt.mpr hstart)
  obtain ⟨s', hs'⟩ := fullFrame_returns hr hf { s with age := s.age + frame_time } d frame_time
    params
  obtain ⟨num1, s1, s2, hk, he, rfl⟩ := fullFrame_stages hs'
  unfold _KillParticles at hk
  obtain ⟨k1, k2, -, -, -⟩ := killLoop_recycle env d fuel params
    (beforeKill env d frame_time params s).num_particles.toNat 0
    (emissionCount d (beforeKill env d frame_time params s))
    (beforeKill env d frame_time params s) num1 s1
    (by rw [b1]; omega) (by rw [b1, b3]; exact hpool)
    (by rw [hB]; exact hE) hk
  obtain ⟨-, e2⟩ := emitParticles_control he
  obtain ⟨f1, -, -⟩ := finishUpdate_num d s2
  have hE1 : (expiredIn (beforeKill env d frame_time params s).particles 0
      (beforeKill env d frame_time params s).num_particles.toNat : Int)
      = (expiredCount (beforeKill env d frame_time params s) : Int) := rfl
  rw [hE1, hB] at k2
  have hnum : (finishUpdate d s2).num_particles
      = (d.max_particles : Int)
        - (expiredCount (beforeKill env d frame_time params s) : Int) := by
    rw [f1, e2, k1, b1, k2]
    omega
  refine ⟨b1, hB, finishUpdate d s2, hU.trans hs', hnum, ?_⟩
  rw [hnum]
  omega

/-- A concrete instance for C27: `driftingSystem` (capacity 2, always-fill, one
live particle that does not expire) is full after an `Update` of frame time
1/2. -/
theorem always_fill_accounting_witness :
    ∃ s', Update sampleEnv 1 driftingSystem (1 / 2) sampleParams = some s' ∧
      s'.num_particles
        = ((sampleDef true 2 EMITTER_MODE.ALWAYS 0).max_particles : Int)
          - (expiredCount (beforeKill sampleEnv (sampleDef true 2 EMITTER_MODE.ALWAYS 0) (1 / 2)
              sampleParams driftingSystem) : Int) ∧
      (s'.num_particles = ((sampleDef true 2 EMITTER_MODE.ALWAYS 0).max_particles : Int)
        ↔ expiredCount (beforeKill sampleEnv (sampleDef true 2 EMITTER_MODE.ALWAYS 0) (1 / 2)
              sampleParams driftingSystem) = 0) :=
  (always_fill_accounting sampleEnv 1 driftingSystem (sampleDef true 2 EMITTER_MODE.ALWAYS 0)
    (1 / 2) sampleParams sampleEnv_inRange (by decide) rfl rfl rfl rfl rfl (by decide!)
    (by decide) (by decide) (by decide!)).2.2


/-! ## A stopped system -/

theorem killLoop_idle_draws (env : Env) (d : ParticleSystemDef) (fuel : Nat)
    (params : EffectParameters) :
    ∀ (steps j : Nat) (num : Int) (s : ParticleSystem) (num1 : Int) (s1 : ParticleSystem),
      num ≤ 0 → killLoop env d fuel params steps j num s = some (num1, s1) →
      s1.random_draws = s.random_draws := by
  intro steps
  induction steps with
  | zero =>
    intro j num s num1 s1 _ h
    unfold killLoop at h
    split at h
    · cases h
    · cases h
      rfl
  | succ k ih =>
    intro j num s num1 s1 hnum h
    unfold killLoop at h
    by_cases hlt : (j : Int) < s.num_particles
    · rw [if_pos hlt] at h
      by_cases hexp : (s.particles.getD j default).time > (s.particles.getD j default).lifetime
      · rw [if_pos hexp, if_neg (by omega)] at h
        rw [ih _ _ _ _ _ hnum h]
        dsimp only
        split <;> rfl
      · rw [if_neg hexp] at h
        exact ih _ _ _ _ _ hnum h
    · rw [if_neg hlt] at h
      cases h
      rfl

theorem finishUpdate_draws (d : ParticleSystemDef) (s : ParticleSystem) :
    (finishUpdate d s).random_draws = s.random_draws := by
  unfold finishUpdate Stop
  dsimp only
  split_ifs <;> rfl

theorem emissionCount_stopped (d : ParticleSystemDef) (s : ParticleSystem)
    (h : s.stopped = true) : emissionCount d s = 0 := by
  unfold emissionCount
  simp [h]

/-- A full frame of a stopped system: the emission count is 0, the kill pass
only removes expired particles, the emit pass does nothing. -/
theorem stopped_fullFrame (env : Env) (fuel : Nat) (d : ParticleSystemDef) (frame_time : ℚ)
    (params : EffectParameters) (s : ParticleSystem) (hstopped : s.stopped = true)
    (h0 : 0 ≤ s.num_particles) (hpool : s.num_particles ≤ (s.particles.length : Int)) :
    ∃ (s1 : ParticleSystem) (removed : Multiset Particle),
      fullFrame env fuel d frame_time params { s with age := s.age + frame_time }
        = some (finishUpdate d s1) ∧
      emissionCount d (beforeKill env d frame_time params s) = 0 ∧
      ((liveParticles (beforeKill env d frame_time params s) : List Particle) :
          Multiset Particle) = (liveParticles s1 : List Particle) + removed ∧
      (∀ p ∈ removed, expired p = true) ∧
      0 ≤ s1.num_particles ∧ s1.num_particles ≤ (s1.particles.length : Int) ∧
      s1.num_particles ≤ s.num_particles ∧ s1.stopped = true ∧
      s1.system_def = s.system_def ∧
      s1.random_draws = (beforeKill env d frame_time params s).random_draws := by
  obtain ⟨b1, b2, b3, b4, -⟩ := beforeKill_control env d frame_time params s
  have hB := emissionCount_stopped d (beforeKill env d frame_time params s) (b2.trans hstopped)
  obtain ⟨s1, removed, r1, r2, r3, r4, r5⟩ := killLoop_healthy env d fuel params
    (beforeKill env d frame_time params s).num_particles.toNat 0 0
    (beforeKill env d frame_time params s) (le_refl 0) (by rw [b1]; exact h0)
    (by rw [b1, b3]; exact hpool) (by omega)
  obtain ⟨⟨c1, -, c3, -, -, -⟩, c7, -, -, -⟩ := killLoop_control env d fuel params _ _ _ _ _ _ r1
  have hd := killLoop_idle_draws env d fuel params _ _ _ _ _ _ (le_refl 0) r1
  refine ⟨s1, removed, ?_, hB, r2, r3, r4, r5, by rw [← b1]; exact c7,
    by rw [c3, b2, hstopped], by rw [c1, b4], hd⟩
  have hk : _KillParticles env d fuel (emissionCount d (beforeKill env d frame_time params s))
      params (beforeKill env d frame_time params s) = some (0, s1) := by
    rw [hB]
    exact r1
  have he : _EmitParticles env d fuel 0 params s1 = some s1 := rfl
  unfold fullFrame
  change (match _KillParticles env d fuel
      (emissionCount d (beforeKill env d frame_time params s)) params
      (beforeKill env d frame_time params s) with
    | none => none
    | some (num_particles_to_emit, s1) =>
      match _EmitParticles env d fuel num_particles_to_emit params s1 with
      | none => none
      | some s2 => some (finishUpdate d s2)) = some (finishUpdate d s1)
  rw [hk]
  simp only
  rw [he]


/-- One `Update` of a stopped system: it returns, the system stays stopped, the
live count does not grow; before the start time, or when dead or disabled, the
pool is untouched; on a full frame the emission count is 0, the live particles
are those left by `_UpdateParticles` minus expired ones, and nothing is drawn
after `_UpdateParticles`. -/
theorem stopped_update (env : Env) (fuel : Nat) (s : ParticleSystem) (d : ParticleSystemDef)
    (frame_time : ℚ) (params : EffectParameters)
    (hdef : s.system_def = some d) (hstopped : s.stopped = true)
    (h0 : 0 ≤ s.num_particles) (hpool : s.num_particles ≤ (s.particles.length : Int)) :
    ∃ s', Update env fuel s frame_time params = some s' ∧
      s'.stopped = true ∧ s'.system_def = some d ∧ 0 ≤ s'.num_particles ∧
      s'.num_particles ≤ (s'.particles.length : Int) ∧
      s'.num_particles ≤ s.num_particles ∧
      ((s.alive = false ∨ d.enabled = false ∨ s.age + frame_time < d.emitter._start_time) →
        s'.particles = s.particles ∧ s'.num_particles = s.num_particles ∧
        s'.random_draws = s.random_draws) ∧
      (s.alive = true → d.enabled = true → d.emitter._start_time ≤ s.age + frame_time →
        emissionCount d (beforeKill env d frame_time params s) = 0 ∧
        s'.random_draws = (beforeKill env d frame_time params s).random_draws ∧
        ∃ removed : Multiset Particle,
          ((liveParticles (beforeKill env d frame_time params s) : List Particle) :
              Multiset Particle) = (liveParticles s' : List Particle) + removed ∧
          (∀ p ∈ removed, expired p = true)) := by
  by_cases halive : s.alive = true
  · by_cases hen : d.enabled = true
    · by_cases hpre : s.age + frame_time < d.emitter._start_time
      · refine ⟨_, preroll_step halive hdef hen hpre, hstopped, hdef, h0, hpool, le_refl _,
          fun _ => ⟨rfl, rfl, rfl⟩, fun _ _ hs => absurd hpre (not_lt.mpr hs)⟩
      · obtain ⟨s1, removed, f1, f2, f3, f4, f5, f6, f7, f8, f9, f10⟩ :=
          stopped_fullFrame env fuel d frame_time params s hstopped h0 hpool
        obtain ⟨n1, n2, n3⟩ := finishUpdate_num d s1
        have hlive : liveParticles (finishUpdate d s1) = liveParticles s1 := by
          unfold liveParticles
          rw [n1, n3]
        refine ⟨finishUpdate d s1, (update_eq_fullFrame halive hdef hen hpre).trans f1,
          (finishUpdate_stopped d s1).1 f8, by rw [n2, f9, hdef], by rw [n1]; exact f5,
          by rw [n1, n3]; exact f6, by rw [n1]; exact f7, ?_, ?_⟩
        · intro h
          rcases h with h | h | h
          · rw [halive] at h; cases h
          · rw [hen] at h; cases h
          · exact absurd h hpre
        · intro _ _ _
          exact ⟨f2, by rw [finishUpdate_draws, f10], removed, by rw [hlive]; exact f3, f4⟩
    · have hen1 : d.enabled = false := by simpa using hen
      refine ⟨s, update_disabled hdef hen1, hstopped, hdef, h0, hpool, le_refl _,
        fun _ => ⟨rfl, rfl, rfl⟩, fun _ he _ => absurd he hen⟩
  · have halive1 : s.alive = false := by simpa using halive
    refine ⟨s, update_dead halive1, hstopped, hdef, h0, hpool, le_refl _,
      fun _ => ⟨rfl, rfl, rfl⟩, fun ha _ _ => absurd ha halive⟩

theorem stopped_run (env : Env) (fuel : Nat) (d : ParticleSystemDef) :
    ∀ (calls : List Call) (s : ParticleSystem), s.system_def = some d → s.stopped = true →
      0 ≤ s.num_particles → s.num_particles ≤ (s.particles.length : Int) →
      ∃ s', runCalls env fuel s calls = some s' ∧ s'.system_def = some d ∧ s'.stopped = true ∧
        0 ≤ s'.num_particles ∧ s'.num_particles ≤ (s'.particles.length : Int) ∧
        s'.num_particles ≤ s.num_particles := by
  intro calls
  induction calls with
  | nil => intro s hdef hst h0 hpool; exact ⟨s, rfl, hdef, hst, h0, hpool, le_refl _⟩
  | cons c cs ih =>
    intro s hdef hst h0 hpool
    cases c with
    | update frame_time params =>
      obtain ⟨s1, u1, u2, u3, u4, u5, u6, -, -⟩ :=
        stopped_update env fuel s d frame_time params hdef hst h0 hpool
      obtain ⟨s', r1, r2, r3, r4, r5, r6⟩ := ih s1 u3 u2 u4 u5
      refine ⟨s', ?_, r2, r3, r4, r5, r6.trans u6⟩
      simp only [runCalls, applyCall, u1]
      exact r1
    | stop =>
      obtain ⟨s', r1, r2, r3, r4, r5, r6⟩ := ih (Stop s) hdef rfl h0 hpool
      refine ⟨s', ?_, r2, r3, r4, r5, r6⟩
      simp only [runCalls, applyCall]
      exact r1

/-- C28: a stopped system never emits. For a system with a definition whose
`stopped` flag is set (as `Stop()` sets it) and whose live count is within the
pool: every `Update` returns, `stopped` is still true after it, and
`num_particles` is at most its value before the call; no slot is respawned:
before the start time, or when dead or disabled, the pool is untouched, and on a
full frame the emission count is 0, no draw is made after `_UpdateParticles`,
and the live particles afterwards are those left by `_UpdateParticles` minus
removed particles that were all expired. Hence over any sequence of calls
(`Update` or `Stop`) from such a state the live count is non-increasing: after
any calls and after any further calls it is at most what it was. -/
theorem stopped_never_emits (env : Env) (fuel : Nat) (s : ParticleSystem)
    (d : ParticleSystemDef) (hdef : s.system_def = some d) (hstopped : s.stopped = true)
    (h0 : 0 ≤ s.num_particles) (hpool : s.num_particles ≤ (s.particles.length : Int)) :
    (∀ (frame_time : ℚ) (params : EffectParameters),
      ∃ s', Update env fuel s frame_time params = some s' ∧
        s'.stopped = true ∧ s'.num_particles ≤ s.num_particles ∧
        ((s.alive = false ∨ d.enabled = false ∨ s.age + frame_time < d.emitter._start_time) →
          s'.particles = s.particles ∧ s'.num_particles = s.num_particles ∧
          s'.random_draws = s.random_draws) ∧
        (s.alive = true → d.enabled = true → d.emitter._start_time ≤ s.age + frame_time →
          emissionCount d (beforeKill env d frame_time params s) = 0 ∧
          s'.random_draws = (beforeKill env d frame_time params s).random_draws ∧
          ∃ removed : Multiset Particle,
            ((liveParticles (beforeKill env d frame_time params s) : List Particle) :
                Multiset Particle) = (liveParticles s' : List Particle) + removed ∧
            (∀ p ∈ removed, expired p = true))) ∧
    (Stop s).stopped = true ∧
    (∀ calls1 calls2 : List Call,
      ∃ s1 s2, runCalls env fuel s calls1 = some s1 ∧ runCalls env fuel s1 calls2 = some s2 ∧
        s1.stopped = true ∧ s2.stopped = true ∧
        s2.num_particles ≤ s1.num_particles ∧ s1.num_particles ≤ s.num_particles) := by
  refine ⟨?_, rfl, ?_⟩
  · intro frame_time params
    obtain ⟨s', u1, u2, -, -, -, u6, u7, u8⟩ :=
      stopped_update env fuel s d frame_time params hdef hstopped h0 hpool
    exact ⟨s', u1, u2, u6, u7, u8⟩
  · intro calls1 calls2
    obtain ⟨s1, r1, r2, r3, r4, r5, r6⟩ := stopped_run env fuel d calls1 s hdef hstopped h0 hpool
    obtain ⟨s2, q1, -, q3, -, -, q6⟩ := stopped_run env fuel d calls2 s1 r2 r3 r4 r5
    exact ⟨s1, s2, r1, q1, r3, q3, q6, r6⟩

/-- A concrete instance for C28: `driftingSystem` after `Stop()`; two updates,
of frame times 1/2 and 5, return and the live count does not grow. -/
theorem stopped_never_emits_witness :
    ∃ s1 s2, runCalls sampleEnv 1 (Stop driftingSystem) [Call.update (1 / 2) sampleParams]
        = some s1 ∧
      runCalls sampleEnv 1 s1 [Call.update 5 sampleParams] = some s2 ∧
      s1.stopped = true ∧ s2.stopped = true ∧
      s2.num_particles ≤ s1.num_particles ∧
      s1.num_particles ≤ (Stop driftingSystem).num_particles :=
  (stopped_never_emits sampleEnv 1 (Stop driftingSystem)
    (sampleDef true 2 EMITTER_MODE.ALWAYS 0) rfl rfl (by decide) (by decide)).2.2
    [Call.update (1 / 2) sampleParams] [Call.update 5 sampleParams]


/-! ## The quad layout of the vertex buffer -/

theorem writeQuad_fields {α : Type} (buf : List α) (v : Nat) (q : α × α × α × α) :
    (writeQuad buf v q).2 = v + 4 ∧ (writeQuad buf v q).1.length = buf.length ∧
    (∀ i, (i < v ∨ v + 4 ≤ i) → (writeQuad buf v q).1[i]? = buf[i]?) ∧
    (v + 3 < buf.length →
      (writeQuad buf v q).1[v]? = some q.1 ∧ (writeQuad buf v q).1[v + 1]? = some q.2.1 ∧
      (writeQuad buf v q).1[v + 2]? = some q.2.2.1 ∧
      (writeQuad buf v q).1[v + 3]? = some q.2.2.2) := by
  unfold writeQuad
  refine ⟨rfl, by simp, ?_, ?_⟩
  · intro i hi
    have h0 : v ≠ i := by omega
    have h1 : v + 1 ≠ i := by omega
    have h2 : v + 2 ≠ i := by omega
    have h3 : v + 3 ≠ i := by omega
    simp only [List.getElem?_set_ne h3, List.getElem?_set_ne h2, List.getElem?_set_ne h1,
      List.getElem?_set_ne h0]
  · intro hv
    refine ⟨?_, ?_, ?_, ?_⟩
    · rw [List.getElem?_set_ne (by omega), List.getElem?_set_ne (by omega),
        List.getElem?_set_ne (by omega), List.getElem?_set_self (by omega)]
    · rw [List.getElem?_set_ne (by omega), List.getElem?_set_ne (by omega),
        List.getElem?_set_self (by simp; omega)]
    · rw [List.getElem?_set_ne (by omega), List.getElem?_set_self (by simp; omega)]
    · rw [List.getElem?_set_self (by simp; omega)]

/-- A fill loop of `n` iterations on a buffer of at least `4 * n` entries: the
index ends at `4 * n`, the entries `4 * j .. 4 * j + 3` hold `quad j` for every
`j < n`, and the entries from `4 * n` on are untouched. -/
theorem foldl_writeQuad {α : Type} (quad : Nat → α × α × α × α) (buf : List α) (n : Nat) :
    ((List.range n).foldl (fun st j => writeQuad st.1 st.2 (quad j)) (buf, 0)).2 = 4 * n ∧
    ((List.range n).foldl (fun st j => writeQuad st.1 st.2 (quad j)) (buf, 0)).1.length
      = buf.length ∧
    (∀ i, 4 * n ≤ i →
      ((List.range n).foldl (fun st j => writeQuad st.1 st.2 (quad j)) (buf, 0)).1[i]?
        = buf[i]?) ∧
    (4 * n ≤ buf.length → ∀ j, j < n →
      ((List.range n).foldl (fun st j => writeQuad st.1 st.2 (quad j)) (buf, 0)).1[4 * j]?
        = some (quad j).1 ∧
      ((List.range n).foldl (fun st j => writeQuad st.1 st.2 (quad j)) (buf, 0)).1[4 * j + 1]?
        = some (quad j).2.1 ∧
      ((List.range n).foldl (fun st j => writeQuad st.1 st.2 (quad j)) (buf, 0)).1[4 * j + 2]?
        = some (quad j).2.2.1 ∧
      ((List.range n).foldl (fun st j => writeQuad st.1 st.2 (quad j)) (buf, 0)).1[4 * j + 3]?
        = some (quad j).2.2.2) := by
  induction n with
  | zero => exact ⟨rfl, rfl, fun _ _ => rfl, fun _ j hj => absurd hj (Nat.not_lt_zero j)⟩
  | succ n ih =>
    obtain ⟨h1, h2, h3, h4⟩ := ih
    rw [List.range_succ, List.foldl_append, List.foldl_cons, List.foldl_nil]
    generalize (List.range n).foldl (fun st j => writeQuad st.1 st.2 (quad j)) (buf, 0) = st
      at h1 h2 h3 h4
    obtain ⟨w1, w2, w3, w4⟩ := writeQuad_fields st.1 st.2 (quad n)
    rw [h1] at w1 w2 w3 w4
    rw [h1]
    refine ⟨by rw [w1]; omega, by rw [w2, h2], ?_, ?_⟩
    · intro i hi
      rw [w3 i (by omega)]
      exact h3 i (by omega)
    · intro hbuf j hj
      by_cases hjn : j = n
      · subst hjn
        exact w4 (by omega)
      · obtain ⟨g0, g1, g2, g3⟩ := h4 (by omega) j (by omega)
        rw [w3 (4 * j) (by omega), w3 (4 * j + 1) (by omega), w3 (4 * j + 2) (by omega),
          w3 (4 * j + 3) (by omega)]
        exact ⟨g0, g1, g2, g3⟩


theorem draw_guarded (env : Env) (denv : DrawEnv) (s : ParticleSystem) (d : ParticleSystemDef)
    (hdef : s.system_def = some d)
    (h : s.alive = false ∨ d.enabled = false ∨ s.age < d.emitter._start_time ∨
      s.num_particles ≤ 0) :
    Draw env denv s = some (s, []) := by
  unfold Draw
  by_cases ha : s.alive = true
  · have hg : (!d.enabled || decide (s.age < d.emitter._start_time)
        || decide (s.num_particles ≤ 0)) = true := by
      rcases h with h | h | h | h
      · rw [ha] at h; cases h
      · simp [h]
      · simp [h]
      · simp [h]
    simp only [ha, hdef, hg]
    rfl
  · have ha1 : s.alive = false := by simpa using ha
    simp [ha1]

theorem draw_unguarded (env : Env) (denv : DrawEnv) (s : ParticleSystem)
    (d : ParticleSystemDef) (halive : s.alive = true) (hdef : s.system_def = some d)
    (hen : d.enabled = true) (hstart : d.emitter._start_time ≤ s.age)
    (hnum : 0 < s.num_particles) :
    Draw env denv s
      = if d.smooth_animation then
          match drawSecondPass denv (drawFirstPass env denv d s) with
          | none => none
          | some s2 => some (s2, [drawCallOf (drawFirstPass env denv d s), drawCallOf s2])
        else some (drawFirstPass env denv d s, [drawCallOf (drawFirstPass env denv d s)]) := by
  have hg : (!d.enabled || decide (s.age < d.emitter._start_time)
      || decide (s.num_particles ≤ 0)) = false := by
    simp [hen, not_lt.mpr hstart, hnum]
  unfold Draw
  simp only [halive, hdef, hg]
  rfl

theorem drawSecondPass_some (denv : DrawEnv) (s : ParticleSystem)
    (h : denv.GetNumFrames s.animation ≠ 0) :
    ∃ s2, drawSecondPass denv s = some s2 ∧ s2.particle_vertices = s.particle_vertices ∧
      s2.particles = s.particles ∧ s2.num_particles = s.num_particles := by
  unfold drawSecondPass
  rw [if_neg h]
  exact ⟨_, rfl, rfl, rfl, rfl⟩

/-- Past its guard `Draw` returns, with the vertex buffer of the first pass and
the pool and live count untouched. -/
theorem draw_returns (env : Env) (denv : DrawEnv) (s : ParticleSystem)
    (d : ParticleSystemDef) (halive : s.alive = true) (hdef : s.system_def = some d)
    (hen : d.enabled = true) (hstart : d.emitter._start_time ≤ s.age)
    (hnum : 0 < s.num_particles)
    (hframes : d.smooth_animation = true → denv.GetNumFrames s.animation ≠ 0) :
    ∃ s' calls, Draw env denv s = some (s', calls) ∧
      s'.particle_vertices = (drawFirstPass env denv d s).particle_vertices ∧
      s'.particles = s.particles ∧ s'.num_particles = s.num_particles := by
  rw [draw_unguarded env denv s d halive hdef hen hstart hnum]
  by_cases hs : d.smooth_animation = true
  · obtain ⟨s2, e, e1, e2, e3⟩ := drawSecondPass_some denv (drawFirstPass env denv d s)
      (hframes hs)
    rw [if_pos hs, e]
    exact ⟨s2, _, rfl, e1, e2, e3⟩
  · rw [if_neg hs]
    exact ⟨_, _, rfl, rfl, rfl, rfl⟩

theorem drawFirstPass_plain (env : Env) (denv : DrawEnv) (s : ParticleSystem)
    (d : ParticleSystemDef) (hrot : d.rotation_used = false) :
    (drawFirstPass env denv d s).particle_vertices
      = fillQuads
          (fun j => plainCorners
            (((denv.GetFrameTexture s.animation (denv.GetCurrentFrameIndex s.animation)).width
              : ℚ) * (1 / 2))
            (((denv.GetFrameTexture s.animation (denv.GetCurrentFrameIndex s.animation)).height
              : ℚ) * (1 / 2))
            (s.particles.getD j default))
          s.num_particles s.particle_vertices := by
  unfold drawFirstPass
  simp [hrot]


/-- C29: the quad layout in buffer generation. For a system with a definition
that does not use rotation, whose vertex buffer holds at least `4 *
num_particles` entries (with smooth animation the animation has a frame):
`Draw` returns, the particle pool and `num_particles` are unchanged, and the
vertex buffer entries at an index at or above `4 * num_particles` are not
written. When the buffers are generated (the system is alive and enabled and
its age has reached the start time), for every live particle `j` with position
`(x, y)` the vertex buffer entries `4j`, `4j+1`, `4j+2`, `4j+3` are `(x - w, y -
h)`, `(x + w, y - h)`, `(x + w, y + h)`, `(x - w, y + h)` in that order
(upper-left, upper-right, lower-right, lower-left), where `w = image_width / 2
* size.x` and `h = image_height / 2 * size.y`, the image being the texture of
the current frame. Otherwise (dead, disabled, before the start time, or without
a live particle) nothing is written and nothing is drawn. -/
theorem quad_layout (env : Env) (denv : DrawEnv) (s : ParticleSystem) (d : ParticleSystemDef)
    (j : Nat) (p : Particle) (img : ImageTexture)
    (hdef : s.system_def = some d) (hrot : d.rotation_used = false)
    (hp : s.particles.getD j default = p)
    (himg : denv.GetFrameTexture s.animation (denv.GetCurrentFrameIndex s.animation) = img)
    (hbuf : 4 * s.num_particles ≤ (s.particle_vertices.length : Int))
    (hframes : d.smooth_animation = true → denv.GetNumFrames s.animation ≠ 0) :
    ∃ s' calls, Draw env denv s = some (s', calls) ∧
      s'.particles = s.particles ∧ s'.num_particles = s.num_particles ∧
      (∀ i : Nat, 4 * s.num_particles ≤ (i : Int) →
        s'.particle_vertices[i]? = s.particle_vertices[i]?) ∧
      (s.alive = true → d.enabled = true → d.emitter._start_time ≤ s.age →
        (j : Int) < s.num_particles →
        s'.particle_vertices[4 * j]?
          = some ⟨p.pos.x - (img.width : ℚ) / 2 * p.size.x,
                  p.pos.y - (img.height : ℚ) / 2 * p.size.y⟩ ∧
        s'.particle_vertices[4 * j + 1]?
          = some ⟨p.pos.x + (img.width : ℚ) / 2 * p.size.x,
                  p.pos.y - (img.height : ℚ) / 2 * p.size.y⟩ ∧
        s'.particle_vertices[4 * j + 2]?
          = some ⟨p.pos.x + (img.width : ℚ) / 2 * p.size.x,
                  p.pos.y + (img.height : ℚ) / 2 * p.size.y⟩ ∧
        s'.particle_vertices[4 * j + 3]?
          = some ⟨p.pos.x - (img.width : ℚ) / 2 * p.size.x,
                  p.pos.y + (img.height : ℚ) / 2 * p.size.y⟩) ∧
      ((s.alive = false ∨ d.enabled = false ∨ s.age < d.emitter._start_time ∨
          s.num_particles ≤ 0) → s' = s ∧ calls = []) := by
  by_cases hg : s.alive = false ∨ d.enabled = false ∨ s.age < d.emitter._start_time ∨
      s.num_particles ≤ 0
  · refine ⟨s, [], draw_guarded env denv s d hdef hg, rfl, rfl, fun _ _ => rfl, ?_,
      fun _ => ⟨rfl, rfl⟩⟩
    intro ha he hs hj
    rcases hg with h | h | h | h
    · rw [ha] at h; cases h
    · rw [he] at h; cases h
    · exact absurd h (not_lt.mpr hs)
    · omega
  · have halive : s.alive = true := by
      cases h : s.alive with
      | true => rfl
      | false => exact absurd (Or.inl h) hg
    have hen : d.enabled = true := by
      cases h : d.enabled with
      | true => rfl
      | false => exact absurd (Or.inr (Or.inl h)) hg
    have hstart : d.emitter._start_time ≤ s.age :=
      not_lt.mp (fun h => hg (Or.inr (Or.inr (Or.inl h))))
    have hnum : 0 < s.num_particles :=
      not_le.mp (fun h => hg (Or.inr (Or.inr (Or.inr h))))
    obtain ⟨s', calls, r1, r2, r3, r4⟩ :=
      draw_returns env denv s d halive hdef hen hstart hnum hframes
    rw [drawFirstPass_plain env denv s d hrot, himg] at r2
    unfold fillQuads at r2
    obtain ⟨-, -, f3, f4⟩ := foldl_writeQuad
      (fun j => plainCorners ((img.width : ℚ) * (1 / 2)) ((img.height : ℚ) * (1 / 2))
        (s.particles.getD j default))
      s.particle_vertices s.num_particles.toNat
    rw [← r2] at f3 f4
    refine ⟨s', calls, r1, r3, r4, fun i hi => f3 i (by omega), ?_, fun h => absurd h hg⟩
    intro _ _ _ hj
    obtain ⟨g0, g1, g2, g3⟩ := f4 (by omega) j (by omega)
    have e : ∀ a b : ℚ, a * (1 / 2) * b = a / 2 * b := fun a b => by ring
    simp only [plainCorners, hp, e] at g0 g1 g2 g3
    exact ⟨g0, g1, g2, g3⟩

/-- A concrete instance for C29: the one live particle of `spriteSystem`, at
(3, 5) with size (1, 2), drawn with a 4 by 2 image: the quad goes from (1, 3)
to (5, 7). -/
theorem quad_layout_witness :
    ∃ s' calls, Draw sampleEnv sampleDrawEnv spriteSystem = some (s', calls) ∧
      s'.particle_vertices[0]? = some ⟨1, 3⟩ ∧ s'.particle_vertices[2]? = some ⟨5, 7⟩ := by
  obtain ⟨s', calls, h1, -, -, -, h5, -⟩ := quad_layout sampleEnv sampleDrawEnv spriteSystem
    (sampleDef true 2 EMITTER_MODE.ALWAYS 0) 0 spriteParticle ⟨0, 1, 0, 1, 4, 2⟩ rfl rfl rfl rfl
    (by decide) (fun _ => by decide)
  obtain ⟨q0, -, q2, -⟩ := h5 rfl rfl (by decide!) (by decide)
  exact ⟨s', calls, h1, q0.trans (by decide!), q2.trans (by decide!)⟩


/-! ## Rounding to single precision -/

theorem log2Fuel_eq : ∀ (fuel n : Nat), n ≤ fuel → log2Fuel fuel n = Nat.log2 n := by
  intro fuel
  induction fuel with
  | zero =>
    intro n hn
    have : n = 0 := by omega
    subst this
    simp [log2Fuel, Nat.log2]
  | succ k ih =>
    intro n hn
    unfold log2Fuel
    rw [Nat.log2]
    by_cases h : 2 ≤ n
    · rw [if_pos h, if_pos h, ih (n / 2) (by omega)]
    · rw [if_neg h, if_neg h]

/-- The bit length bounds of a positive natural number, as rationals. -/
theorem log2Fuel_bounds (n : Nat) (hn : n ≠ 0) :
    (2 : ℚ) ^ (log2Fuel n n : Int) ≤ (n : ℚ) ∧ (n : ℚ) < (2 : ℚ) ^ ((log2Fuel n n : Int) + 1) := by
  rw [log2Fuel_eq n n (le_refl n)]
  have h1 : 2 ^ n.log2 ≤ n := Nat.log2_self_le hn
  have h2 : n < 2 ^ (n.log2 + 1) := Nat.lt_log2_self
  constructor
  · rw [zpow_natCast]
    exact_mod_cast h1
  · have e : ((n.log2 : Int) + 1) = ((n.log2 + 1 : Nat) : Int) := by push_cast; rfl
    rw [e, zpow_natCast]
    exact_mod_cast h2

theorem floatExponent_spec (x : ℚ) (hx : x ≠ 0) :
    (2 : ℚ) ^ floatExponent x ≤ |x| ∧ |x| < (2 : ℚ) ^ (floatExponent x + 1) := by
  have hp : x.num.natAbs ≠ 0 := by
    rw [Ne, Int.natAbs_eq_zero, Rat.num_eq_zero]
    exact hx
  have hq : x.den ≠ 0 := x.den_nz
  obtain ⟨p1, p2⟩ := log2Fuel_bounds x.num.natAbs hp
  obtain ⟨q1, q2⟩ := log2Fuel_bounds x.den hq
  have habs : |x| = (x.num.natAbs : ℚ) / (x.den : ℚ) := by
    have h := Rat.num_div_den x
    have hnum : ((x.num.natAbs : Nat) : ℚ) = |(x.num : ℚ)| := by
      rw [Nat.cast_natAbs, Int.cast_abs]
    rw [hnum]
    nth_rewrite 1 [← h]
    rw [abs_div, Nat.abs_cast]
  have hqpos : (0 : ℚ) < (x.den : ℚ) := by exact_mod_cast x.den_pos
  unfold floatExponent
  generalize (log2Fuel x.num.natAbs x.num.natAbs : Int) = a at *
  generalize (log2Fuel x.den x.den : Int) = b at *
  have h2a : (0 : ℚ) < 2 ^ a := zpow_pos (by norm_num) a
  have h2b : (0 : ℚ) < 2 ^ b := zpow_pos (by norm_num) b
  have hlow : (2 : ℚ) ^ (a - b - 1) < |x| := by
    rw [habs, zpow_sub₀ (by norm_num), zpow_sub₀ (by norm_num), zpow_one, lt_div_iff₀ hqpos]
    have : (x.den : ℚ) < 2 ^ b * 2 := by
      rw [zpow_add₀ (by norm_num), zpow_one] at q2; exact q2
    calc 2 ^ a / 2 ^ b / 2 * (x.den : ℚ) < 2 ^ a / 2 ^ b / 2 * (2 ^ b * 2) := by
          apply mul_lt_mul_of_pos_left this
          positivity
      _ = 2 ^ a := by field_simp
      _ ≤ _ := p1
  have hhigh : |x| < (2 : ℚ) ^ (a - b + 1) := by
    rw [habs, div_lt_iff₀ hqpos]
    have e : (2 : ℚ) ^ (a - b + 1) = 2 ^ (a + 1) / 2 ^ b := by
      rw [← zpow_sub₀ (by norm_num)]
      congr 1
      ring
    rw [e]
    calc (x.num.natAbs : ℚ) < 2 ^ (a + 1) := p2
      _ = 2 ^ (a + 1) / 2 ^ b * 2 ^ b := by field_simp
      _ ≤ 2 ^ (a + 1) / 2 ^ b * (x.den : ℚ) := by
          apply mul_le_mul_of_nonneg_left q1
          positivity
  split_ifs with h
  · exact ⟨h, hhigh⟩
  · constructor
    · exact hlow.le
    · have e : a - b - 1 + 1 = a - b := by ring
      rw [e]
      exact not_le.mp h

theorem floatExponent_unique (x : ℚ) (e : Int)
    (h1 : (2 : ℚ) ^ e ≤ |x|) (h2 : |x| < (2 : ℚ) ^ (e + 1)) (hx : x ≠ 0) :
    floatExponent x = e := by
  obtain ⟨s1, s2⟩ := floatExponent_spec x hx
  have a1 : (2 : ℚ) ^ e < 2 ^ (floatExponent x + 1) := lt_of_le_of_lt h1 s2
  have a2 : (2 : ℚ) ^ floatExponent x < 2 ^ (e + 1) := lt_of_le_of_lt s1 h2
  rw [zpow_lt_zpow_iff_right₀ (by norm_num)] at a1 a2
  omega

theorem floatExponent_two_mul (x : ℚ) (hx : x ≠ 0) :
    floatExponent (2 * x) = floatExponent x + 1 := by
  obtain ⟨s1, s2⟩ := floatExponent_spec x hx
  apply floatExponent_unique
  · rw [abs_mul, zpow_add₀ (by norm_num), zpow_one, abs_of_pos (by norm_num : (0 : ℚ) < 2)]
    linarith
  · rw [abs_mul, zpow_add₀ (by norm_num), zpow_one, abs_of_pos (by norm_num : (0 : ℚ) < 2)]
    linarith
  · exact mul_ne_zero (by norm_num) hx

theorem floatExponent_ge (x : ℚ) (k : Int) (hx : x ≠ 0) (h : (2 : ℚ) ^ k ≤ |x|) :
    k ≤ floatExponent x := by
  obtain ⟨-, s2⟩ := floatExponent_spec x hx
  have a1 : (2 : ℚ) ^ k < 2 ^ (floatExponent x + 1) := lt_of_le_of_lt h s2
  rw [zpow_lt_zpow_iff_right₀ (by norm_num)] at a1
  omega

theorem floatExponent_le (x : ℚ) (k : Int) (hx : x ≠ 0) (h : |x| ≤ (2 : ℚ) ^ k) :
    floatExponent x ≤ k := by
  obtain ⟨s1, -⟩ := floatExponent_spec x hx
  have a1 : (2 : ℚ) ^ floatExponent x ≤ 2 ^ k := le_trans s1 h
  rwa [zpow_le_zpow_iff_right₀ (by norm_num)] at a1

theorem roundFloat_two_mul (x : ℚ) (hn : (2 : ℚ) ^ (-126 : Int) ≤ |x|) :
    roundFloat (2 * x) = 2 * roundFloat x := by
  have hx : x ≠ 0 := by
    intro h
    rw [h, abs_zero] at hn
    exact absurd hn (not_le.mpr (zpow_pos (by norm_num) _))
  have h2 : 2 * x ≠ 0 := mul_ne_zero (by norm_num) hx
  have he : -126 ≤ floatExponent x := floatExponent_ge x (-126) hx hn
  unfold roundFloat
  rw [if_neg hx, if_neg h2, floatExponent_two_mul x hx, max_eq_left he,
    max_eq_left (by omega)]
  have e : (2 : ℚ) ^ (floatExponent x + 1 - 23) = 2 * 2 ^ (floatExponent x - 23) := by
    rw [show floatExponent x + 1 - 23 = (floatExponent x - 23) + 1 by ring,
      zpow_add₀ (by norm_num), zpow_one]
    ring
  rw [e]
  have hq : (2 : ℚ) ^ (floatExponent x - 23) ≠ 0 := (zpow_pos (by norm_num) _).ne'
  have em : 2 * x / (2 * 2 ^ (floatExponent x - 23)) = x / 2 ^ (floatExponent x - 23) := by
    field_simp
    ring
  rw [em]
  ring

theorem roundHalfEven_bounds (m : ℚ) : ⌊m⌋ ≤ roundHalfEven m ∧ roundHalfEven m ≤ ⌊m⌋ + 1 := by
  unfold roundHalfEven
  split_ifs <;> constructor <;> omega

theorem roundHalfEven_ge_int (m : ℚ) (N : Int) (h : (N : ℚ) ≤ m) : N ≤ roundHalfEven m :=
  (Int.le_floor.mpr h).trans (roundHalfEven_bounds m).1

theorem roundHalfEven_le_int (m : ℚ) (N : Int) (h : m ≤ (N : ℚ)) : roundHalfEven m ≤ N := by
  by_cases hf : ⌊m⌋ < N
  · have := (roundHalfEven_bounds m).2
    omega
  · have h1 : (N : ℚ) ≤ m := Int.le_floor.mp (not_lt.mp hf)
    have hm : m = (N : ℚ) := le_antisymm h h1
    rw [hm]
    unfold roundHalfEven
    rw [Int.floor_intCast, sub_self, if_pos (by norm_num)]

theorem roundFloat_nonneg (x : ℚ) (hx : 0 ≤ x) : 0 ≤ roundFloat x := by
  unfold roundFloat
  split_ifs with h
  · exact le_refl 0
  · have hq : (0 : ℚ) < 2 ^ (max (floatExponent x) (-126) - 23) := zpow_pos (by norm_num) _
    have hm : ((0 : Int) : ℚ) ≤ x / 2 ^ (max (floatExponent x) (-126) - 23) := by
      rw [Int.cast_zero]
      exact div_nonneg hx hq.le
    have hr := roundHalfEven_ge_int _ 0 hm
    have : (0 : ℚ) ≤ (roundHalfEven (x / 2 ^ (max (floatExponent x) (-126) - 23)) : ℚ) := by
      exact_mod_cast hr
    exact mul_nonneg this hq.le

/-- A power of two with a natural exponent, as the cast of an integer. -/
theorem two_zpow_cast (n : Int) (hn : 0 ≤ n) : (2 : ℚ) ^ n = (((2 : Int) ^ n.toNat : Int) : ℚ) := by
  have e : n = (n.toNat : Int) := (Int.toNat_of_nonneg hn).symm
  nth_rewrite 1 [e]
  rw [zpow_natCast]
  push_cast
  rfl

theorem roundFloat_ge_pow (x : ℚ) (k : Int) (hk : -149 ≤ k) (h : (2 : ℚ) ^ k ≤ x) :
    (2 : ℚ) ^ k ≤ roundFloat x := by
  have hxpos : 0 < x := lt_of_lt_of_le (zpow_pos (by norm_num) _) h
  have hx : x ≠ 0 := hxpos.ne'
  have he : k ≤ floatExponent x := floatExponent_ge x k hx (by rw [abs_of_pos hxpos]; exact h)
  obtain ⟨s1, -⟩ := floatExponent_spec x hx
  rw [abs_of_pos hxpos] at s1
  unfold roundFloat
  rw [if_neg hx]
  generalize hE : max (floatExponent x) (-126) = E
  have hq : (0 : ℚ) < 2 ^ (E - 23) := zpow_pos (by norm_num) _
  -- the integer bound: `2 ^ j / q` with `j = max k' ...`
  by_cases hn : -126 ≤ floatExponent x
  · have hEe : E = floatExponent x := by rw [← hE]; exact max_eq_left hn
    have hm : (((2 : Int) ^ (23 : Int).toNat : Int) : ℚ) ≤ x / 2 ^ (E - 23) := by
      rw [← two_zpow_cast 23 (by norm_num), le_div_iff₀ hq, ← zpow_add₀ (by norm_num)]
      have : (23 : Int) + (E - 23) = floatExponent x := by rw [hEe]; ring
      rw [this]
      exact s1
    have hr := roundHalfEven_ge_int _ _ hm
    have hr' : (2 : ℚ) ^ (23 : Int) ≤ (roundHalfEven (x / 2 ^ (E - 23)) : ℚ) := by
      rw [two_zpow_cast 23 (by norm_num)]
      exact_mod_cast hr
    calc (2 : ℚ) ^ k ≤ 2 ^ floatExponent x := by
          rw [zpow_le_zpow_iff_right₀ (by norm_num)]; exact he
      _ = 2 ^ (23 : Int) * 2 ^ (E - 23) := by
          rw [← zpow_add₀ (by norm_num)]
          congr 1
          rw [hEe]; ring
      _ ≤ _ := mul_le_mul_of_nonneg_right hr' hq.le
  · have hEe : E = -126 := by rw [← hE]; exact max_eq_right (by omega)
    have hk0 : 0 ≤ k + 149 := by omega
    have hm : (((2 : Int) ^ (k + 149).toNat : Int) : ℚ) ≤ x / 2 ^ (E - 23) := by
      rw [← two_zpow_cast (k + 149) hk0, le_div_iff₀ hq, ← zpow_add₀ (by norm_num)]
      have : k + 149 + (E - 23) = k := by rw [hEe]; ring
      rw [this]
      exact h
    have hr := roundHalfEven_ge_int _ _ hm
    have hr' : (2 : ℚ) ^ (k + 149) ≤ (roundHalfEven (x / 2 ^ (E - 23)) : ℚ) := by
      rw [two_zpow_cast (k + 149) hk0]
      exact_mod_cast hr
    calc (2 : ℚ) ^ k = 2 ^ (k + 149) * 2 ^ (E - 23) := by
          rw [← zpow_add₀ (by norm_num)]
          congr 1
          rw [hEe]; ring
      _ ≤ _ := mul_le_mul_of_nonneg_right hr' hq.le

theorem roundFloat_le_pow (x : ℚ) (k : Int) (hk : -149 ≤ k) (h0 : 0 ≤ x)
    (h : x ≤ (2 : ℚ) ^ k) : roundFloat x ≤ (2 : ℚ) ^ k := by
  by_cases hx : x = 0
  · rw [hx]
    unfold roundFloat
    rw [if_pos rfl]
    exact (zpow_pos (by norm_num) _).le
  · have hxpos : 0 < x := lt_of_le_of_ne h0 (Ne.symm hx)
    have he : floatExponent x ≤ k := floatExponent_le x k hx (by rw [abs_of_pos hxpos]; exact h)
    unfold roundFloat
    rw [if_neg hx]
    generalize hE : max (floatExponent x) (-126) = E
    have hq : (0 : ℚ) < 2 ^ (E - 23) := zpow_pos (by norm_num) _
    have hEk : E ≤ k + 23 := by
      rw [← hE]
      exact max_le (by omega) (by omega)
    have hk0 : 0 ≤ k - E + 23 := by omega
    have hm : x / 2 ^ (E - 23) ≤ (((2 : Int) ^ (k - E + 23).toNat : Int) : ℚ) := by
      rw [← two_zpow_cast (k - E + 23) hk0, div_le_iff₀ hq, ← zpow_add₀ (by norm_num)]
      have : k - E + 23 + (E - 23) = k := by ring
      rw [this]
      exact h
    have hr := roundHalfEven_le_int _ _ hm
    have hr' : (roundHalfEven (x / 2 ^ (E - 23)) : ℚ) ≤ (2 : ℚ) ^ (k - E + 23) := by
      rw [two_zpow_cast (k - E + 23) hk0]
      exact_mod_cast hr
    calc _ ≤ (2 : ℚ) ^ (k - E + 23) * 2 ^ (E - 23) := mul_le_mul_of_nonneg_right hr' hq.le
      _ = 2 ^ k := by
          rw [← zpow_add₀ (by norm_num)]
          congr 1
          ring

theorem roundFloat_ne_zero (x : ℚ) (h : (2 : ℚ) ^ (-149 : Int) ≤ |x|) : roundFloat x ≠ 0 := by
  have hpow : (0 : ℚ) < 2 ^ (-149 : Int) := zpow_pos (by norm_num) _
  rcases lt_trichotomy x 0 with hneg | hzero | hpos
  · have hx : x ≠ 0 := hneg.ne
    rw [abs_of_neg hneg] at h
    unfold roundFloat
    rw [if_neg hx]
    generalize hE : max (floatExponent x) (-126) = E
    have hq : (0 : ℚ) < 2 ^ (E - 23) := zpow_pos (by norm_num) _
    have hEl : -126 ≤ E := by rw [← hE]; exact le_max_right _ _
    have hEe : E = floatExponent x ∨ E = -126 := by
      rw [← hE]
      rcases le_total (floatExponent x) (-126) with c | c
      · right; exact max_eq_right c
      · left; exact max_eq_left c
    obtain ⟨s1, -⟩ := floatExponent_spec x hx
    rw [abs_of_neg hneg] at s1
    have hm : x / 2 ^ (E - 23) ≤ ((-1 : Int) : ℚ) := by
      rw [div_le_iff₀ hq]
      push_cast
      rcases hEe with c | c
      · have : (2 : ℚ) ^ (E - 23) ≤ 2 ^ floatExponent x := by
          rw [zpow_le_zpow_iff_right₀ (by norm_num), c]; omega
        linarith
      · have : (2 : ℚ) ^ (E - 23) = 2 ^ (-149 : Int) := by rw [c]; norm_num
        linarith
    have hr := roundHalfEven_le_int _ _ hm
    have hr' : (roundHalfEven (x / 2 ^ (E - 23)) : ℚ) < 0 := by
      have : roundHalfEven (x / 2 ^ (E - 23)) < 0 := by omega
      exact_mod_cast this
    exact (mul_neg_of_neg_of_pos hr' hq).ne
  · rw [hzero, abs_zero] at h
    exact absurd h (not_le.mpr hpow)
  · rw [abs_of_pos hpos] at h
    have := roundFloat_ge_pow x (-149) (le_refl _) h
    exact (lt_of_lt_of_le hpow this).ne'

/-! ## The rate-based emission budget -/

/-- A full frame whose budget covers the expired particles: the `Update`
returns and the live count grows by the budget minus the number of expired
particles, whatever the budget is. -/
theorem budget_accounting (env : Env) (fuel : Nat) (s : ParticleSystem)
    (d : ParticleSystemDef) (frame_time : ℚ) (params : EffectParameters)
    (hr : RandomFloatInRange env) (hf : 0 < fuel)
    (halive : s.alive = true) (hdef : s.system_def = some d) (hen : d.enabled = true)
    (hstart : ¬ s.age + frame_time < d.emitter._start_time)
    (h0 : 0 ≤ s.num_particles) (hpool : s.num_particles ≤ (s.particles.length : Int))
    (hE : (expiredCount (beforeKill env d frame_time params s) : Int)
      ≤ emissionCount d (beforeKill env d frame_time params s)) :
    ∃ s', Update env fuel s frame_time params = some s' ∧
      s'.num_particles
        = s.num_particles + emissionCount d (beforeKill env d frame_time params s)
          - (expiredCount (beforeKill env d frame_time params s) : Int) := by
  obtain ⟨b1, -, b3, -, -⟩ := beforeKill_control env d frame_time params s
  have hU := @update_eq_fullFrame env fuel s d frame_time params halive hdef hen hstart
  obtain ⟨s', hs'⟩ := fullFrame_returns hr hf { s with age := s.age + frame_time } d frame_time
    params
  obtain ⟨num1, s1, s2, hk, he, rfl⟩ := fullFrame_stages hs'
  unfold _KillParticles at hk
  obtain ⟨k1, k2, -, -, -⟩ := killLoop_recycle env d fuel params
    (beforeKill env d frame_time params s).num_particles.toNat 0
    (emissionCount d (beforeKill env d frame_time params s))
    (beforeKill env d frame_time params s) num1 s1
    (by rw [b1]; omega) (by rw [b1, b3]; exact hpool) hE hk
  obtain ⟨-, e2⟩ := emitParticles_control he
  obtain ⟨f1, -, -⟩ := finishUpdate_num d s2
  have hE1 : (expiredIn (beforeKill env d frame_time params s).particles 0
      (beforeKill env d frame_time params s).num_particles.toNat : Int)
      = (expiredCount (beforeKill env d frame_time params s) : Int) := rfl
  rw [hE1] at k2
  refine ⟨finishUpdate d s2, hU.trans hs', ?_⟩
  rw [f1, e2, k1, b1, k2]
  omega

theorem runCalls_update_some (env : Env) (fuel : Nat) (s s1 : ParticleSystem) (frame_time : ℚ)
    (params : EffectParameters) (cs : List Call)
    (h : Update env fuel s frame_time params = some s1) :
    runCalls env fuel s (Call.update frame_time params :: cs) = runCalls env fuel s1 cs := by
  simp only [runCalls, applyCall, h]

/-- C1 fails in the rate-based branch: the emission count is computed in
`int32_t` from a float that can exceed it. With capacity 2 and an emission rate
of 3e9, a successful `_Create` and a first `Update` of frame time 1 leave 2 live
particles. In the second `Update` of frame time 1 the float difference
`time_high - time_low` is 3e9, outside `int32_t`; the conversion gives
`-2 ^ 31`, the subtraction of 1 wraps to `2 ^ 31 - 1`, and the sum with the live
count wraps below 0, so the clamp test is false and the budget is 2147483647.
No particle has expired, so the kill pass leaves the budget and the 2 live
particles as they are, and the first iteration of the emit pass respawns the
particle of index 2 in a pool of 2 particles and raises the live count to 3,
above the capacity 2. With the unbounded live count of the embedding, where a
write outside the pool is dropped, the run ends with a live count of
2147483649. -/
theorem capacity_overflows :
    (_Create blankSystem (some overflowDef)).1 = true ∧
    createdSystem overflowDef = (_Create blankSystem (some overflowDef)).2 ∧
    Update sampleEnv 1 (createdSystem overflowDef) 1 sampleParams = some overflowFirst ∧
    overflowFirst.num_particles = 2 ∧
    roundFloat
        ((⌈roundFloat ((overflowFirst.age + 1) * overflowDef.emitter._emission_rate)⌉ : ℚ)
          - (⌊roundFloat (overflowFirst.last_update_time
                * overflowDef.emitter._emission_rate)⌋ : ℚ))
      = 3000000000 ∧
    emissionCount overflowDef (beforeKill sampleEnv overflowDef 1 sampleParams overflowFirst)
      = 2147483647 ∧
    _KillParticles sampleEnv overflowDef 1 2147483647 sampleParams
        (beforeKill sampleEnv overflowDef 1 sampleParams overflowFirst)
      = some (2147483647, beforeKill sampleEnv overflowDef 1 sampleParams overflowFirst) ∧
    (beforeKill sampleEnv overflowDef 1 sampleParams overflowFirst).num_particles = 2 ∧
    (beforeKill sampleEnv overflowDef 1 sampleParams overflowFirst).particles.length = 2 ∧
    (emitLoop sampleEnv overflowDef 1 sampleParams 1
        (beforeKill sampleEnv overflowDef 1 sampleParams overflowFirst)).map
      (fun s => (s.num_particles, s.particles.length)) = some (3, 2) ∧
    ∃ s2, runCalls sampleEnv 1 (createdSystem overflowDef)
        [Call.update 1 sampleParams, Call.update 1 sampleParams] = some s2 ∧
      s2.num_particles = 2147483649 ∧
      ¬ s2.num_particles ≤ (overflowDef.max_particles : Int) := by
  have h1 : Update sampleEnv 1 (createdSystem overflowDef) 1 sampleParams
      = some overflowFirst := by decide!
  have hn : overflowFirst.num_particles = 2 := by decide!
  have hb : emissionCount overflowDef
      (beforeKill sampleEnv overflowDef 1 sampleParams overflowFirst) = 2147483647 := by
    decide!
  have hx : expiredCount (beforeKill sampleEnv overflowDef 1 sampleParams overflowFirst)
      = 0 := by decide!
  obtain ⟨s2, u, hs2⟩ := budget_accounting sampleEnv 1 overflowFirst overflowDef 1 sampleParams
    sampleEnv_inRange (by decide) (by decide!) (by decide!) rfl (by decide!) (by decide!)
    (by decide!) (by rw [hx, hb]; decide)
  rw [hn, hb, hx] at hs2
  have hcap : (overflowDef.max_particles : Int) = 2 := rfl
  refine ⟨rfl, rfl, h1, hn, by decide!, hb, by decide!, by decide!, by decide!, by decide!,
    s2, ?_, by rw [hs2]; rfl, by rw [hs2, hcap]; decide⟩
  rw [runCalls_update_some sampleEnv 1 (createdSystem overflowDef) overflowFirst 1 sampleParams
      [Call.update 1 sampleParams] h1,
    runCalls_update_some sampleEnv 1 overflowFirst s2 1 sampleParams [] u]
  rfl


/-! ## Battle idle state time -/

theorem castUint32_of_nonneg (x : ℚ) (h0 : 0 ≤ x) (h1 : x < 2 ^ 32) :
    castUint32 x = some (Int.toNat ⌊x⌋) := by
  unfold castUint32
  rw [if_pos ⟨by linarith, h1⟩]

theorem setActorIdleStateTime_guarded (bm : BattleMode) (a : BattleActor)
    (h : a.agility = 0 ∨ bm._highest_agility = 0 ∨ bm._battle_type_time_factor = 0) :
    SetActorIdleStateTime bm (some a) = some (some a) ∧ idleDivisor bm (some a) = none := by
  unfold SetActorIdleStateTime idleDivisor BattleActor.GetAgility
  by_cases ha : a.agility = 0
  · simp [ha]
  · have hg : bm._highest_agility = 0 ∨ bm._battle_type_time_factor = 0 := by
      rcases h with h | h | h
      · exact absurd h ha
      · exact Or.inl h
      · exact Or.inr h
    simp [ha, hg]

theorem floor_double (x : ℚ) : 2 * ⌊x⌋ ≤ ⌊2 * x⌋ ∧ ⌊2 * x⌋ ≤ 2 * ⌊x⌋ + 1 := by
  have h1 : (⌊x⌋ : ℚ) ≤ x := Int.floor_le x
  have h2 : x < (⌊x⌋ : ℚ) + 1 := Int.lt_floor_add_one x
  constructor
  · rw [Int.le_floor]
    push_cast
    linarith
  · have h3 : ⌊2 * x⌋ < 2 * ⌊x⌋ + 2 := by
      rw [Int.floor_lt]
      push_cast
      linarith
    omega


theorem foldl_raiseHighestAgility (l : List BattleActor) :
    ∀ h : Nat, h ≤ l.foldl raiseHighestAgility h ∧
      ∀ a ∈ l, a.agility ≤ l.foldl raiseHighestAgility h := by
  induction l with
  | nil => intro h; exact ⟨le_refl h, fun a ha => absurd ha (List.not_mem_nil a)⟩
  | cons b l ih =>
    intro h
    obtain ⟨i1, i2⟩ := ih (raiseHighestAgility h b)
    have hb : h ≤ raiseHighestAgility h b ∧ b.agility ≤ raiseHighestAgility h b := by
      unfold raiseHighestAgility BattleActor.GetAgility
      split <;> omega
    rw [List.foldl_cons]
    refine ⟨hb.1.trans i1, ?_⟩
    intro a ha
    rcases List.mem_cons.mp ha with e | e
    · rw [e]; exact hb.2.trans i1
    · exact i2 a e

theorem findHighestAgility_bounds (character_actors enemy_actors : List BattleActor) :
    findHighestAgility character_actors enemy_actors ≠ 0 ∧
    ∀ a ∈ character_actors ++ enemy_actors,
      a.agility ≤ findHighestAgility character_actors enemy_actors := by
  obtain ⟨-, c2⟩ := foldl_raiseHighestAgility character_actors 0
  obtain ⟨e1, e2⟩ := foldl_raiseHighestAgility enemy_actors
    (character_actors.foldl raiseHighestAgility 0)
  unfold findHighestAgility
  dsimp only
  constructor
  · split <;> omega
  · intro a ha
    have hle : a.agility
        ≤ enemy_actors.foldl raiseHighestAgility
            (character_actors.foldl raiseHighestAgility 0) := by
      rcases List.mem_append.mp ha with h | h
      · exact (c2 a h).trans e1
      · exact e2 a h
    split <;> omega

theorem setActorIdleStateTime_scaled (bm : BattleMode) (a : BattleActor)
    (ha : a.agility ≠ 0) (hH : bm._highest_agility ≠ 0) (hf : bm._battle_type_time_factor ≠ 0) :
    SetActorIdleStateTime bm (some a)
      = (match castUint32 (idleTimeFloat bm a) with
        | none => none
        | some time => some (some { a with idle_state_time := time })) ∧
    idleDivisor bm (some a)
      = some (roundFloat (roundFloat (a.agility : ℚ) * bm._battle_type_time_factor)) := by
  unfold SetActorIdleStateTime idleDivisor idleTimeFloat BattleActor.GetAgility
    BattleActor.SetIdleStateTime
  have hg : ¬ (bm._highest_agility = 0 ∨ bm._battle_type_time_factor = 0) := by
    intro h
    rcases h with h | h
    · exact hH h
    · exact hf h
  simp only [if_neg ha, if_neg hg]
  exact ⟨trivial, trivial⟩

/-- The float conversion of a positive `uint32` lies between 1 and `2 ^ 32`. -/
theorem roundFloat_natCast_bounds (n : Nat) (h0 : n ≠ 0) (h1 : n < 2 ^ 32) :
    1 ≤ roundFloat (n : ℚ) ∧ roundFloat (n : ℚ) ≤ 2 ^ 32 := by
  have hn1 : (1 : ℚ) ≤ (n : ℚ) := by exact_mod_cast Nat.one_le_iff_ne_zero.mpr h0
  have hn2 : (n : ℚ) ≤ 2 ^ 32 := by exact_mod_cast h1.le
  constructor
  · have := roundFloat_ge_pow (n : ℚ) 0 (by norm_num) (by rw [zpow_zero]; exact hn1)
    rwa [zpow_zero] at this
  · have := roundFloat_le_pow (n : ℚ) 32 (by norm_num) (by linarith)
      (by rw [show ((32 : Int)) = ((32 : Nat) : Int) by rfl, zpow_natCast]; exact hn2)
    rwa [show ((32 : Int)) = ((32 : Nat) : Int) by rfl, zpow_natCast] at this

/-- Doubling the agility of the actor halves the float idle time, when the
factor lies between `2 ^ (-64)` and `2 ^ 64`: scaling by 2 commutes with every
rounding of the computation. -/
theorem idleTimeFloat_double (bm : BattleMode) (fast half : BattleActor)
    (hlo : (2 : ℚ) ^ (-64 : Int) ≤ bm._battle_type_time_factor)
    (hhi : bm._battle_type_time_factor ≤ (2 : ℚ) ^ (64 : Int))
    (hH : bm._highest_agility ≠ 0) (hH32 : bm._highest_agility < 2 ^ 32)
    (hfast : fast.agility = bm._highest_agility)
    (hhalf : 2 * half.agility = bm._highest_agility) :
    idleTimeFloat bm half = 2 * idleTimeFloat bm fast ∧ 0 ≤ idleTimeFloat bm fast := by
  have hfpos : 0 < bm._battle_type_time_factor := lt_of_lt_of_le (zpow_pos (by norm_num) _) hlo
  have ha0 : half.agility ≠ 0 := by omega
  have ha32 : half.agility < 2 ^ 32 := by omega
  obtain ⟨A1, A2⟩ := roundFloat_natCast_bounds half.agility ha0 ha32
  have hAn : (2 : ℚ) ^ (-126 : Int) ≤ |(half.agility : ℚ)| := by
    have h1 : (1 : ℚ) ≤ (half.agility : ℚ) := by
      exact_mod_cast Nat.one_le_iff_ne_zero.mpr ha0
    have h2 : (2 : ℚ) ^ (-126 : Int) ≤ 1 := by norm_num
    rw [abs_of_pos (by linarith)]
    linarith
  have hHA : roundFloat (bm._highest_agility : ℚ) = 2 * roundFloat (half.agility : ℚ) := by
    rw [← hhalf]
    push_cast
    exact roundFloat_two_mul _ hAn
  -- the divisor
  have hy1 : (2 : ℚ) ^ (-64 : Int) ≤ roundFloat (half.agility : ℚ) * bm._battle_type_time_factor := by
    calc (2 : ℚ) ^ (-64 : Int) = 1 * 2 ^ (-64 : Int) := (one_mul _).symm
      _ ≤ roundFloat (half.agility : ℚ) * bm._battle_type_time_factor :=
          mul_le_mul A1 hlo (zpow_pos (by norm_num) _).le (by linarith)
  have hy2 : roundFloat (half.agility : ℚ) * bm._battle_type_time_factor ≤ (2 : ℚ) ^ (96 : Int) := by
    calc roundFloat (half.agility : ℚ) * bm._battle_type_time_factor
        ≤ 2 ^ 32 * 2 ^ (64 : Int) := mul_le_mul A2 hhi hfpos.le (by norm_num)
      _ = 2 ^ (96 : Int) := by norm_num
  have hyn : (2 : ℚ) ^ (-126 : Int)
      ≤ |roundFloat (half.agility : ℚ) * bm._battle_type_time_factor| := by
    have h2 : (2 : ℚ) ^ (-126 : Int) ≤ 2 ^ (-64 : Int) := by norm_num
    rw [abs_of_pos (lt_of_lt_of_le (zpow_pos (by norm_num) _) hy1)]
    linarith
  have hD1 := roundFloat_ge_pow _ (-64) (by norm_num) hy1
  have hD2 := roundFloat_le_pow _ 96 (by norm_num)
    ((zpow_pos (by norm_num) _).le.trans hy1) hy2
  have hDpos : 0 < roundFloat (roundFloat (half.agility : ℚ) * bm._battle_type_time_factor) :=
    lt_of_lt_of_le (zpow_pos (by norm_num) _) hD1
  have hDfast : roundFloat (roundFloat (fast.agility : ℚ) * bm._battle_type_time_factor)
      = 2 * roundFloat (roundFloat (half.agility : ℚ) * bm._battle_type_time_factor) := by
    rw [hfast, hHA, mul_assoc]
    exact roundFloat_two_mul _ hyn
  -- the proportion
  have hR : (2 : ℚ) ^ (-96 : Int)
      ≤ roundFloat (bm._highest_agility : ℚ)
        / (2 * roundFloat (roundFloat (half.agility : ℚ) * bm._battle_type_time_factor)) := by
    rw [hHA, le_div_iff₀ (by linarith)]
    have e : (2 : ℚ) ^ (-96 : Int) * 2 ^ (96 : Int) = 1 := by norm_num
    calc (2 : ℚ) ^ (-96 : Int)
          * (2 * roundFloat (roundFloat (half.agility : ℚ) * bm._battle_type_time_factor))
        ≤ 2 ^ (-96 : Int) * (2 * 2 ^ (96 : Int)) :=
          mul_le_mul_of_nonneg_left (by linarith) (zpow_pos (by norm_num) _).le
      _ = 2 * 1 := by rw [← e]; ring
      _ ≤ 2 * roundFloat (half.agility : ℚ) := by linarith
  have hRn : (2 : ℚ) ^ (-126 : Int)
      ≤ |roundFloat (bm._highest_agility : ℚ)
        / (2 * roundFloat (roundFloat (half.agility : ℚ) * bm._battle_type_time_factor))| := by
    have h2 : (2 : ℚ) ^ (-126 : Int) ≤ 2 ^ (-96 : Int) := by norm_num
    rw [abs_of_pos (lt_of_lt_of_le (zpow_pos (by norm_num) _) hR)]
    linarith
  have hP := roundFloat_ge_pow _ (-96) (by norm_num) hR
  have hPhalf : roundFloat (roundFloat (bm._highest_agility : ℚ)
        / roundFloat (roundFloat (half.agility : ℚ) * bm._battle_type_time_factor))
      = 2 * roundFloat (roundFloat (bm._highest_agility : ℚ)
        / (2 * roundFloat (roundFloat (half.agility : ℚ) * bm._battle_type_time_factor))) := by
    rw [← roundFloat_two_mul _ hRn]
    congr 1
    field_simp
    ring
  -- the product
  have hM : roundFloat (MIN_IDLE_WAIT_TIME : ℚ) = 10000 := by decide!
  have hW : (2 : ℚ) ^ (-126 : Int)
      ≤ |10000 * roundFloat (roundFloat (bm._highest_agility : ℚ)
        / (2 * roundFloat (roundFloat (half.agility : ℚ) * bm._battle_type_time_factor)))| := by
    have h2 : (2 : ℚ) ^ (-126 : Int) ≤ 2 ^ (-96 : Int) := by norm_num
    have hpp := lt_of_lt_of_le (zpow_pos (by norm_num : (0 : ℚ) < 2) (-96)) hP
    rw [abs_of_pos (by positivity)]
    linarith
  have hfastEq : idleTimeFloat bm fast
      = roundFloat (10000 * roundFloat (roundFloat (bm._highest_agility : ℚ)
        / (2 * roundFloat (roundFloat (half.agility : ℚ) * bm._battle_type_time_factor)))) := by
    unfold idleTimeFloat
    rw [hM, hDfast]
  have hhalfEq : idleTimeFloat bm half
      = roundFloat (2 * (10000 * roundFloat (roundFloat (bm._highest_agility : ℚ)
        / (2 * roundFloat (roundFloat (half.agility : ℚ) * bm._battle_type_time_factor))))) := by
    unfold idleTimeFloat
    rw [hM, hPhalf]
    congr 1
    ring
  constructor
  · rw [hhalfEq, hfastEq]
    exact roundFloat_two_mul _ hW
  · rw [hfastEq]
    apply roundFloat_nonneg
    have hpp := lt_of_lt_of_le (zpow_pos (by norm_num : (0 : ℚ) < 2) (-96)) hP
    positivity


theorem roundHalfEven_near (m : ℚ) :
    (roundHalfEven m : ℚ) - m ≤ 1 / 2 ∧ m - (roundHalfEven m : ℚ) ≤ 1 / 2 := by
  have h1 : (⌊m⌋ : ℚ) ≤ m := Int.floor_le m
  have h2 : m < (⌊m⌋ : ℚ) + 1 := Int.lt_floor_add_one m
  unfold roundHalfEven
  split_ifs with a b c
  · constructor <;> linarith
  · constructor <;> push_cast <;> linarith
  · constructor <;> linarith
  · constructor <;> push_cast <;> linarith

/-- Rounding a normal positive number to single precision changes it by at
most the fraction `2 ^ (-24)` of it. -/
theorem roundFloat_rel (x : ℚ) (hn : (2 : ℚ) ^ (-126 : Int) ≤ x) :
    x * (1 - 1 / 2 ^ 24) ≤ roundFloat x ∧ roundFloat x ≤ x * (1 + 1 / 2 ^ 24) := by
  have hxpos : 0 < x := lt_of_lt_of_le (zpow_pos (by norm_num) _) hn
  have hx : x ≠ 0 := hxpos.ne'
  have he : -126 ≤ floatExponent x := floatExponent_ge x (-126) hx (by rw [abs_of_pos hxpos]; exact hn)
  obtain ⟨s1, -⟩ := floatExponent_spec x hx
  rw [abs_of_pos hxpos] at s1
  unfold roundFloat
  rw [if_neg hx, max_eq_left he]
  have hq : (0 : ℚ) < 2 ^ (floatExponent x - 23) := zpow_pos (by norm_num) _
  have hq2 : (2 : ℚ) ^ (floatExponent x - 23) * 2 ^ 23 = 2 ^ floatExponent x := by
    rw [zpow_sub₀ (by norm_num)]
    norm_num
  obtain ⟨n1, n2⟩ := roundHalfEven_near (x / 2 ^ (floatExponent x - 23))
  generalize (roundHalfEven (x / 2 ^ (floatExponent x - 23)) : ℚ) = r at n1 n2
  generalize (2 : ℚ) ^ (floatExponent x - 23) = q at hq hq2 n1 n2 ⊢
  have hm : x / q * q = x := div_mul_cancel₀ x hq.ne'
  have b1 : r * q - x ≤ q / 2 := by
    have := mul_le_mul_of_nonneg_right n1 hq.le
    rw [sub_mul, hm] at this
    linarith
  have b2 : x - r * q ≤ q / 2 := by
    have := mul_le_mul_of_nonneg_right n2 hq.le
    rw [sub_mul, hm] at this
    linarith
  have b3 : q * 2 ^ 23 ≤ x := by rw [hq2]; exact s1
  constructor
  · nlinarith
  · nlinarith

/-- A non-zero single-precision float is at least `2 ^ (-149)` in absolute
value. -/
theorem float_abs_ge (x : ℚ) (hx : x ≠ 0) (hr : roundFloat x = x) :
    (2 : ℚ) ^ (-149 : Int) ≤ |x| := by
  unfold roundFloat at hr
  rw [if_neg hx] at hr
  have hk : (-149 : Int) ≤ max (floatExponent x) (-126) - 23 := by
    have := le_max_right (floatExponent x) (-126)
    omega
  have hq : (0 : ℚ) < 2 ^ (max (floatExponent x) (-126) - 23) := zpow_pos (by norm_num) _
  have hpow : (2 : ℚ) ^ (-149 : Int) ≤ 2 ^ (max (floatExponent x) (-126) - 23) :=
    (zpow_le_zpow_iff_right₀ (by norm_num)).mpr hk
  generalize roundHalfEven (x / 2 ^ (max (floatExponent x) (-126) - 23)) = n at hr
  generalize (2 : ℚ) ^ (max (floatExponent x) (-126) - 23) = q at hr hq hpow
  have hn : n ≠ 0 := by
    intro h
    rw [h, Int.cast_zero, zero_mul] at hr
    exact hx hr.symm
  have hn1 : (1 : ℚ) ≤ |(n : ℚ)| := by
    rw [← Int.cast_abs]
    exact_mod_cast Int.one_le_abs hn
  rw [← hr, abs_mul, abs_of_pos hq]
  calc (2 : ℚ) ^ (-149 : Int) ≤ q := hpow
    _ = 1 * q := (one_mul q).symm
    _ ≤ |(n : ℚ)| * q := mul_le_mul_of_nonneg_right hn1 hq.le

/-- Five roundings, each by at most the fraction `2 ^ (-24)`, change the
quotient `10000 * h / (a * f)` by at most the fraction `2 ^ (-21)`. -/
theorem rel_chain (a h f A Hf D P X : ℚ) (ha : 0 < a) (hh : 0 < h) (hf : 0 < f)
    (hA : a * (1 - 1 / 2 ^ 24) ≤ A ∧ A ≤ a * (1 + 1 / 2 ^ 24))
    (hH : h * (1 - 1 / 2 ^ 24) ≤ Hf ∧ Hf ≤ h * (1 + 1 / 2 ^ 24))
    (hD : A * f * (1 - 1 / 2 ^ 24) ≤ D ∧ D ≤ A * f * (1 + 1 / 2 ^ 24))
    (hP : Hf / D * (1 - 1 / 2 ^ 24) ≤ P ∧ P ≤ Hf / D * (1 + 1 / 2 ^ 24))
    (hX : 10000 * P * (1 - 1 / 2 ^ 24) ≤ X ∧ X ≤ 10000 * P * (1 + 1 / 2 ^ 24)) :
    10000 * h / (a * f) * (1 - 1 / 2 ^ 21) ≤ X ∧ X ≤ 10000 * h / (a * f) * (1 + 1 / 2 ^ 21) := by
  have hlo : (0 : ℚ) < 1 - 1 / 2 ^ 24 := by norm_num
  have hhi : (0 : ℚ) < 1 + 1 / 2 ^ 24 := by norm_num
  have c1 : ((1 : ℚ) + 1 / 2 ^ 24) * (1 + 1 / 2 ^ 24) * (1 + 1 / 2 ^ 24)
      ≤ (1 + 1 / 2 ^ 21) * ((1 - 1 / 2 ^ 24) * (1 - 1 / 2 ^ 24)) := by norm_num
  have c2 : ((1 : ℚ) - 1 / 2 ^ 21) * ((1 + 1 / 2 ^ 24) * (1 + 1 / 2 ^ 24))
      ≤ (1 - 1 / 2 ^ 24) * (1 - 1 / 2 ^ 24) * (1 - 1 / 2 ^ 24) := by norm_num
  generalize (1 : ℚ) - 1 / 2 ^ 24 = lo at hA hH hD hP hX hlo c1 c2
  generalize (1 : ℚ) + 1 / 2 ^ 24 = hi at hA hH hD hP hX hhi c1 c2
  generalize (1 : ℚ) - 1 / 2 ^ 21 = el at c2
  generalize (1 : ℚ) + 1 / 2 ^ 21 = eh at c1
  have haf : 0 < a * f := mul_pos ha hf
  have hApos : 0 < A := lt_of_lt_of_le (mul_pos ha hlo) hA.1
  have hDlow : a * f * (lo * lo) ≤ D := by
    have h1 : a * lo * (f * lo) ≤ A * (f * lo) :=
      mul_le_mul_of_nonneg_right hA.1 (mul_pos hf hlo).le
    have h2 : A * (f * lo) = A * f * lo := by ring
    have h3 : a * lo * (f * lo) = a * f * (lo * lo) := by ring
    linarith [hD.1]
  have hDhigh : D ≤ a * f * (hi * hi) := by
    have h1 : A * (f * hi) ≤ a * hi * (f * hi) :=
      mul_le_mul_of_nonneg_right hA.2 (mul_pos hf hhi).le
    have h2 : A * (f * hi) = A * f * hi := by ring
    have h3 : a * hi * (f * hi) = a * f * (hi * hi) := by ring
    linarith [hD.2]
  have hlow2 : 0 < a * f * (lo * lo) := mul_pos haf (mul_pos hlo hlo)
  have hDpos : 0 < D := lt_of_lt_of_le hlow2 hDlow
  have hHfpos : 0 < Hf := lt_of_lt_of_le (mul_pos hh hlo) hH.1
  have r_up : Hf / D ≤ h * hi / (a * f * (lo * lo)) :=
    div_le_div₀ (mul_pos hh hhi).le hH.2 hlow2 hDlow
  have r_lo : h * lo / (a * f * (hi * hi)) ≤ Hf / D :=
    div_le_div₀ hHfpos.le hH.1 hDpos hDhigh
  have hrpos : 0 < Hf / D := div_pos hHfpos hDpos
  have hPpos : 0 < P := lt_of_lt_of_le (mul_pos hrpos hlo) hP.1
  have t0 : 0 < 10000 * h / (a * f) := div_pos (mul_pos (by norm_num) hh) haf
  constructor
  · have s1 : h * lo / (a * f * (hi * hi)) * lo ≤ P :=
      le_trans (mul_le_mul_of_nonneg_right r_lo hlo.le) hP.1
    have s2 : 10000 * (h * lo / (a * f * (hi * hi)) * lo) * lo ≤ 10000 * P * lo :=
      mul_le_mul_of_nonneg_right (mul_le_mul_of_nonneg_left s1 (by norm_num)) hlo.le
    have e : 10000 * (h * lo / (a * f * (hi * hi)) * lo) * lo
        = 10000 * h / (a * f) * (lo * lo * lo) / (hi * hi) := by
      field_simp
      ring
    have s3 : 10000 * h / (a * f) * el
        ≤ 10000 * h / (a * f) * (lo * lo * lo) / (hi * hi) := by
      rw [le_div_iff₀ (mul_pos hhi hhi)]
      have := mul_le_mul_of_nonneg_left c2 t0.le
      linarith
    linarith [hX.1]
  · have s1 : P ≤ h * hi / (a * f * (lo * lo)) * hi :=
      le_trans hP.2 (mul_le_mul_of_nonneg_right r_up hhi.le)
    have s2 : 10000 * P * hi ≤ 10000 * (h * hi / (a * f * (lo * lo)) * hi) * hi :=
      mul_le_mul_of_nonneg_right (mul_le_mul_of_nonneg_left s1 (by norm_num)) hhi.le
    have e : 10000 * (h * hi / (a * f * (lo * lo)) * hi) * hi
        = 10000 * h / (a * f) * (hi * hi * hi) / (lo * lo) := by
      field_simp
      ring
    have s3 : 10000 * h / (a * f) * (hi * hi * hi) / (lo * lo)
        ≤ 10000 * h / (a * f) * eh := by
      rw [div_le_iff₀ (mul_pos hlo hlo)]
      have := mul_le_mul_of_nonneg_left c1 t0.le
      linarith
    linarith [hX.2]

/-- The float idle time is within the fraction `2 ^ (-21)` of the exact
quotient `MIN_IDLE_WAIT_TIME * highest_agility / (agility * factor)`, for
`uint32` agilities and a factor between `2 ^ (-64)` and `2 ^ 64`. -/
theorem idleTimeFloat_near (bm : BattleMode) (a : BattleActor)
    (ha : a.agility ≠ 0) (ha32 : a.agility < 2 ^ 32)
    (hH : bm._highest_agility ≠ 0) (hH32 : bm._highest_agility < 2 ^ 32)
    (hlo : (2 : ℚ) ^ (-64 : Int) ≤ bm._battle_type_time_factor)
    (hhi : bm._battle_type_time_factor ≤ (2 : ℚ) ^ (64 : Int)) :
    (MIN_IDLE_WAIT_TIME : ℚ) * (bm._highest_agility : ℚ)
        / ((a.agility : ℚ) * bm._battle_type_time_factor) * (1 - 1 / 2 ^ 21)
      ≤ idleTimeFloat bm a ∧
    idleTimeFloat bm a
      ≤ (MIN_IDLE_WAIT_TIME : ℚ) * (bm._highest_agility : ℚ)
        / ((a.agility : ℚ) * bm._battle_type_time_factor) * (1 + 1 / 2 ^ 21) := by
  have hfpos : 0 < bm._battle_type_time_factor := lt_of_lt_of_le (zpow_pos (by norm_num) _) hlo
  have small : (2 : ℚ) ^ (-126 : Int) ≤ 1 := by norm_num
  have small2 : (2 : ℚ) ^ (-126 : Int) ≤ 2 ^ (-64 : Int) := by norm_num
  have small3 : (2 : ℚ) ^ (-126 : Int) ≤ 2 ^ (-96 : Int) := by norm_num
  have ha1 : (1 : ℚ) ≤ (a.agility : ℚ) := by exact_mod_cast Nat.one_le_iff_ne_zero.mpr ha
  have hH1 : (1 : ℚ) ≤ (bm._highest_agility : ℚ) := by
    exact_mod_cast Nat.one_le_iff_ne_zero.mpr hH
  obtain ⟨A1, A2⟩ := roundFloat_natCast_bounds a.agility ha ha32
  obtain ⟨H1, H2⟩ := roundFloat_natCast_bounds bm._highest_agility hH hH32
  have rA := roundFloat_rel (a.agility : ℚ) (by linarith)
  have rH := roundFloat_rel (bm._highest_agility : ℚ) (by linarith)
  have hy1 : (2 : ℚ) ^ (-64 : Int) ≤ roundFloat (a.agility : ℚ) * bm._battle_type_time_factor := by
    calc (2 : ℚ) ^ (-64 : Int) = 1 * 2 ^ (-64 : Int) := (one_mul _).symm
      _ ≤ roundFloat (a.agility : ℚ) * bm._battle_type_time_factor :=
          mul_le_mul A1 hlo (zpow_pos (by norm_num) _).le (by linarith)
  have hy2 : roundFloat (a.agility : ℚ) * bm._battle_type_time_factor ≤ (2 : ℚ) ^ (96 : Int) := by
    calc roundFloat (a.agility : ℚ) * bm._battle_type_time_factor
        ≤ 2 ^ 32 * 2 ^ (64 : Int) := mul_le_mul A2 hhi hfpos.le (by norm_num)
      _ = 2 ^ (96 : Int) := by norm_num
  have rD := roundFloat_rel _ (small2.trans hy1)
  have hD1 := roundFloat_ge_pow _ (-64) (by norm_num) hy1
  have hD2 := roundFloat_le_pow _ 96 (by norm_num)
    ((zpow_pos (by norm_num) _).le.trans hy1) hy2
  have hDpos : 0 < roundFloat (roundFloat (a.agility : ℚ) * bm._battle_type_time_factor) :=
    lt_of_lt_of_le (zpow_pos (by norm_num) _) hD1
  have hR : (2 : ℚ) ^ (-96 : Int)
      ≤ roundFloat (bm._highest_agility : ℚ)
        / roundFloat (roundFloat (a.agility : ℚ) * bm._battle_type_time_factor) := by
    rw [le_div_iff₀ hDpos]
    have e : (2 : ℚ) ^ (-96 : Int) * 2 ^ (96 : Int) = 1 := by norm_num
    calc (2 : ℚ) ^ (-96 : Int)
          * roundFloat (roundFloat (a.agility : ℚ) * bm._battle_type_time_factor)
        ≤ 2 ^ (-96 : Int) * 2 ^ (96 : Int) :=
          mul_le_mul_of_nonneg_left hD2 (zpow_pos (by norm_num) _).le
      _ = 1 := e
      _ ≤ roundFloat (bm._highest_agility : ℚ) := H1
  have rP := roundFloat_rel _ (small3.trans hR)
  have hP := roundFloat_ge_pow _ (-96) (by norm_num) hR
  have hW : (2 : ℚ) ^ (-126 : Int)
      ≤ 10000 * roundFloat (roundFloat (bm._highest_agility : ℚ)
        / roundFloat (roundFloat (a.agility : ℚ) * bm._battle_type_time_factor)) := by
    have hpp := lt_of_lt_of_le (zpow_pos (by norm_num : (0 : ℚ) < 2) (-96)) hP
    linarith
  have rX := roundFloat_rel _ hW
  have hM : roundFloat (MIN_IDLE_WAIT_TIME : ℚ) = 10000 := by decide!
  have hM2 : (MIN_IDLE_WAIT_TIME : ℚ) = 10000 := by decide!
  unfold idleTimeFloat
  rw [hM, hM2]
  exact rel_chain _ _ _ _ _ _ _ _ (by linarith) (by linarith) hfpos rA rH rD rP rX

/-- The float idle times of the actor with the highest agility and of an actor
with half that agility, for a factor between `2 ^ (-64)` and `2 ^ 64`. -/
theorem idle_times (bm : BattleMode) (fast half : BattleActor)
    (hlo : (2 : ℚ) ^ (-64 : Int) ≤ bm._battle_type_time_factor)
    (hhi : bm._battle_type_time_factor ≤ (2 : ℚ) ^ (64 : Int))
    (hH : bm._highest_agility ≠ 0) (hH32 : bm._highest_agility < 2 ^ 32)
    (hfast : fast.agility = bm._highest_agility)
    (hhalf : 2 * half.agility = bm._highest_agility)
    (hrange : idleTimeFloat bm half < 2 ^ 32) :
    SetActorIdleStateTime bm (some fast)
      = some (some { fast with idle_state_time := Int.toNat ⌊idleTimeFloat bm fast⌋ }) ∧
    SetActorIdleStateTime bm (some half)
      = some (some { half with
          idle_state_time := Int.toNat ⌊2 * idleTimeFloat bm fast⌋ }) ∧
    0 ≤ idleTimeFloat bm fast := by
  have hfpos : 0 < bm._battle_type_time_factor := lt_of_lt_of_le (zpow_pos (by norm_num) _) hlo
  have hf0 : bm._battle_type_time_factor ≠ 0 := ne_of_gt hfpos
  have hh : half.agility ≠ 0 := by omega
  obtain ⟨d1, d2⟩ := idleTimeFloat_double bm fast half hlo hhi hH hH32 hfast hhalf
  rw [d1] at hrange
  refine ⟨?_, ?_, d2⟩
  · rw [(setActorIdleStateTime_scaled bm fast (by rw [hfast]; exact hH) hH hf0).1,
      castUint32_of_nonneg _ d2 (by linarith)]
  · rw [(setActorIdleStateTime_scaled bm half hh hH hf0).1, d1,
      castUint32_of_nonneg _ (by linarith) hrange]

/-- C30, as stated, fails in two ways. With `MIN_IDLE_WAIT_TIME = 10000`, a
battle-type time factor of 3/2 and a highest agility of 2, the actor with the
highest agility gets the idle time 6666 and an actor with half that agility
gets 13333, which is not twice 6666. And the idle time is not the truncation of
the exact quotient: with a highest agility of 39, an agility of 25 and a factor
of 1, the float quotient 39/25 is rounded below 1.56 and the idle time is 15599,
while `trunc (10000 * 39 / (25 * 1))` is 15600. -/
theorem idle_time_not_twice :
    SetActorIdleStateTime ⟨2, 3 / 2⟩ (some ⟨2, 0⟩) = some (some ⟨2, 6666⟩) ∧
    SetActorIdleStateTime ⟨2, 3 / 2⟩ (some ⟨1, 0⟩) = some (some ⟨1, 13333⟩) ∧
    (13333 : Nat) ≠ 2 * 6666 ∧
    SetActorIdleStateTime ⟨39, 1⟩ (some ⟨25, 0⟩) = some (some ⟨25, 15599⟩) ∧
    Int.toNat ⌊(MIN_IDLE_WAIT_TIME : ℚ) * 39 / (25 * 1)⌋ = 15600 := by
  decide!

/-- C30, amended: battle idle-time scaling is guarded against zero denominators.
`SetActorIdleStateTime` leaves the actor unchanged and divides by nothing when
the actor is null, its agility is 0, the highest agility is 0 or the battle-type
time factor is 0. Otherwise the divisor, the float `agility * factor`, is not 0
(the factor being a float), and the idle time is the truncation of the float
`x = MIN_IDLE_WAIT_TIME * (highest_agility / (agility * factor))` computed in
single precision (the two agilities converted to `float`, the product, the
quotient and the final product each rounded), whenever `0 ≤ x < 2 ^ 32`; for
`uint32` agilities and a factor between `2 ^ (-64)` and `2 ^ 64` that float is
within the fraction `2 ^ (-21)` of the exact quotient `MIN_IDLE_WAIT_TIME *
highest_agility / (agility * factor)`. The highest agility found by
`_Initialize` is never 0 and is at least the agility of every actor. So, for a
factor between `2 ^ (-64)` and `2 ^ 64` and a `uint32` highest agility, an actor
whose agility is half the highest agility gets an idle time `T2` with
`2 * T ≤ T2 ≤ 2 * T + 1`, where `T` is the idle time of the actor with the
highest agility (the float of the slower actor being below `2 ^ 32`): it is
twice `T` up to the truncation, and exactly twice when the float of the fastest
actor is a whole number. -/
theorem idle_time_scaling (bm : BattleMode) (fast half : BattleActor)
    (hlo : (2 : ℚ) ^ (-64 : Int) ≤ bm._battle_type_time_factor)
    (hhi : bm._battle_type_time_factor ≤ (2 : ℚ) ^ (64 : Int))
    (hH : bm._highest_agility ≠ 0) (hH32 : bm._highest_agility < 2 ^ 32)
    (hfast : fast.agility = bm._highest_agility)
    (hhalf : 2 * half.agility = bm._highest_agility)
    (hrange : idleTimeFloat bm half < 2 ^ 32) :
    (∀ m : BattleMode, SetActorIdleStateTime m none = some none ∧ idleDivisor m none = none) ∧
    (∀ (m : BattleMode) (a : BattleActor),
      (a.agility = 0 ∨ m._highest_agility = 0 ∨ m._battle_type_time_factor = 0) →
      SetActorIdleStateTime m (some a) = some (some a) ∧ idleDivisor m (some a) = none) ∧
    (∀ (m : BattleMode) (a : BattleActor),
      a.agility ≠ 0 → m._highest_agility ≠ 0 → m._battle_type_time_factor ≠ 0 →
      (roundFloat m._battle_type_time_factor = m._battle_type_time_factor →
        ∃ q : ℚ, idleDivisor m (some a) = some q ∧ q ≠ 0) ∧
      (0 ≤ idleTimeFloat m a → idleTimeFloat m a < 2 ^ 32 →
        SetActorIdleStateTime m (some a)
          = some (some { a with idle_state_time := Int.toNat ⌊idleTimeFloat m a⌋ })) ∧
      (a.agility < 2 ^ 32 → m._highest_agility < 2 ^ 32 →
        (2 : ℚ) ^ (-64 : Int) ≤ m._battle_type_time_factor →
        m._battle_type_time_factor ≤ (2 : ℚ) ^ (64 : Int) →
        (MIN_IDLE_WAIT_TIME : ℚ) * (m._highest_agility : ℚ)
            / ((a.agility : ℚ) * m._battle_type_time_factor) * (1 - 1 / 2 ^ 21)
          ≤ idleTimeFloat m a ∧
        idleTimeFloat m a
          ≤ (MIN_IDLE_WAIT_TIME : ℚ) * (m._highest_agility : ℚ)
            / ((a.agility : ℚ) * m._battle_type_time_factor) * (1 + 1 / 2 ^ 21))) ∧
    (∀ character_actors enemy_actors : List BattleActor,
      findHighestAgility character_actors enemy_actors ≠ 0 ∧
      ∀ a ∈ character_actors ++ enemy_actors,
        a.agility ≤ findHighestAgility character_actors enemy_actors) ∧
    ∃ T T2 : Nat,
      SetActorIdleStateTime bm (some fast) = some (some { fast with idle_state_time := T }) ∧
      SetActorIdleStateTime bm (some half) = some (some { half with idle_state_time := T2 }) ∧
      2 * T ≤ T2 ∧ T2 ≤ 2 * T + 1 ∧
      ((⌊idleTimeFloat bm fast⌋ : ℚ) = idleTimeFloat bm fast → T2 = 2 * T) := by
  refine ⟨fun m => ⟨rfl, rfl⟩, fun m a h => setActorIdleStateTime_guarded m a h, ?_,
    findHighestAgility_bounds, ?_⟩
  · intro m a ha hH1 hf1
    obtain ⟨s1, s2⟩ := setActorIdleStateTime_scaled m a ha hH1 hf1
    refine ⟨?_, ?_, ?_⟩
    · intro hfl
      refine ⟨_, s2, ?_⟩
      apply roundFloat_ne_zero
      have hA : (1 : ℚ) ≤ roundFloat (a.agility : ℚ) := by
        have := roundFloat_ge_pow (a.agility : ℚ) 0 (by norm_num)
          (by rw [zpow_zero]; exact_mod_cast Nat.one_le_iff_ne_zero.mpr ha)
        rwa [zpow_zero] at this
      have hF := float_abs_ge _ hf1 hfl
      rw [abs_mul, abs_of_pos (by linarith : (0 : ℚ) < roundFloat (a.agility : ℚ))]
      calc (2 : ℚ) ^ (-149 : Int) ≤ |m._battle_type_time_factor| := hF
        _ = 1 * |m._battle_type_time_factor| := (one_mul _).symm
        _ ≤ roundFloat (a.agility : ℚ) * |m._battle_type_time_factor| :=
            mul_le_mul_of_nonneg_right hA (abs_nonneg _)
    · intro h0 h1
      rw [s1, castUint32_of_nonneg _ h0 h1]
    · intro ha32 hH32a hloa hhia
      exact idleTimeFloat_near m a ha ha32 hH1 hH32a hloa hhia
  · obtain ⟨t1, t2, hx0⟩ := idle_times bm fast half hlo hhi hH hH32 hfast hhalf hrange
    have hfl : 0 ≤ ⌊idleTimeFloat bm fast⌋ := Int.floor_nonneg.mpr hx0
    have hfl2 : 0 ≤ ⌊2 * idleTimeFloat bm fast⌋ := Int.floor_nonneg.mpr (by linarith)
    obtain ⟨d1, d2⟩ := floor_double (idleTimeFloat bm fast)
    refine ⟨_, _, t1, t2, by omega, by omega, ?_⟩
    intro hint
    have e : ⌊2 * idleTimeFloat bm fast⌋ = 2 * ⌊idleTimeFloat bm fast⌋ := by
      rw [Int.floor_eq_iff]
      push_cast
      constructor
      · linarith
      · linarith
    omega

/-- A concrete instance for C30: with a factor of 3 and a highest agility of 2
the fastest actor gets the idle time 3333 and an actor of agility 1 gets the
idle time 6666. -/
theorem idle_time_scaling_witness :
    SetActorIdleStateTime ⟨2, 3⟩ (some ⟨2, 0⟩) = some (some ⟨2, 3333⟩) ∧
    SetActorIdleStateTime ⟨2, 3⟩ (some ⟨1, 0⟩) = some (some ⟨1, 6666⟩) ∧
    ∃ T T2 : Nat,
      SetActorIdleStateTime ⟨2, 3⟩ (some ⟨2, 0⟩)
        = some (some { (⟨2, 0⟩ : BattleActor) with idle_state_time := T }) ∧
      SetActorIdleStateTime ⟨2, 3⟩ (some ⟨1, 0⟩)
        = some (some { (⟨1, 0⟩ : BattleActor) with idle_state_time := T2 }) ∧
      2 * T ≤ T2 ∧ T2 ≤ 2 * T + 1 ∧
      ((⌊idleTimeFloat ⟨2, 3⟩ ⟨2, 0⟩⌋ : ℚ) = idleTimeFloat ⟨2, 3⟩ ⟨2, 0⟩ → T2 = 2 * T) :=
  ⟨by decide!, by decide!,
    (idle_time_scaling ⟨2, 3⟩ ⟨2, 0⟩ ⟨1, 0⟩ (by decide!) (by decide!) (by decide) (by decide)
      rfl rfl (by decide!)).2.2.2.2⟩

end vt_mode_manager
